import Mathlib

/-!
# Live-cast layer of the game server

A shallow embedding of `ProtocolCaster` (protocolcaster.cpp), of the spectator
fields it touches (protocolspectator.h) and of the cast directory query
`ProtocolLogin::getCastingStreamsList` (protocollogin.cpp).

Objects reached through pointers live in heaps (functions from a pointer to
the object); every member function takes the world and the `this` pointer and
returns the new world.  `World.trace` is the ordered log of the messages,
database tasks and member mutations a call performs.
-/

namespace Cast

/-- A `std::string`. -/
abbrev Str := List Char

/-- Address of a spectator client (`ProtocolGame*` stored in `m_spectators`). -/
abbrev SpecPtr := Nat

/-- Address of a `Player`. -/
abbrev PlayerPtr := Nat

/-- Address of a `ProtocolCaster`. -/
abbrev CasterPtr := Nat

/-- Number of values of a `uint32_t`. -/
def UINT32 : Nat := 4294967296

/-- The fields of a `Player` the cast code reads. -/
structure Player where
  name : Str
  guid : Nat
  removed : Bool
deriving DecidableEq, Repr

/-- A spectator client: the `ProtocolSpectator` fields of protocolspectator.h
(`spectatorName`, `spectatorId`), the `player` pointer of `ProtocolGame`, the
remote address returned by `getIP()`, and the bookkeeping of the calls the
caster makes on it: `refs` is the number of `addRef()` minus the number of
`unRef()` calls, `disconnects` the number of `disconnect()` calls. -/
structure ProtocolSpectator where
  spectatorName : Str
  spectatorId : Nat
  ip : Nat
  player : Option PlayerPtr
  refs : Int
  disconnects : Nat
deriving DecidableEq, Repr

/-- The members of a `ProtocolCaster`.  The member declarations are in
protocolcaster.h; the counter is taken as the `uint32_t` that
`setSpectatorId(uint32_t)` receives, `muteList` as a sequence of ids
(`push_back`, `std::find`, `erase`) and `banMap` as a map with unique keys
listed in key order (`insert`, `erase(key)`, iteration). -/
structure ProtocolCaster where
  player : Option PlayerPtr
  hasConnection : Bool
  m_isLiveCaster : Bool
  m_spectators : List SpecPtr
  m_spectatorsCount : Nat
  muteList : List Nat
  banMap : List (Nat × Str)
  m_liveCastName : Str
  m_liveCastPassword : Str
deriving DecidableEq, Repr

/-- One entry of the ordered log of a call. -/
inductive Event where
  /-- Call `sendTextMessage(TextMessage(MESSAGE_STATUS_SMALL, text), false)`:
  a private status message to the caster. -/
  | sendTextMessage (text : Str)
  /-- Call `sendChannelMessage("", text, TALKTYPE_CHANNEL_O, CHANNEL_CAST, broadcast)`:
  a message on the cast channel, with the value of its last argument
  `broadcast`. -/
  | sendChannelMessage (text : Str) (broadcast : Bool)
  /-- Call `sendChannel(CHANNEL_CAST, LIVE_CAST_CHAT_NAME, nullptr, nullptr)`. -/
  | sendChannel
  /-- Database task of `registerLiveCast`. -/
  | registerLiveCast (guid : Option Nat) (name : Str) (passwordProtected : Bool)
  /-- Database task of `unregisterLiveCast`. -/
  | unregisterLiveCast (guid : Option Nat)
  /-- Database task of `updateLiveCastInfo`. -/
  | updateLiveCastInfo (guid : Option Nat) (name : Str) (passwordProtected : Bool)
      (spectators : Nat)
  /-- Statement `muteList.push_back(id)`. -/
  | muteListPushBack (id : Nat)
  /-- Statement `muteList.erase(it)` for the found id. -/
  | muteListErase (id : Nat)
  /-- Statement `banMap.insert(std::make_pair(ip, name))`. -/
  | banMapInsert (ip : Nat) (name : Str)
  /-- Statement `banMap.erase(key)`. -/
  | banMapErase (ip : Nat)
  /-- Statement `m_liveCastPassword = newPassword`. -/
  | setPassword (password : Str)
  /-- Statement `m_spectators.push_back(p)`. -/
  | spectatorsPushBack (p : SpecPtr)
  /-- Statement `m_spectators.erase(it)` for the found client. -/
  | spectatorsErase (p : SpecPtr)
  /-- Call `spectator->disconnect()`. -/
  | disconnect (p : SpecPtr)
deriving DecidableEq, Repr

/-- The process state: configuration, the heaps of players, casters and
spectator clients, the static registry `m_liveCasts` in its enumeration
order, and the log. -/
structure World where
  enableLiveCasting : Bool
  maxLiveCastCount : Nat
  players : PlayerPtr → Player
  casters : CasterPtr → ProtocolCaster
  spectators : SpecPtr → ProtocolSpectator
  m_liveCasts : List (PlayerPtr × CasterPtr)
  trace : List Event

/-- Modelled from the spec: `toLowerCaseString` is defined in tools.cpp, which
is absent; the spec compares names "case-insensitively" through the
"lowercased name", so every character is mapped to its lower case. -/
def toLowerCaseString (s : Str) : Str := s.map Char.toLower

/-- Modelled from the spec: `explodeString(s, " ", 1)` is defined in tools.cpp,
which is absent; the spec's tokenization is "split-on-first-space with limit
one": the text before the first space and, if there is a space, the whole
remainder after it. -/
def explodeString (s : Str) : List Str :=
  match s.dropWhile (fun c => c != ' ') with
  | [] => [s.takeWhile (fun c => c != ' ')]
  | _ :: rest => [s.takeWhile (fun c => c != ' '), rest]

/-- The result of `c_str()` read back as a string: the text before the first
NUL character. -/
def cStr (s : Str) : Str := s.takeWhile (fun c => c != Char.ofNat 0)

/-- Modelled from the spec: `isPasswordProtected` is declared in
protocolcaster.h, which is absent; the spec says "empty ⇒ not
password-protected". -/
def isPasswordProtected (c : ProtocolCaster) : Bool := !c.m_liveCastPassword.isEmpty

/-- Modelled from the spec: `getSpectatorCount` is declared in
protocolcaster.h, which is absent; the spec's viewer count is the number of
listed viewers. -/
def getSpectatorCount (c : ProtocolCaster) : Nat := c.m_spectators.length

/-- Replace the caster object at `self`. -/
def World.setCaster (w : World) (self : CasterPtr) (c : ProtocolCaster) : World :=
  { w with casters := Function.update w.casters self c }

/-- Replace the spectator object at `p`. -/
def World.setSpectator (w : World) (p : SpecPtr) (s : ProtocolSpectator) : World :=
  { w with spectators := Function.update w.spectators p s }

/-- Append one entry to the log. -/
def World.emit (w : World) (e : Event) : World :=
  { w with trace := w.trace ++ [e] }

/-- The value of `player->getGUID()` for the owner of `self` (the source
dereferences `player` without a check). -/
def ownerGuid (w : World) (self : CasterPtr) : Option Nat :=
  (w.casters self).player.map (fun p => (w.players p).guid)

/-- `ProtocolCaster::registerLiveCast`. -/
def registerLiveCast (w : World) (self : CasterPtr) : World :=
  let c := w.casters self
  w.emit (.registerLiveCast (ownerGuid w self) c.m_liveCastName (isPasswordProtected c))

/-- `ProtocolCaster::unregisterLiveCast`. -/
def unregisterLiveCast (w : World) (self : CasterPtr) : World :=
  w.emit (.unregisterLiveCast (ownerGuid w self))

/-- `ProtocolCaster::updateLiveCastInfo`. -/
def updateLiveCastInfo (w : World) (self : CasterPtr) : World :=
  let c := w.casters self
  w.emit (.updateLiveCastInfo (ownerGuid w self) c.m_liveCastName (isPasswordProtected c)
    (getSpectatorCount c))

/-- The text `"Spectator(" << count << ")"`; it holds no NUL, so `c_str()`
keeps all of it. -/
def spectatorNameOf (count : Nat) : Str :=
  "Spectator(".toList ++ Nat.toDigits 10 count ++ ")".toList

/-- `ProtocolCaster::addSpectator`. -/
def addSpectator (w : World) (self : CasterPtr) (spectatorClient : SpecPtr) : World :=
  let c := w.casters self
  let count := (c.m_spectatorsCount + 1) % UINT32
  let w := w.setCaster self
    { c with m_spectatorsCount := count, m_spectators := c.m_spectators ++ [spectatorClient] }
  let w := w.emit (.spectatorsPushBack spectatorClient)
  let s := w.spectators spectatorClient
  let w := w.setSpectator spectatorClient
    { s with refs := s.refs + 1, spectatorName := spectatorNameOf count, spectatorId := count }
  updateLiveCastInfo w self

/-- `ProtocolCaster::removeSpectator`. -/
def removeSpectator (w : World) (self : CasterPtr) (spectatorClient : SpecPtr) : World :=
  let c := w.casters self
  let w :=
    if spectatorClient ∈ c.m_spectators then
      let w := w.setCaster self { c with m_spectators := c.m_spectators.erase spectatorClient }
      let w := w.emit (.spectatorsErase spectatorClient)
      let s := w.spectators spectatorClient
      w.setSpectator spectatorClient { s with refs := s.refs - 1 }
    else w
  updateLiveCastInfo w self

/-- The loop of `ProtocolCaster::getSpectatorByName` over the viewer list;
`tmpName` is the lowercased name looked for. -/
def findSpectator (w : World) (tmpName : Str) : List SpecPtr → Option SpecPtr
  | [] => none
  | t :: rest =>
    if toLowerCaseString (w.spectators t).spectatorName = tmpName then some t
    else findSpectator w tmpName rest

/-- `ProtocolCaster::getSpectatorByName`. -/
def getSpectatorByName (w : World) (self : CasterPtr) (name : Str) : Option SpecPtr :=
  findSpectator w (toLowerCaseString name) (w.casters self).m_spectators

/-- `spectator->disconnect()`. -/
def disconnectSpectator (w : World) (p : SpecPtr) : World :=
  let s := w.spectators p
  (w.setSpectator p { s with disconnects := s.disconnects + 1 }).emit (.disconnect p)

/-- Put a record for a new address at its place in key order. -/
def banMapPlace (ip : Nat) (name : Str) : List (Nat × Str) → List (Nat × Str)
  | [] => [(ip, name)]
  | (k, v) :: rest =>
    if ip < k then (ip, name) :: (k, v) :: rest
    else (k, v) :: banMapPlace ip name rest

/-- Insertion `banMap.insert(std::make_pair(ip, name))` into a map with unique
keys kept in key order: an address that already has a record keeps it. -/
def banMapInsert (ip : Nat) (name : Str) (m : List (Nat × Str)) : List (Nat × Str) :=
  if ip ∈ m.map Prod.fst then m else banMapPlace ip name m

/-- Removal `banMap.erase(key)`. -/
def banMapErase (ip : Nat) (m : List (Nat × Str)) : List (Nat × Str) :=
  m.filter (fun kv => kv.1 != ip)

/-- Private status message to the caster. -/
def sendTextMessage (w : World) (text : Str) : World := w.emit (.sendTextMessage text)

/-- Call `sendChannelMessage("", text, TALKTYPE_CHANNEL_O, CHANNEL_CAST, false)`:
a message on the cast channel; every call made by `checkCommand` passes
`false` as the `broadcast` argument. -/
def sendChannelMessage (w : World) (text : Str) : World :=
  w.emit (.sendChannelMessage text false)

/-- The branch of `checkCommand` for `mute` and `unmute`; `toMute` is the
lowercased argument. -/
def muteCommand (w : World) (self : CasterPtr) (command toMute : Str) : World :=
  if toMute = [] then sendTextMessage w "Not enough parameters.".toList
  else
    match getSpectatorByName w self toMute with
    | some spectator =>
      let s := w.spectators spectator
      if command = "mute".toList then
        let w := sendChannelMessage w (s.spectatorName ++ " has been muted.".toList)
        let c := w.casters self
        (w.setCaster self { c with muteList := c.muteList ++ [s.spectatorId] }).emit
          (.muteListPushBack s.spectatorId)
      else
        let w := sendChannelMessage w (s.spectatorName ++ " has been unmuted.".toList)
        let c := w.casters self
        if s.spectatorId ∈ c.muteList then
          (w.setCaster self { c with muteList := c.muteList.erase s.spectatorId }).emit
            (.muteListErase s.spectatorId)
        else w
    | none => sendTextMessage w "Spectator not found.".toList

/-- The branch of `checkCommand` for `ban` and `unban`; `t1` is the argument
as typed. -/
def banCommand (w : World) (self : CasterPtr) (command t1 : Str) : World :=
  let toBan := toLowerCaseString t1
  if toBan = [] then sendTextMessage w "Not enough parameters.".toList
  else if command ≠ "unban".toList then
    match getSpectatorByName w self toBan with
    | some spectator =>
      let name := (w.spectators spectator).spectatorName
      let w := sendChannelMessage w (name ++ " has been banned.".toList)
      let name := toLowerCaseString name
      let ip := (w.spectators spectator).ip
      let c := w.casters self
      let w := (w.setCaster self { c with banMap := banMapInsert ip name c.banMap }).emit
        (.banMapInsert ip name)
      let w := removeSpectator w self spectator
      disconnectSpectator w spectator
    | none => sendTextMessage w "Spectator not found.".toList
  else
    let c := w.casters self
    match c.banMap.find? (fun it => toBan = it.2) with
    | some it =>
      let w := (w.setCaster self { c with banMap := banMapErase it.1 c.banMap }).emit
        (.banMapErase it.1)
      sendChannelMessage w (t1 ++ " has been unbanned.".toList)
    | none => sendTextMessage w "Spectator not found.".toList

/-- The branch of `checkCommand` for `spectators`. -/
def spectatorsCommand (w : World) (self : CasterPtr) : World :=
  let c := w.casters self
  let ss : Str :=
    if getSpectatorCount c > 0 then
      "Spectators:".toList ++ ['\n'] ++
        (c.m_spectators.map (fun it => (w.spectators it).spectatorName ++ ['\n'])).flatten
    else "No spectators.".toList ++ ['\n']
  sendChannelMessage w (cStr ss)

/-- The branch of `checkCommand` for `password`. -/
def passwordCommand (w : World) (self : CasterPtr) (newPassword : Str) : World :=
  if newPassword = [] then sendTextMessage w "Not enough parameters.".toList
  else
    let c := w.casters self
    let w := (w.setCaster self { c with m_liveCastPassword := newPassword }).emit
      (.setPassword newPassword)
    sendChannelMessage w ("Casting new password: ".toList ++ newPassword)

/-- The branch of `checkCommand` for `kick`; `toKick` is the lowercased
argument. -/
def kickCommand (w : World) (self : CasterPtr) (toKick : Str) : World :=
  if toKick = [] then sendTextMessage w "Not enough parameters.".toList
  else
    match getSpectatorByName w self toKick with
    | some spectator =>
      let w := sendChannelMessage w
        ((w.spectators spectator).spectatorName ++ " has been kicked.".toList)
      let w := removeSpectator w self spectator
      disconnectSpectator w spectator
    | none => sendTextMessage w "Spectator not found.".toList

/-- The command dispatch of `checkCommand` on the lowercased command word and
the remaining elements of `t` (`t.size() == 2` when there is exactly one). -/
def runCommand (w : World) (self : CasterPtr) (command : Str) (args : List Str) : World :=
  if command = "mute".toList ∨ command = "unmute".toList then
    match args with
    | [t1] => muteCommand w self command (toLowerCaseString t1)
    | _ => sendTextMessage w "Not enough parameters.".toList
  else if command = "ban".toList ∨ command = "unban".toList then
    match args with
    | [t1] => banCommand w self command t1
    | _ => sendTextMessage w "Not enough parameters.".toList
  else if command = "spectators".toList then spectatorsCommand w self
  else if command = "password".toList then
    match args with
    | [t1] => passwordCommand w self t1
    | _ => sendTextMessage w "Not enough parameters.".toList
  else if command = "kick".toList then
    match args with
    | [t1] => kickCommand w self (toLowerCaseString t1)
    | _ => sendTextMessage w "Not enough parameters.".toList
  else sendTextMessage w "Invalid command.".toList

/-- `ProtocolCaster::checkCommand`: the result and the new world.  On the empty
text `text[0]` is the terminating NUL, which is not the prefix. -/
def checkCommand (w : World) (self : CasterPtr) (text : Str) : Bool × World :=
  if text.head? = some '/' then
    match explodeString (text.drop 1) with
    | [] => (true, w)
    | t0 :: args => (true, runCommand w self (toLowerCaseString t0) args)
  else (false, w)

/-- Insertion `m_liveCasts.insert(std::make_pair(player, this))` into a map
with unique keys: a key that is present keeps its entry.  The enumeration
order of the registry is not specified; a new entry is enumerated last. -/
def liveCastsInsert (player : PlayerPtr) (self : CasterPtr)
    (m : List (PlayerPtr × CasterPtr)) : List (PlayerPtr × CasterPtr) :=
  if player ∈ m.map Prod.fst then m else m ++ [(player, self)]

/-- Removal `m_liveCasts.erase(player)`; a null `player` is the key of no
entry. -/
def liveCastsErase (player : Option PlayerPtr)
    (m : List (PlayerPtr × CasterPtr)) : List (PlayerPtr × CasterPtr) :=
  match player with
  | some p => m.filter (fun e => e.1 != p)
  | none => m

/-- The guard `!player || player->isRemoved()` of `startLiveCast`. -/
def playerInvalid (w : World) (c : ProtocolCaster) : Bool :=
  match c.player with
  | some p => (w.players p).removed
  | none => true

/-- `ProtocolCaster::startLiveCast`. -/
def startLiveCast (w : World) (self : CasterPtr) (password : Str) : Bool × World :=
  let c := w.casters self
  if !w.enableLiveCasting || c.m_isLiveCaster || playerInvalid w c || !c.hasConnection then
    (false, w)
  else if w.m_liveCasts.length ≥ w.maxLiveCastCount then (false, w)
  else
    match c.player with
    | none => (false, w)
    | some player =>
      let w := w.setCaster self
        { c with
          m_spectatorsCount := 0
          m_spectators := []
          muteList := []
          banMap := []
          m_liveCastName := (w.players player).name
          m_liveCastPassword := password
          m_isLiveCaster := true }
      let w := { w with m_liveCasts := liveCastsInsert player self w.m_liveCasts }
      let w := registerLiveCast w self
      (true, w.emit .sendChannel)

/-- Modelled from the spec: `ProtocolSpectator::setPlayer` is declared in
protocolspectator.h as an override, but its body is absent; it is taken as
the setter of the client's `player` pointer, which for the call
`spectator->setPlayer(nullptr)` of `stopLiveCast` is what the spec says of
stop: it "clears its back-reference". -/
def setPlayer (w : World) (p : SpecPtr) (player : Option PlayerPtr) : World :=
  w.setSpectator p { w.spectators p with player := player }

/-- The body of the loop of `stopLiveCast` for one swapped-out spectator:
`setPlayer(nullptr)`, `disconnect()`, `unRef()`. -/
def releaseSpectator (w : World) (p : SpecPtr) : World :=
  let w := setPlayer w p none
  let w := disconnectSpectator w p
  let s := w.spectators p
  w.setSpectator p { s with refs := s.refs - 1 }

/-- `ProtocolCaster::stopLiveCast`. -/
def stopLiveCast (w : World) (self : CasterPtr) : Bool × World :=
  let c := w.casters self
  if !c.m_isLiveCaster then (false, w)
  else
    let spectators := c.m_spectators
    let w := w.setCaster self { c with m_spectators := [], m_isLiveCaster := false }
    let w := { w with m_liveCasts := liveCastsErase c.player w.m_liveCasts }
    let w := spectators.foldl releaseSpectator w
    let c := w.casters self
    let w := w.setCaster self { c with m_spectators := [], muteList := [], banMap := [] }
    let w := if c.player.isSome then unregisterLiveCast w self else w
    (true, w)

/-- One element of `castList`: the pair of `getSpectatorCount()` stored as a
`uint32_t` and the name of the owning player. -/
def castEntry (w : World) (cast : PlayerPtr × CasterPtr) : Nat × Str :=
  (getSpectatorCount (w.casters cast.2) % UINT32, (w.players cast.1).name)

/-- The test that decides whether the loop of `getCastingStreamsList` pushes
an entry for `cast`. -/
def castListed (w : World) (password : Str) (cast : PlayerPtr × CasterPtr) : Bool :=
  let havePassword := !password.isEmpty
  if havePassword then
    isPasswordProtected (w.casters cast.2) &&
      decide ((w.casters cast.2).m_liveCastPassword = password)
  else true

/-- The loop of `getCastingStreamsList` that fills `castList` from the
registry, in enumeration order. -/
def buildCastList (w : World) (password : Str) : List (Nat × Str) :=
  (w.m_liveCasts.filter (castListed w password)).map (castEntry w)

/-- The comparator passed to `std::sort`: `lhs.first > rhs.first`. -/
def castComp (lhs rhs : Nat × Str) : Bool := decide (lhs.1 > rhs.1)

/-- The contract of `std::sort` with comparator `comp`: the result is a
permutation of the range and no element is ordered before an earlier one.
The relative order of equivalent elements is not part of the contract. -/
def StdSort {α : Type} (comp : α → α → Bool) (sort : List α → List α) : Prop :=
  ∀ l, (sort l).Perm l ∧ (sort l).Pairwise (fun a b => comp b a = false)

/-- What `getCastingStreamsList` answers: a disconnect with a message, or the
sorted list that is encoded into the reply. -/
inductive CastListReply where
  | disconnectClient (message : Str)
  | castList (entries : List (Nat × Str))
deriving DecidableEq, Repr

/-- `ProtocolLogin::getCastingStreamsList` up to the encoding of the reply;
`sort` is the library's `std::sort` with the comparator `castComp`. -/
def getCastingStreamsList (sort : List (Nat × Str) → List (Nat × Str)) (w : World)
    (password : Str) : CastListReply :=
  let castList := buildCastList w password
  if castList.length = 0 then
    if !password.isEmpty then
      .disconnectClient "No cast avaliable with this password.".toList
    else .disconnectClient "No cast avaliable.".toList
  else .castList (sort castList)

/-- One call on the viewer list of a session. -/
inductive ViewerOp where
  | add (p : SpecPtr)
  | remove (p : SpecPtr)
deriving DecidableEq, Repr

/-- Perform one viewer call on the session `self`. -/
def applyOp (w : World) (self : CasterPtr) : ViewerOp → World
  | .add p => addSpectator w self p
  | .remove p => removeSpectator w self p

/-- Perform a sequence of viewer calls on the session `self`, first to last. -/
def runOps (w : World) (self : CasterPtr) : List ViewerOp → World
  | [] => w
  | op :: ops => runOps (applyOp w self op) self ops

/-- The ids given out by the `addSpectator` calls of a sequence, oldest first:
each is the id the added client holds right after its call. -/
def assignedIds (w : World) (self : CasterPtr) : List ViewerOp → List Nat
  | [] => []
  | .add p :: ops =>
    ((addSpectator w self p).spectators p).spectatorId ::
      assignedIds (addSpectator w self p) self ops
  | .remove p :: ops => assignedIds (removeSpectator w self p) self ops

/-- The ids of the listed viewers of `self`, in list order. -/
def listedIds (w : World) (self : CasterPtr) : List Nat :=
  (w.casters self).m_spectators.map (fun p => (w.spectators p).spectatorId)

/-- Number of `add` calls in a sequence. -/
def countAdds : List ViewerOp → Nat
  | [] => 0
  | .add _ :: ops => countAdds ops + 1
  | .remove _ :: ops => countAdds ops

/-- Every `add` of the sequence receives a client that is not listed at the
time of the call. -/
def FreshAdds (w : World) (self : CasterPtr) : List ViewerOp → Prop
  | [] => True
  | .add p :: ops => p ∉ (w.casters self).m_spectators ∧ FreshAdds (addSpectator w self p) self ops
  | .remove p :: ops => FreshAdds (removeSpectator w self p) self ops

/-- A caster object that has never cast, owned by `player`. -/
def idleCaster (player : PlayerPtr) : ProtocolCaster :=
  { player := some player, hasConnection := true, m_isLiveCaster := false, m_spectators := [],
    m_spectatorsCount := 0, muteList := [], banMap := [], m_liveCastName := [],
    m_liveCastPassword := [] }

/-- A spectator client that has not joined a cast, connecting from address `ip`. -/
def newSpectator (ip : Nat) : ProtocolSpectator :=
  { spectatorName := [], spectatorId := 0, ip := ip, player := none, refs := 0, disconnects := 0 }

/-- A world with casting enabled, a cap of `cap` casts, no cast running:
caster `n` is owned by player `n`, the player `0` is named Alice, and every
spectator client `p` connects from address `100 + p`. -/
def idleWorld (cap : Nat) : World :=
  { enableLiveCasting := true
    maxLiveCastCount := cap
    players := fun p =>
      { name := if p = 0 then "Alice".toList else "Player".toList ++ Nat.toDigits 10 p
        guid := p, removed := false }
    casters := fun n => idleCaster n
    spectators := fun p => newSpectator (100 + p)
    m_liveCasts := []
    trace := [] }

/-- The world after caster `0` started an open cast. -/
def castingWorld : World := (startLiveCast (idleWorld 2) 0 []).2

/-- A world where the cast of caster `0` has given out the id `4294967295` to
its one listed viewer, the client `7`. -/
def wrapWorld : World :=
  (castingWorld.setCaster 0
    { castingWorld.casters 0 with m_spectators := [7], m_spectatorsCount := 4294967295 }).setSpectator
    7 { newSpectator 107 with spectatorId := 4294967295,
                               spectatorName := spectatorNameOf 4294967295, refs := 1 }


/-- A stable sort that meets the contract of `std::sort` for `castComp`:
insertion sort by viewer count, larger counts first. -/
def insertionSortCasts (l : List (Nat × Str)) : List (Nat × Str) :=
  l.insertionSort (fun a b => a.1 ≥ b.1)

/-- Another sort that meets the contract of `std::sort` for `castComp`:
insertion sort of the reversed range, which reverses the entries of equal
viewer count. -/
def reverseTieSort (l : List (Nat × Str)) : List (Nat × Str) :=
  l.reverse.insertionSort (fun a b => a.1 ≥ b.1)

/-- Perform a sequence of chat commands on the session `self`, first to last. -/
def runCommands (w : World) (self : CasterPtr) : List Str → World
  | [] => w
  | text :: texts => runCommands (checkCommand w self text).2 self texts

/-- A world with four casts running, owned by the players 0 to 3, with 3, 1,
3 and 0 viewers; the second cast has the password "secret". -/
def directoryWorld : World :=
  let w := (startLiveCast (idleWorld 8) 0 []).2
  let w := (startLiveCast w 1 "secret".toList).2
  let w := (startLiveCast w 2 []).2
  let w := (startLiveCast w 3 []).2
  let w := runOps w 0 [.add 10, .add 11, .add 12]
  let w := runOps w 1 [.add 13]
  runOps w 2 [.add 14, .add 15, .add 16]

/-- A world where every spectator client connects from the one address 500
and caster `0` has started an open cast that the clients 1 and 2 joined. -/
def sharedAddressWorld : World :=
  runOps (startLiveCast { idleWorld 2 with spectators := fun _ => newSpectator 500 } 0 []).2 0
    [.add 1, .add 2]

/-- The world after caster `0` started an open cast that the clients 1, 2 and
3 joined. -/
def threeViewersWorld : World := runOps castingWorld 0 [.add 1, .add 2, .add 3]

/-- A world with a cap of two casts, both slots taken by the casters 0 and 1. -/
def fullWorld : World :=
  (startLiveCast (startLiveCast (idleWorld 2) 0 []).2 1 "secret".toList).2

/-- The entries a reply carries: those of the sorted list, none for a
disconnect. -/
def CastListReply.entries : CastListReply → List (Nat × Str)
  | .disconnectClient _ => []
  | .castList entries => entries

/-- The command word of a chat text: `t[0]` after `toLowerCaseString`, where
`t` is the result of `explodeString` on the text behind its first character. -/
def commandWord (text : Str) : Str :=
  toLowerCaseString ((explodeString (text.drop 1)).headD [])

/-- The elements of `t` behind the command word: none when the text has no
space behind the command word (`t.size() == 1`), otherwise the one argument
`t[1]`. -/
def commandArgs (text : Str) : List Str := (explodeString (text.drop 1)).tail

/-- One call on the cast layer: a start, a stop, a viewer joining or leaving,
or a chat text offered to the command dispatch, each on the named session. -/
inductive CastOp where
  | start (self : CasterPtr) (password : Str)
  | stop (self : CasterPtr)
  | addViewer (self : CasterPtr) (p : SpecPtr)
  | removeViewer (self : CasterPtr) (p : SpecPtr)
  | command (self : CasterPtr) (text : Str)
deriving DecidableEq, Repr

/-- Perform one call. -/
def applyCastOp (w : World) : CastOp → World
  | .start self password => (startLiveCast w self password).2
  | .stop self => (stopLiveCast w self).2
  | .addViewer self p => addSpectator w self p
  | .removeViewer self p => removeSpectator w self p
  | .command self text => (checkCommand w self text).2

/-- Perform a sequence of calls, first to last. -/
def runCastOps (w : World) : List CastOp → World
  | [] => w
  | op :: ops => runCastOps (applyCastOp w op) ops

/-- The value of a decimal digit character, read after lowercasing. -/
def digitValue (c : Char) : Nat := c.toLower.toNat - 48

/-- The number a string of decimal digits denotes. -/
def decimalValue (s : Str) : Nat := s.foldl (fun acc c => acc * 10 + digitValue c) 0

/-- The scenario after the two joins: Alice's open cast with the viewers 1
and 2. -/
def scenarioJoined : World := addSpectator (addSpectator castingWorld 0 1) 0 2

/-- The scenario after "/mute Spectator(1)". -/
def scenarioMuted : World := (checkCommand scenarioJoined 0 "/mute Spectator(1)".toList).2

/-- The scenario after "/kick Spectator(2)". -/
def scenarioKicked : World := (checkCommand scenarioMuted 0 "/kick Spectator(2)".toList).2

/-- The scenario after "/password secret". -/
def scenarioProtected : World := (checkCommand scenarioKicked 0 "/password secret".toList).2

/-- The scenario after the stop. -/
def scenarioStopped : World := (stopLiveCast scenarioProtected 0).2

/-- A world where the cast of caster `0` lists the client 7 under the id 1
and the name Spectator(1), and its counter has reached 4294967295. -/
def secondRoundWorld : World :=
  (castingWorld.setCaster 0
    { castingWorld.casters 0 with m_spectators := [7], m_spectatorsCount := 4294967295 }).setSpectator
    7 { newSpectator 107 with spectatorId := 1, spectatorName := spectatorNameOf 1, refs := 1 }

/-- Between `w` and `w'` only the log and the mute list, the ban map and the
password of the caster `self` may differ; with `strict` the password is the
same too. -/
def QuietStep (self : CasterPtr) (strict : Bool) (w w' : World) : Prop :=
  w'.enableLiveCasting = w.enableLiveCasting ∧
  w'.maxLiveCastCount = w.maxLiveCastCount ∧
  w'.players = w.players ∧
  w'.spectators = w.spectators ∧
  w'.m_liveCasts = w.m_liveCasts ∧
  (∀ c, c ≠ self → w'.casters c = w.casters c) ∧
  (w'.casters self).player = (w.casters self).player ∧
  (w'.casters self).hasConnection = (w.casters self).hasConnection ∧
  (w'.casters self).m_isLiveCaster = (w.casters self).m_isLiveCaster ∧
  (w'.casters self).m_spectators = (w.casters self).m_spectators ∧
  (w'.casters self).m_spectatorsCount = (w.casters self).m_spectatorsCount ∧
  (w'.casters self).m_liveCastName = (w.casters self).m_liveCastName ∧
  (strict = true →
    (w'.casters self).m_liveCastPassword = (w.casters self).m_liveCastPassword)

/-- The registry invariant: the registry is within the cap, holds every owner
at most once, holds exactly the Active sessions, each under its own player,
and no two casters have the same player. -/
def RegistryInv (w : World) : Prop :=
  w.m_liveCasts.length ≤ w.maxLiveCastCount ∧
  (w.m_liveCasts.map Prod.fst).Nodup ∧
  (∀ e ∈ w.m_liveCasts,
    (w.casters e.2).player = some e.1 ∧ (w.casters e.2).m_isLiveCaster = true) ∧
  (∀ c, (w.casters c).m_isLiveCaster = true → ∃ p, (p, c) ∈ w.m_liveCasts) ∧
  (∀ a b p, (w.casters a).player = some p → (w.casters b).player = some p → a = b)

/-- The text the `spectators` branch builds in its stringstream. -/
def spectatorsListing (w : World) (self : CasterPtr) : Str :=
  if (w.casters self).m_spectators = [] then "No spectators.".toList ++ ['\n']
  else
    "Spectators:".toList ++ ['\n'] ++
      ((w.casters self).m_spectators.map
        (fun it => (w.spectators it).spectatorName ++ ['\n'])).flatten

/-- The world of `secondRoundWorld` after the clients 8 and 9 joined: the
counter wrapped, so 8 is Spectator(0) and 9 is Spectator(1), the name that
the listed client 7 already has. -/
def repeatedNameWorld : World := runOps secondRoundWorld 0 [.add 8, .add 9]

/-- The world after caster `0` started an open cast and `addSpectator` was
called for the clients 1, 2 and 1 again: the viewer list is 1, 2, 1. -/
def listedTwiceWorld : World := runOps castingWorld 0 [.add 1, .add 2, .add 1]

/-- Whether the event is a call of `sendChannelMessage` whose `broadcast`
argument is true. -/
def Event.isBroadcast : Event → Bool
  | .sendChannelMessage _ broadcast => broadcast
  | _ => false

/-! ## Viewer ids -/

theorem addSpectator_caster (w : World) (self : CasterPtr) (p : SpecPtr) :
    (addSpectator w self p).casters self =
      { w.casters self with
        m_spectatorsCount := ((w.casters self).m_spectatorsCount + 1) % UINT32
        m_spectators := (w.casters self).m_spectators ++ [p] } := by
  simp [addSpectator, updateLiveCastInfo, World.setCaster, World.setSpectator, World.emit]

theorem addSpectator_spectator_id (w : World) (self : CasterPtr) (p q : SpecPtr) :
    ((addSpectator w self p).spectators q).spectatorId =
      if q = p then ((w.casters self).m_spectatorsCount + 1) % UINT32
      else (w.spectators q).spectatorId := by
  by_cases h : q = p <;>
    simp [addSpectator, updateLiveCastInfo, World.setCaster, World.setSpectator, World.emit,
      Function.update, h]

theorem removeSpectator_caster (w : World) (self : CasterPtr) (p : SpecPtr) :
    (removeSpectator w self p).casters self =
      { w.casters self with m_spectators := (w.casters self).m_spectators.erase p } := by
  by_cases h : p ∈ (w.casters self).m_spectators
  · simp [removeSpectator, updateLiveCastInfo, World.setCaster, World.setSpectator, World.emit, h]
  · simp [removeSpectator, updateLiveCastInfo, World.emit, h, List.erase_of_not_mem h]

theorem removeSpectator_spectator_id (w : World) (self : CasterPtr) (p q : SpecPtr) :
    ((removeSpectator w self p).spectators q).spectatorId = (w.spectators q).spectatorId := by
  by_cases h : p ∈ (w.casters self).m_spectators <;> by_cases hq : q = p <;>
    simp [removeSpectator, updateLiveCastInfo, World.setCaster, World.setSpectator, World.emit,
      Function.update, h, hq]

theorem listedIds_addSpectator (w : World) (self : CasterPtr) (p : SpecPtr)
    (hp : p ∉ (w.casters self).m_spectators) :
    listedIds (addSpectator w self p) self =
      listedIds w self ++ [((w.casters self).m_spectatorsCount + 1) % UINT32] := by
  unfold listedIds
  rw [addSpectator_caster]
  simp only [List.map_append, List.map_cons, List.map_nil, addSpectator_spectator_id, if_true]
  congr 1
  apply List.map_congr_left
  intro q hq
  have : q ≠ p := fun h => hp (h ▸ hq)
  simp [this]

theorem listedIds_removeSpectator_sublist (w : World) (self : CasterPtr) (p : SpecPtr) :
    (listedIds (removeSpectator w self p) self).Sublist (listedIds w self) := by
  unfold listedIds
  rw [removeSpectator_caster]
  simp only [removeSpectator_spectator_id]
  exact (List.erase_sublist _ _).map _

theorem assignedIds_increasing (ops : List ViewerOp) :
    ∀ (w : World) (self : CasterPtr),
      (w.casters self).m_spectatorsCount + countAdds ops < UINT32 →
      (assignedIds w self ops).Pairwise (fun a b => a < b) ∧
      (∀ id ∈ assignedIds w self ops, (w.casters self).m_spectatorsCount < id) ∧
      ((runOps w self ops).casters self).m_spectatorsCount =
        (w.casters self).m_spectatorsCount + countAdds ops := by
  induction ops with
  | nil => intro w self _; simp [assignedIds, runOps, countAdds]
  | cons op ops ih =>
    intro w self hb
    cases op with
    | add p =>
      simp only [countAdds] at hb
      have hmod : ((w.casters self).m_spectatorsCount + 1) % UINT32 =
          (w.casters self).m_spectatorsCount + 1 := Nat.mod_eq_of_lt (by omega)
      have hc : ((addSpectator w self p).casters self).m_spectatorsCount =
          (w.casters self).m_spectatorsCount + 1 := by rw [addSpectator_caster, hmod]
      obtain ⟨h1, h2, h3⟩ := ih (addSpectator w self p) self (by rw [hc]; omega)
      have hid : ((addSpectator w self p).spectators p).spectatorId =
          (w.casters self).m_spectatorsCount + 1 := by
        rw [addSpectator_spectator_id, if_pos rfl, hmod]
      refine ⟨?_, ?_, ?_⟩
      · simp only [assignedIds, List.pairwise_cons]
        refine ⟨fun b hbm => ?_, h1⟩
        have := h2 b hbm
        rw [hid]; omega
      · intro id hmem
        simp only [assignedIds, List.mem_cons] at hmem
        rcases hmem with h | h
        · rw [h, hid]; omega
        · have := h2 id h; omega
      · simp only [runOps, applyOp, countAdds]; rw [h3, hc]; omega
    | remove p =>
      simp only [countAdds] at hb
      have hc : ((removeSpectator w self p).casters self).m_spectatorsCount =
          (w.casters self).m_spectatorsCount := by rw [removeSpectator_caster]
      obtain ⟨h1, h2, h3⟩ := ih (removeSpectator w self p) self (by rw [hc]; exact hb)
      refine ⟨by simpa [assignedIds] using h1, ?_, ?_⟩
      · intro id hmem
        simp only [assignedIds] at hmem
        have := h2 id hmem; omega
      · simp only [runOps, applyOp, countAdds]; rw [h3, hc]

theorem listedIds_increasing (ops : List ViewerOp) :
    ∀ (w : World) (self : CasterPtr),
      (w.casters self).m_spectatorsCount + countAdds ops < UINT32 →
      (listedIds w self).Pairwise (fun a b => a < b) →
      (∀ id ∈ listedIds w self, id ≤ (w.casters self).m_spectatorsCount) →
      FreshAdds w self ops →
      (listedIds (runOps w self ops) self).Pairwise (fun a b => a < b) := by
  induction ops with
  | nil => intro w self _ hs _ _; simpa [runOps] using hs
  | cons op ops ih =>
    intro w self hb hs hle hf
    cases op with
    | add p =>
      simp only [countAdds] at hb
      simp only [FreshAdds] at hf
      have hmod : ((w.casters self).m_spectatorsCount + 1) % UINT32 =
          (w.casters self).m_spectatorsCount + 1 := Nat.mod_eq_of_lt (by omega)
      have hc : ((addSpectator w self p).casters self).m_spectatorsCount =
          (w.casters self).m_spectatorsCount + 1 := by rw [addSpectator_caster, hmod]
      have hl := listedIds_addSpectator w self p hf.1
      rw [hmod] at hl
      simp only [runOps, applyOp]
      apply ih (addSpectator w self p) self (by rw [hc]; omega) _ _ hf.2
      · rw [hl, List.pairwise_append]
        refine ⟨hs, List.pairwise_singleton _ _, ?_⟩
        intro a ha b hbm
        simp only [List.mem_singleton] at hbm
        have := hle a ha; omega
      · intro id hmem
        rw [hl, List.mem_append, List.mem_singleton] at hmem
        rw [hc]
        rcases hmem with h | h
        · have := hle id h; omega
        · omega
    | remove p =>
      simp only [countAdds] at hb
      simp only [FreshAdds] at hf
      have hc : ((removeSpectator w self p).casters self).m_spectatorsCount =
          (w.casters self).m_spectatorsCount := by rw [removeSpectator_caster]
      have hsub := listedIds_removeSpectator_sublist w self p
      simp only [runOps, applyOp]
      apply ih (removeSpectator w self p) self (by rw [hc]; exact hb) (hs.sublist hsub) _ hf
      intro id hmem
      rw [hc]
      exact hle id (hsub.subset hmem)

/-- C1 (amended): on any session, for every sequence of addSpectator and
removeSpectator calls that keeps the id counter below the wrap of its
`uint32_t` (counter plus number of adds less than 2^32), each id given out by
addSpectator is strictly greater than every id given out earlier in the
sequence and than the counter before it (so than every earlier id of the
session, also of viewers that have left); and if moreover the listed ids
were strictly increasing and at most the counter, and no add receives a
client that is listed at that time, the ids of the listed viewers are
afterwards strictly increasing in list order and pairwise distinct. -/
theorem viewer_ids_strictly_increasing (w : World) (self : CasterPtr) (ops : List ViewerOp)
    (hbound : (w.casters self).m_spectatorsCount + countAdds ops < UINT32) :
    (assignedIds w self ops).Pairwise (fun a b => a < b) ∧
    (∀ id ∈ assignedIds w self ops, (w.casters self).m_spectatorsCount < id) ∧
    ((listedIds w self).Pairwise (fun a b => a < b) →
      (∀ id ∈ listedIds w self, id ≤ (w.casters self).m_spectatorsCount) →
      FreshAdds w self ops →
      (listedIds (runOps w self ops) self).Pairwise (fun a b => a < b) ∧
      (listedIds (runOps w self ops) self).Nodup) := by
  obtain ⟨h1, h2, _⟩ := assignedIds_increasing ops w self hbound
  refine ⟨h1, h2, fun hs hle hf => ?_⟩
  have h := listedIds_increasing ops w self hbound hs hle hf
  exact ⟨h, h.imp (fun hab => Nat.ne_of_lt hab)⟩

/-- Witness for C1: a started cast, two joins, a leave and a third join. -/
theorem viewer_ids_strictly_increasing_witness :
    assignedIds castingWorld 0 [.add 1, .add 2, .remove 1, .add 3] = [1, 2, 3] ∧
    (assignedIds castingWorld 0 [.add 1, .add 2, .remove 1, .add 3]).Pairwise
      (fun a b => a < b) ∧
    (listedIds (runOps castingWorld 0 [.add 1, .add 2, .remove 1, .add 3]) 0).Pairwise
      (fun a b => a < b) ∧
    (listedIds (runOps castingWorld 0 [.add 1, .add 2, .remove 1, .add 3]) 0).Nodup :=
  have h := viewer_ids_strictly_increasing castingWorld 0 [.add 1, .add 2, .remove 1, .add 3]
    (by decide)
  ⟨by decide, h.1, h.2.2 (by decide) (by decide) (by simp only [FreshAdds]; decide)⟩

/-- Counterexample to C1 as stated.  In an Active session whose counter is
4294967295 the next addSpectator gives out the id 0, below the id
4294967295 of the listed viewer; and from a fresh cast, adding the clients
1, 2 and then 1 again leaves the listed ids 3, 2, 3. -/
theorem viewer_ids_not_always_increasing :
    ((wrapWorld.casters 0).m_isLiveCaster = true ∧
      listedIds wrapWorld 0 = [4294967295] ∧
      assignedIds wrapWorld 0 [.add 8] = [0] ∧
      ¬ (listedIds (runOps wrapWorld 0 [.add 8]) 0).Pairwise (fun a b => a < b)) ∧
    ((castingWorld.casters 0).m_isLiveCaster = true ∧
      listedIds (runOps castingWorld 0 [.add 1, .add 2, .add 1]) 0 = [3, 2, 3] ∧
      ¬ (listedIds (runOps castingWorld 0 [.add 1, .add 2, .add 1]) 0).Pairwise
        (fun a b => a < b) ∧
      ¬ (listedIds (runOps castingWorld 0 [.add 1, .add 2, .add 1]) 0).Nodup) := by
  decide


/-! ## Start and stop -/

/-- C2: on an Active session startLiveCast returns false and leaves the whole
world as it was: the caster's viewer list, id counter, mute list, ban map,
password, name and Active flag, the registry, and the log (nothing is sent). -/
theorem startLiveCast_active_unchanged (w : World) (self : CasterPtr) (password : Str)
    (hactive : (w.casters self).m_isLiveCaster = true) :
    startLiveCast w self password = (false, w) := by
  simp [startLiveCast, hactive]

/-- Witness for C2: a second start of the running cast of caster `0`. -/
theorem startLiveCast_active_unchanged_witness :
    (castingWorld.casters 0).m_isLiveCaster = true ∧
    startLiveCast castingWorld 0 "secret".toList = (false, castingWorld) :=
  ⟨by decide, startLiveCast_active_unchanged castingWorld 0 "secret".toList (by decide)⟩

theorem foldl_releaseSpectator_frame (l : List SpecPtr) :
    ∀ w : World,
      (l.foldl releaseSpectator w).casters = w.casters ∧
      (l.foldl releaseSpectator w).players = w.players ∧
      (l.foldl releaseSpectator w).m_liveCasts = w.m_liveCasts ∧
      (l.foldl releaseSpectator w).enableLiveCasting = w.enableLiveCasting ∧
      (l.foldl releaseSpectator w).maxLiveCastCount = w.maxLiveCastCount := by
  induction l with
  | nil => intro w; simp
  | cons p l ih =>
    intro w
    obtain ⟨h1, h2, h3, h4, h5⟩ := ih (releaseSpectator w p)
    simp only [List.foldl_cons, h1, h2, h3, h4, h5]
    simp [releaseSpectator, setPlayer, disconnectSpectator, World.setSpectator, World.emit]

theorem startLiveCast_full (w : World) (self : CasterPtr) (password : Str)
    (hfull : w.maxLiveCastCount ≤ w.m_liveCasts.length) :
    startLiveCast w self password = (false, w) := by
  unfold startLiveCast
  simp only [ge_iff_le, hfull, if_true]
  split <;> rfl

theorem stopLiveCast_active (w : World) (self : CasterPtr)
    (hactive : (w.casters self).m_isLiveCaster = true) :
    (stopLiveCast w self).1 = true ∧
    (stopLiveCast w self).2.m_liveCasts = liveCastsErase (w.casters self).player w.m_liveCasts ∧
    (stopLiveCast w self).2.players = w.players ∧
    (stopLiveCast w self).2.enableLiveCasting = w.enableLiveCasting ∧
    (stopLiveCast w self).2.maxLiveCastCount = w.maxLiveCastCount ∧
    (∀ other, other ≠ self → (stopLiveCast w self).2.casters other = w.casters other) ∧
    (stopLiveCast w self).2.casters self =
      { w.casters self with
        m_spectators := [], m_isLiveCaster := false, muteList := [], banMap := [] } := by
  unfold stopLiveCast
  simp only [hactive, Bool.not_true, Bool.false_eq_true, if_false]
  have hf := foldl_releaseSpectator_frame (w.casters self).m_spectators
  refine ⟨trivial, ?_, ?_, ?_, ?_, ?_, ?_⟩
  · split <;> simp [unregisterLiveCast, World.setCaster, World.emit, hf]
  · split <;> simp [unregisterLiveCast, World.setCaster, World.emit, hf]
  · split <;> simp [unregisterLiveCast, World.setCaster, World.emit, hf]
  · split <;> simp [unregisterLiveCast, World.setCaster, World.emit, hf]
  · intro other ho
    split <;> simp [unregisterLiveCast, World.setCaster, World.emit, hf, Function.update, ho]
  · split <;> simp [unregisterLiveCast, World.setCaster, World.emit, hf]

theorem length_filter_key_of_nodup (m : List (PlayerPtr × CasterPtr)) (p : PlayerPtr)
    (hkeys : (m.map Prod.fst).Nodup) (hp : p ∈ m.map Prod.fst) :
    (m.filter (fun e => e.1 != p)).length + 1 = m.length := by
  induction m with
  | nil => simp at hp
  | cons e m ih =>
    simp only [List.map_cons, List.nodup_cons] at hkeys
    by_cases he : e.1 = p
    · have hnot : ∀ x ∈ m, (x.1 != p) = true := by
        intro x hx
        have : x.1 ≠ p := fun hxp => hkeys.1 (by rw [he, ← hxp]; exact List.mem_map_of_mem _ hx)
        simpa using this
      simp [List.filter_cons, he, List.filter_eq_self.2 hnot]
    · have hp2 : p ∈ m.map Prod.fst := by
        simp only [List.map_cons, List.mem_cons] at hp
        rcases hp with h | h
        · exact absurd h.symm he
        · exact h
      simp [List.filter_cons, he, ih hkeys.2 hp2]

theorem startLiveCast_success (w : World) (self : CasterPtr) (player : PlayerPtr)
    (password : Str)
    (henabled : w.enableLiveCasting = true)
    (hinactive : (w.casters self).m_isLiveCaster = false)
    (hplayer : (w.casters self).player = some player)
    (hvalid : (w.players player).removed = false)
    (hconn : (w.casters self).hasConnection = true)
    (hroom : w.m_liveCasts.length < w.maxLiveCastCount) :
    (startLiveCast w self password).1 = true ∧
    (startLiveCast w self password).2.m_liveCasts =
      liveCastsInsert player self w.m_liveCasts ∧
    (startLiveCast w self password).2.maxLiveCastCount = w.maxLiveCastCount ∧
    (startLiveCast w self password).2.casters self =
      { w.casters self with
        m_spectatorsCount := 0, m_spectators := [], muteList := [], banMap := []
        m_liveCastName := (w.players player).name, m_liveCastPassword := password
        m_isLiveCaster := true } := by
  have hnot : ¬ w.maxLiveCastCount ≤ w.m_liveCasts.length := by omega
  simp [startLiveCast, henabled, hinactive, hplayer, hvalid, hconn, playerInvalid, hnot,
    registerLiveCast, World.setCaster, World.emit]

/-- C3: when the registry holds as many casts as the configured cap, a start
returns false and changes nothing (whatever the content and order of the
registry); the stop of an Active registered session lowers the registry
size by exactly one; after it a start by a valid Inactive owner that has no
registry entry succeeds and fills the registry again, so that every further
start fails and changes nothing. -/
theorem cap_blocks_start_and_stop_frees_one_slot (w : World) (a b : CasterPtr)
    (pa pb : PlayerPtr) (pw1 pw2 : Str)
    (henabled : w.enableLiveCasting = true)
    (hfull : w.m_liveCasts.length = w.maxLiveCastCount)
    (hkeys : (w.m_liveCasts.map Prod.fst).Nodup)
    (haActive : (w.casters a).m_isLiveCaster = true)
    (haPlayer : (w.casters a).player = some pa)
    (haReg : pa ∈ w.m_liveCasts.map Prod.fst)
    (hbInactive : (w.casters b).m_isLiveCaster = false)
    (hbPlayer : (w.casters b).player = some pb)
    (hbValid : (w.players pb).removed = false)
    (hbConn : (w.casters b).hasConnection = true)
    (hbReg : pb ∉ w.m_liveCasts.map Prod.fst) :
    startLiveCast w b pw1 = (false, w) ∧
    (stopLiveCast w a).1 = true ∧
    (stopLiveCast w a).2.m_liveCasts.length + 1 = w.m_liveCasts.length ∧
    (startLiveCast (stopLiveCast w a).2 b pw2).1 = true ∧
    (startLiveCast (stopLiveCast w a).2 b pw2).2.m_liveCasts.length = w.maxLiveCastCount ∧
    ∀ (d : CasterPtr) (pw3 : Str),
      startLiveCast (startLiveCast (stopLiveCast w a).2 b pw2).2 d pw3 =
        (false, (startLiveCast (stopLiveCast w a).2 b pw2).2) := by
  obtain ⟨hs1, hs2, hs3, hs4, hs5, hs6, _⟩ := stopLiveCast_active w a haActive
  have hlen : (stopLiveCast w a).2.m_liveCasts.length + 1 = w.m_liveCasts.length := by
    rw [hs2, haPlayer]
    exact length_filter_key_of_nodup _ pa hkeys haReg
  have hba : b ≠ a := by
    intro h
    rw [h, haActive] at hbInactive
    exact Bool.noConfusion hbInactive
  have hpb : pb ∉ (stopLiveCast w a).2.m_liveCasts.map Prod.fst := by
    rw [hs2, haPlayer]
    intro hmem
    simp only [liveCastsErase, List.mem_map] at hmem
    obtain ⟨e, he, hep⟩ := hmem
    exact hbReg (List.mem_map.2 ⟨e, (List.mem_filter.1 he).1, hep⟩)
  obtain ⟨ht1, ht2, ht3, _⟩ := startLiveCast_success (stopLiveCast w a).2 b pb pw2
    (by rw [hs4]; exact henabled) (by rw [hs6 b hba]; exact hbInactive)
    (by rw [hs6 b hba]; exact hbPlayer) (by rw [hs3]; exact hbValid)
    (by rw [hs6 b hba]; exact hbConn) (by rw [hs5]; omega)
  have hlen2 : (startLiveCast (stopLiveCast w a).2 b pw2).2.m_liveCasts.length =
      w.maxLiveCastCount := by
    rw [ht2, liveCastsInsert, if_neg hpb, List.length_append, List.length_singleton]
    omega
  refine ⟨startLiveCast_full w b pw1 (by omega), hs1, hlen, ht1, hlen2, fun d pw3 => ?_⟩
  exact startLiveCast_full _ d pw3 (by rw [ht3, hs5, hlen2])

/-- Witness for C3: with the cap of two reached by the casters 0 and 1, the
start of caster 2 fails; after caster 0 stops, caster 2 starts and the
registry is full again. -/
theorem cap_blocks_start_and_stop_frees_one_slot_witness :
    fullWorld.m_liveCasts.length = fullWorld.maxLiveCastCount ∧
    startLiveCast fullWorld 2 [] = (false, fullWorld) ∧
    (stopLiveCast fullWorld 0).2.m_liveCasts.length + 1 = fullWorld.m_liveCasts.length ∧
    (startLiveCast (stopLiveCast fullWorld 0).2 2 []).1 = true ∧
    (startLiveCast (stopLiveCast fullWorld 0).2 2 []).2.m_liveCasts.length = 2 :=
  have h := cap_blocks_start_and_stop_frees_one_slot fullWorld 0 2 0 2 [] []
    (by decide) (by decide) (by decide) (by decide) (by decide) (by decide) (by decide)
    (by decide) (by decide) (by decide) (by decide)
  ⟨by decide, h.1, h.2.2.1, h.2.2.2.1, h.2.2.2.2.1⟩

/-! ## Directory -/

/-- C4: the entry list built by the directory query holds, for an empty query
password, exactly one entry for every registered session in registry order;
for a non-empty query password it holds the entries of exactly the sessions
whose password is non-empty and equal to the query password, so a session
with an empty password is never listed then. -/
theorem buildCastList_filters_by_password (w : World) (password : Str) :
    (password = [] → buildCastList w password = w.m_liveCasts.map (castEntry w)) ∧
    (password ≠ [] →
      buildCastList w password =
        (w.m_liveCasts.filter (fun cast =>
          decide ((w.casters cast.2).m_liveCastPassword ≠ [] ∧
            (w.casters cast.2).m_liveCastPassword = password))).map (castEntry w) ∧
      ∀ cast ∈ w.m_liveCasts, (w.casters cast.2).m_liveCastPassword = [] →
        castListed w password cast = false) := by
  constructor
  · intro h
    subst h
    have hall : ∀ cast ∈ w.m_liveCasts, castListed w [] cast = true := by
      intro cast _
      simp [castListed]
    simp only [buildCastList, List.filter_eq_self.2 hall]
  · intro h
    have hne : password.isEmpty = false := by
      cases password with
      | nil => exact absurd rfl h
      | cons _ _ => rfl
    constructor
    · unfold buildCastList
      congr 1
      apply List.filter_congr
      intro cast _
      by_cases hp : (w.casters cast.2).m_liveCastPassword = password
      · simp [castListed, hne, isPasswordProtected, hp, h]
      · simp [castListed, hne, isPasswordProtected, hp]
    · intro cast _ hempty
      simp [castListed, hne, isPasswordProtected, hempty]

/-- Witness for C4: the four running casts, queried without a password and
with the password of the second one. -/
theorem buildCastList_filters_by_password_witness :
    buildCastList directoryWorld [] = directoryWorld.m_liveCasts.map (castEntry directoryWorld) ∧
    buildCastList directoryWorld "secret".toList = [(1, "Player1".toList)] ∧
    (∀ cast ∈ directoryWorld.m_liveCasts,
      (directoryWorld.casters cast.2).m_liveCastPassword = [] →
        castListed directoryWorld "secret".toList cast = false) :=
  have h := buildCastList_filters_by_password directoryWorld
  ⟨(h []).1 rfl, by decide, ((h "secret".toList).2 (by decide)).2⟩

theorem stdSort_insertionSortCasts : StdSort castComp insertionSortCasts := by
  intro l
  haveI : IsTotal (Nat × Str) (fun a b => a.1 ≥ b.1) := ⟨fun a b => Nat.le_total b.1 a.1⟩
  haveI : IsTrans (Nat × Str) (fun a b => a.1 ≥ b.1) := ⟨fun _ _ _ h1 h2 => Nat.le_trans h2 h1⟩
  refine ⟨List.perm_insertionSort _ l, ?_⟩
  have h := List.sorted_insertionSort (fun a b : Nat × Str => a.1 ≥ b.1) l
  exact List.Pairwise.imp (fun {a b} hab => by simpa [castComp] using hab) h

theorem stdSort_reverseTieSort : StdSort castComp reverseTieSort := by
  intro l
  haveI : IsTotal (Nat × Str) (fun a b => a.1 ≥ b.1) := ⟨fun a b => Nat.le_total b.1 a.1⟩
  haveI : IsTrans (Nat × Str) (fun a b => a.1 ≥ b.1) := ⟨fun _ _ _ h1 h2 => Nat.le_trans h2 h1⟩
  refine ⟨(List.perm_insertionSort _ l.reverse).trans (List.reverse_perm l), ?_⟩
  have h := List.sorted_insertionSort (fun a b : Nat × Str => a.1 ≥ b.1) l.reverse
  exact List.Pairwise.imp (fun {a b} hab => by simpa [castComp] using hab) h

theorem getCastingStreamsList_entries (sort : List (Nat × Str) → List (Nat × Str))
    (hsort : StdSort castComp sort) (w : World) (password : Str) :
    (getCastingStreamsList sort w password).entries = sort (buildCastList w password) := by
  unfold getCastingStreamsList
  by_cases h : (buildCastList w password).length = 0
  · have hnil : buildCastList w password = [] := List.length_eq_zero.1 h
    have hs : sort [] = [] := List.Perm.eq_nil (hsort []).1
    rw [if_pos h, hnil, hs]
    by_cases hp : (!password.isEmpty) = true
    · rw [if_pos hp]; rfl
    · rw [if_neg hp]; rfl
  · simp only [h, if_false, CastListReply.entries]

/-- C5: whatever sort meets the contract of `std::sort`, for every world and
query password the entries of the directory reply are a permutation of the
filtered entries and are ordered by viewer count, non-increasing: every
entry's count is at least the count of every entry after it. -/
theorem castingStreamsList_sorted_permutation (sort : List (Nat × Str) → List (Nat × Str))
    (hsort : StdSort castComp sort) (w : World) (password : Str) :
    ((getCastingStreamsList sort w password).entries).Perm (buildCastList w password) ∧
    ((getCastingStreamsList sort w password).entries).Pairwise (fun a b => a.1 ≥ b.1) := by
  rw [getCastingStreamsList_entries sort hsort]
  refine ⟨(hsort _).1, List.Pairwise.imp (fun {a b} hab => ?_) (hsort _).2⟩
  simpa [castComp] using hab

/-- Witness for C5: the four running casts listed through insertion sort. -/
theorem castingStreamsList_sorted_permutation_witness :
    StdSort castComp insertionSortCasts ∧
    ((getCastingStreamsList insertionSortCasts directoryWorld []).entries).Perm
      (buildCastList directoryWorld []) ∧
    ((getCastingStreamsList insertionSortCasts directoryWorld []).entries).Pairwise
      (fun a b => a.1 ≥ b.1) :=
  ⟨stdSort_insertionSortCasts,
    castingStreamsList_sorted_permutation insertionSortCasts stdSort_insertionSortCasts
      directoryWorld []⟩

/-- Counterexample to C6 as stated: a sort that meets the contract of
`std::sort` answers, for the registry-order viewer counts 3, 1, 3, 0, with
the second count-3 entry before the first one. -/
theorem directory_sort_need_not_be_stable :
    StdSort castComp reverseTieSort ∧
    buildCastList directoryWorld [] =
      [(3, "Alice".toList), (1, "Player1".toList), (3, "Player2".toList),
        (0, "Player3".toList)] ∧
    getCastingStreamsList reverseTieSort directoryWorld [] =
      .castList [(3, "Player2".toList), (3, "Alice".toList), (1, "Player1".toList),
        (0, "Player3".toList)] :=
  ⟨stdSort_reverseTieSort, by decide, by decide⟩

theorem sorted_perm_counts_3_1_3_0 (es : List (Nat × Str)) (a b c d : Nat × Str)
    (hperm : es.Perm [a, b, c, d]) (hsorted : es.Pairwise (fun x y => x.1 ≥ y.1))
    (ha : a.1 = 3) (hb : b.1 = 1) (hc : c.1 = 3) (hd : d.1 = 0) :
    es = [a, c, b, d] ∨ es = [c, a, b, d] := by
  have hfst : es.map Prod.fst = [3, 3, 1, 0] := by
    have hp : (es.map Prod.fst).Perm [3, 3, 1, 0] := by
      have h1 := hperm.map Prod.fst
      simp only [List.map_cons, List.map_nil, ha, hb, hc, hd] at h1
      exact h1.trans (by decide)
    have hs : (es.map Prod.fst).Sorted (fun x y : Nat => x ≥ y) :=
      List.pairwise_map.2 hsorted
    exact List.eq_of_perm_of_sorted hp hs (by decide)
  have hlen := hperm.length_eq
  rcases es with _ | ⟨x1, _ | ⟨x2, _ | ⟨x3, _ | ⟨x4, _ | ⟨x5, t⟩⟩⟩⟩⟩ <;>
    simp only [List.length_cons, List.length_nil] at hlen <;> try omega
  simp only [List.map_cons, List.map_nil, List.cons.injEq, and_true] at hfst
  obtain ⟨h1, h2, h3, h4⟩ := hfst
  have hsub := hperm.subset
  have hsup := hperm.symm.subset
  have m1 : x1 ∈ [a, b, c, d] := hsub (by simp)
  have m2 : x2 ∈ [a, b, c, d] := hsub (by simp)
  have m3 : x3 ∈ [a, b, c, d] := hsub (by simp)
  have m4 : x4 ∈ [a, b, c, d] := hsub (by simp)
  have ma : a ∈ [x1, x2, x3, x4] := hsup (by simp)
  have mc : c ∈ [x1, x2, x3, x4] := hsup (by simp)
  simp only [List.mem_cons, List.mem_singleton, List.not_mem_nil, or_false] at m1 m2 m3 m4 ma mc
  have e3 : x3 = b := by
    rcases m3 with h | h | h | h
    · rw [h] at h3; omega
    · exact h
    · rw [h] at h3; omega
    · rw [h] at h3; omega
  have e4 : x4 = d := by
    rcases m4 with h | h | h | h
    · rw [h] at h4; omega
    · rw [h] at h4; omega
    · rw [h] at h4; omega
    · exact h
  have e1 : x1 = a ∨ x1 = c := by
    rcases m1 with h | h | h | h
    · exact Or.inl h
    · rw [h] at h1; omega
    · exact Or.inr h
    · rw [h] at h1; omega
  have e2 : x2 = a ∨ x2 = c := by
    rcases m2 with h | h | h | h
    · exact Or.inl h
    · rw [h] at h2; omega
    · exact Or.inr h
    · rw [h] at h2; omega
  have eca : x1 = a → x2 = a → c = a := by
    intro g1 g2
    rcases mc with h | h | h | h
    · rw [h, g1]
    · rw [h, g2]
    · rw [h, e3] at hc; omega
    · rw [h, e4] at hc; omega
  have eac : x1 = c → x2 = c → a = c := by
    intro g1 g2
    rcases ma with h | h | h | h
    · rw [h, g1]
    · rw [h, g2]
    · rw [h, e3] at ha; omega
    · rw [h, e4] at ha; omega
  subst e3 e4
  rcases e1 with g1 | g1 <;> rcases e2 with g2 | g2
  · left; rw [eca g1 g2, g1, g2]
  · left; rw [g1, g2]
  · right; rw [g1, g2]
  · right; rw [eac g1 g2, g1, g2]

/-- C6 (amended): the directory sort orders by viewer count, larger first, and
leaves the relative order of entries with equal count open: whatever sort
meets the contract of `std::sort`, when the entries built in registry order
are a, b, c, d with the viewer counts 3, 1, 3, 0, the reply lists the two
count-3 entries a and c first, in one of the two orders, then the count-1
entry b, then the count-0 entry d. -/
theorem directory_order_for_counts_3_1_3_0 (sort : List (Nat × Str) → List (Nat × Str))
    (hsort : StdSort castComp sort) (w : World) (password : Str) (a b c d : Nat × Str)
    (hlist : buildCastList w password = [a, b, c, d])
    (ha : a.1 = 3) (hb : b.1 = 1) (hc : c.1 = 3) (hd : d.1 = 0) :
    getCastingStreamsList sort w password = .castList [a, c, b, d] ∨
    getCastingStreamsList sort w password = .castList [c, a, b, d] := by
  have hsorted : (sort [a, b, c, d]).Pairwise (fun x y => x.1 ≥ y.1) :=
    List.Pairwise.imp (fun {x y} hxy => by simpa [castComp] using hxy) (hsort _).2
  have h := sorted_perm_counts_3_1_3_0 _ a b c d (hsort _).1 hsorted ha hb hc hd
  have hreply : getCastingStreamsList sort w password = .castList (sort [a, b, c, d]) := by
    simp [getCastingStreamsList, hlist]
  rw [hreply]
  rcases h with h | h
  · left; rw [h]
  · right; rw [h]

/-- Witness for C6: the four running casts with the viewer counts 3, 1, 3, 0
listed through insertion sort. -/
theorem directory_order_for_counts_3_1_3_0_witness :
    StdSort castComp insertionSortCasts ∧
    buildCastList directoryWorld [] =
      [(3, "Alice".toList), (1, "Player1".toList), (3, "Player2".toList),
        (0, "Player3".toList)] ∧
    (getCastingStreamsList insertionSortCasts directoryWorld [] =
        .castList [(3, "Alice".toList), (3, "Player2".toList), (1, "Player1".toList),
          (0, "Player3".toList)] ∨
      getCastingStreamsList insertionSortCasts directoryWorld [] =
        .castList [(3, "Player2".toList), (3, "Alice".toList), (1, "Player1".toList),
          (0, "Player3".toList)]) :=
  ⟨stdSort_insertionSortCasts, by decide,
    directory_order_for_counts_3_1_3_0 insertionSortCasts stdSort_insertionSortCasts
      directoryWorld [] _ _ _ _ (by decide) rfl rfl rfl rfl⟩

/-! ## Command dispatch -/

theorem char_toLower_idem (c : Char) : c.toLower.toLower = c.toLower := by
  by_cases h : c.toNat ≥ 65 ∧ c.toNat ≤ 90
  · have hc : c = Char.ofNat c.toNat := (Char.ofNat_toNat c).symm
    generalize c.toNat = n at h hc
    subst hc
    obtain ⟨h1, h2⟩ := h
    interval_cases n <;> decide
  · have : c.toLower = c := by simp only [Char.toLower]; rw [if_neg h]
    rw [this, this]

theorem toLowerCaseString_idem (s : Str) :
    toLowerCaseString (toLowerCaseString s) = toLowerCaseString s := by
  simp [toLowerCaseString, char_toLower_idem]

theorem toLowerCaseString_eq_nil (s : Str) : toLowerCaseString s = [] ↔ s = [] := by
  simp [toLowerCaseString]

theorem takeWhile_dropWhile_word (cmd arg : Str) (hcmd : ' ' ∉ cmd) :
    (cmd ++ ' ' :: arg).takeWhile (fun c => c != ' ') = cmd ∧
    (cmd ++ ' ' :: arg).dropWhile (fun c => c != ' ') = ' ' :: arg := by
  induction cmd with
  | nil => simp
  | cons c cs ih =>
    have hc : (c != ' ') = true := by
      have : c ≠ ' ' := fun h => hcmd (by simp [h])
      simpa using this
    have hcs : ' ' ∉ cs := fun h => hcmd (List.mem_cons_of_mem _ h)
    obtain ⟨h1, h2⟩ := ih hcs
    constructor
    · rw [List.cons_append, List.takeWhile_cons, hc, if_pos rfl, h1]
    · rw [List.cons_append, List.dropWhile_cons, hc, if_pos rfl, h2]

theorem explodeString_word_arg (cmd arg : Str) (hcmd : ' ' ∉ cmd) :
    explodeString (cmd ++ ' ' :: arg) = [cmd, arg] := by
  obtain ⟨htake, hdrop⟩ := takeWhile_dropWhile_word cmd arg hcmd
  simp only [explodeString, hdrop, htake]

theorem checkCommand_word_arg (w : World) (self : CasterPtr) (cmd arg : Str)
    (hcmd : ' ' ∉ cmd) :
    checkCommand w self ('/' :: (cmd ++ ' ' :: arg)) =
      (true, runCommand w self (toLowerCaseString cmd) [arg]) := by
  simp only [checkCommand, List.head?_cons, if_true, List.drop_succ_cons, List.drop_zero,
    explodeString_word_arg cmd arg hcmd]

theorem findSpectator_of_distinct_names (w : World) (v : SpecPtr) (l : List SpecPtr)
    (hv : v ∈ l)
    (hnames : (l.map (fun p => toLowerCaseString (w.spectators p).spectatorName)).Nodup) :
    findSpectator w (toLowerCaseString (w.spectators v).spectatorName) l = some v := by
  induction l with
  | nil => simp at hv
  | cons t rest ih =>
    simp only [List.map_cons, List.nodup_cons] at hnames
    by_cases ht : t = v
    · subst ht
      simp [findSpectator]
    · have hvr : v ∈ rest := by
        rcases List.mem_cons.1 hv with h | h
        · exact absurd h.symm ht
        · exact h
      have hne : toLowerCaseString (w.spectators t).spectatorName ≠
          toLowerCaseString (w.spectators v).spectatorName := by
        intro heq
        apply hnames.1
        rw [heq]
        exact List.mem_map_of_mem (fun p => toLowerCaseString (w.spectators p).spectatorName) hvr
      simp only [findSpectator, if_neg hne]
      exact ih hvr hnames.2

theorem getSpectatorByName_listed (w : World) (self : CasterPtr) (v : SpecPtr) (arg : Str)
    (hv : v ∈ (w.casters self).m_spectators)
    (hnames : ((w.casters self).m_spectators.map
      (fun p => toLowerCaseString (w.spectators p).spectatorName)).Nodup)
    (harg : toLowerCaseString arg = toLowerCaseString (w.spectators v).spectatorName) :
    getSpectatorByName w self (toLowerCaseString arg) = some v := by
  unfold getSpectatorByName
  rw [toLowerCaseString_idem, harg]
  exact findSpectator_of_distinct_names w v _ hv hnames

theorem runCommand_kick (w : World) (self : CasterPtr) (arg : Str) :
    runCommand w self (toLowerCaseString "kick".toList) [arg] =
      kickCommand w self (toLowerCaseString arg) := by
  have h : toLowerCaseString "kick".toList = "kick".toList := by decide
  rw [h]
  simp [runCommand]

theorem runCommand_ban (w : World) (self : CasterPtr) (arg : Str) :
    runCommand w self (toLowerCaseString "ban".toList) [arg] =
      banCommand w self "ban".toList arg := by
  have h : toLowerCaseString "ban".toList = "ban".toList := by decide
  rw [h]
  simp [runCommand]

/-- The state a successful kick or ban leaves for the removed viewer. -/
theorem remove_and_disconnect (w : World) (self : CasterPtr) (v : SpecPtr)
    (hv : v ∈ (w.casters self).m_spectators) :
    ((disconnectSpectator (removeSpectator w self v) v).casters self) =
      { w.casters self with m_spectators := (w.casters self).m_spectators.erase v } ∧
    ((disconnectSpectator (removeSpectator w self v) v).spectators v) =
      { w.spectators v with
        refs := (w.spectators v).refs - 1, disconnects := (w.spectators v).disconnects + 1 } ∧
    (∀ q, q ≠ v → (disconnectSpectator (removeSpectator w self v) v).spectators q =
      w.spectators q) := by
  refine ⟨?_, ?_, ?_⟩
  · simp [disconnectSpectator, removeSpectator, updateLiveCastInfo, World.setCaster,
      World.setSpectator, World.emit, hv]
  · simp [disconnectSpectator, removeSpectator, updateLiveCastInfo, World.setCaster,
      World.setSpectator, World.emit, hv]
  · intro q hq
    simp [disconnectSpectator, removeSpectator, updateLiveCastInfo, World.setCaster,
      World.setSpectator, World.emit, hv, Function.update, hq]

theorem kickCommand_listed (w : World) (self : CasterPtr) (v : SpecPtr) (arg : Str)
    (hv : v ∈ (w.casters self).m_spectators)
    (hnames : ((w.casters self).m_spectators.map
      (fun p => toLowerCaseString (w.spectators p).spectatorName)).Nodup)
    (hname : (w.spectators v).spectatorName ≠ [])
    (harg : toLowerCaseString arg = toLowerCaseString (w.spectators v).spectatorName) :
    kickCommand w self (toLowerCaseString arg) =
      disconnectSpectator
        (removeSpectator
          (sendChannelMessage w ((w.spectators v).spectatorName ++ " has been kicked.".toList))
          self v) v := by
  have hne : toLowerCaseString arg ≠ [] := by
    rw [harg]
    exact fun h => hname ((toLowerCaseString_eq_nil _).1 h)
  have hfind := getSpectatorByName_listed w self v arg hv hnames harg
  simp only [kickCommand, if_neg hne, hfind]

theorem banCommand_listed (w : World) (self : CasterPtr) (v : SpecPtr) (arg : Str)
    (hv : v ∈ (w.casters self).m_spectators)
    (hnames : ((w.casters self).m_spectators.map
      (fun p => toLowerCaseString (w.spectators p).spectatorName)).Nodup)
    (hname : (w.spectators v).spectatorName ≠ [])
    (harg : toLowerCaseString arg = toLowerCaseString (w.spectators v).spectatorName) :
    banCommand w self "ban".toList arg =
      disconnectSpectator
        (removeSpectator
          (((sendChannelMessage w
              ((w.spectators v).spectatorName ++ " has been banned.".toList)).setCaster self
            { w.casters self with
              banMap := banMapInsert (w.spectators v).ip
                (toLowerCaseString (w.spectators v).spectatorName) (w.casters self).banMap }).emit
            (.banMapInsert (w.spectators v).ip
              (toLowerCaseString (w.spectators v).spectatorName)))
          self v) v := by
  have hne : toLowerCaseString arg ≠ [] := by
    rw [harg]
    exact fun h => hname ((toLowerCaseString_eq_nil _).1 h)
  have hfind := getSpectatorByName_listed w self v arg hv hnames harg
  have hcmd : "ban".toList ≠ "unban".toList := by decide
  simp only [banCommand, if_neg hne, hfind, hcmd, ne_eq, not_false_eq_true, if_true]
  rfl

/-- C7: on a session whose listed viewers have display names that are
non-empty and pairwise distinct when lowercased (as the names given by
addSpectator are), for every listed viewer v, dispatching "/kick " or "/ban "
followed by the name of v returns true and removes exactly v from the viewer
list (every other viewer stays, in the same relative order), so the viewer
count getSpectatorCount decreases by exactly one; v's connection is
disconnected once and no other spectator client is touched. -/
theorem kick_or_ban_removes_exactly_the_viewer (w : World) (self : CasterPtr) (v : SpecPtr)
    (text : Str)
    (htext : text = "/kick ".toList ++ (w.spectators v).spectatorName ∨
      text = "/ban ".toList ++ (w.spectators v).spectatorName)
    (hv : v ∈ (w.casters self).m_spectators)
    (hnames : ((w.casters self).m_spectators.map
      (fun p => toLowerCaseString (w.spectators p).spectatorName)).Nodup)
    (hname : (w.spectators v).spectatorName ≠ []) :
    (checkCommand w self text).1 = true ∧
    ((checkCommand w self text).2.casters self).m_spectators =
      (w.casters self).m_spectators.filter (fun p => p != v) ∧
    v ∉ ((checkCommand w self text).2.casters self).m_spectators ∧
    getSpectatorCount ((checkCommand w self text).2.casters self) + 1 =
      getSpectatorCount (w.casters self) ∧
    ((checkCommand w self text).2.spectators v).disconnects =
      (w.spectators v).disconnects + 1 ∧
    (∀ q, q ≠ v → (checkCommand w self text).2.spectators q = w.spectators q) := by
  have hnodup : (w.casters self).m_spectators.Nodup := List.Nodup.of_map _ hnames
  have herase : (w.casters self).m_spectators.erase v =
      (w.casters self).m_spectators.filter (fun p => p != v) :=
    List.Nodup.erase_eq_filter hnodup v
  have hlen : ((w.casters self).m_spectators.erase v).length + 1 =
      (w.casters self).m_spectators.length := by
    rw [List.length_erase_of_mem hv]
    have := List.length_pos_of_mem hv
    omega
  have hnot : v ∉ (w.casters self).m_spectators.filter (fun p => p != v) := by
    simp
  rcases htext with h | h
  · have hshape : text = '/' :: ("kick".toList ++ ' ' :: (w.spectators v).spectatorName) := by
      rw [h]; rfl
    rw [hshape, checkCommand_word_arg _ _ _ _ (by decide), runCommand_kick,
      kickCommand_listed w self v _ hv hnames hname rfl]
    obtain ⟨hc, hs, ho⟩ := remove_and_disconnect
      (sendChannelMessage w ((w.spectators v).spectatorName ++ " has been kicked.".toList))
      self v hv
    simp only [hc, hs]
    exact ⟨trivial, herase, herase ▸ hnot, by simpa [getSpectatorCount] using hlen, rfl, ho⟩
  · have hshape : text = '/' :: ("ban".toList ++ ' ' :: (w.spectators v).spectatorName) := by
      rw [h]; rfl
    rw [hshape, checkCommand_word_arg _ _ _ _ (by decide), runCommand_ban,
      banCommand_listed w self v _ hv hnames hname rfl]
    obtain ⟨hc, hs, ho⟩ := remove_and_disconnect
      (((sendChannelMessage w
          ((w.spectators v).spectatorName ++ " has been banned.".toList)).setCaster self
        { w.casters self with
          banMap := banMapInsert (w.spectators v).ip
            (toLowerCaseString (w.spectators v).spectatorName) (w.casters self).banMap }).emit
        (.banMapInsert (w.spectators v).ip
          (toLowerCaseString (w.spectators v).spectatorName)))
      self v (by simpa [World.setCaster, World.emit, sendChannelMessage] using hv)
    simp only [hc, hs]
    simp only [World.setCaster, World.emit, sendChannelMessage, Function.update_same] at ho ⊢
    exact ⟨trivial, herase, herase ▸ hnot, by simpa [getSpectatorCount] using hlen, trivial, ho⟩

/-- Witness for C7: kicking the second of three viewers. -/
theorem kick_or_ban_removes_exactly_the_viewer_witness :
    ((checkCommand threeViewersWorld 0 "/kick Spectator(2)".toList).2.casters 0).m_spectators =
      [1, 3] ∧
    getSpectatorCount ((checkCommand threeViewersWorld 0 "/kick Spectator(2)".toList).2.casters 0)
      + 1 = getSpectatorCount (threeViewersWorld.casters 0) ∧
    ((checkCommand threeViewersWorld 0 "/kick Spectator(2)".toList).2.spectators 2).disconnects =
      1 :=
  have h := kick_or_ban_removes_exactly_the_viewer threeViewersWorld 0 2
    "/kick Spectator(2)".toList (Or.inl (by decide)) (by decide) (by decide) (by decide)
  ⟨h.2.1, h.2.2.2.1, h.2.2.2.2.1⟩

theorem mem_banMapPlace (ip : Nat) (name : Str) (m : List (Nat × Str)) (r : Nat × Str) :
    r ∈ banMapPlace ip name m ↔ r = (ip, name) ∨ r ∈ m := by
  induction m with
  | nil => simp [banMapPlace]
  | cons kv rest ih =>
    obtain ⟨k, x⟩ := kv
    by_cases h : ip < k
    · simp [banMapPlace, h]
    · simp only [banMapPlace, if_neg h, List.mem_cons, ih]
      tauto

theorem mem_banMapInsert (ip : Nat) (name : Str) (m : List (Nat × Str)) (r : Nat × Str) :
    r ∈ banMapInsert ip name m ↔ r ∈ m ∨ (r = (ip, name) ∧ ip ∉ m.map Prod.fst) := by
  unfold banMapInsert
  by_cases h : ip ∈ m.map Prod.fst
  · simp [h]
  · rw [if_neg h, mem_banMapPlace]
    tauto

theorem banMapErase_banMapPlace (ip : Nat) (name : Str) (m : List (Nat × Str))
    (hip : ip ∉ m.map Prod.fst) :
    banMapErase ip (banMapPlace ip name m) = m := by
  induction m with
  | nil => simp [banMapPlace, banMapErase]
  | cons kv rest ih =>
    obtain ⟨k, x⟩ := kv
    simp only [List.map_cons, List.mem_cons, not_or] at hip
    have hk : k ≠ ip := fun h => hip.1 h.symm
    have hrest : banMapErase ip rest = rest := by
      have := ih hip.2
      unfold banMapErase
      apply List.filter_eq_self.2
      intro r hr
      have hr1 : r.1 ≠ ip := fun h => hip.2 (h ▸ List.mem_map_of_mem Prod.fst hr)
      simpa using hr1
    by_cases h : ip < k
    · simp only [banMapPlace, if_pos h]
      unfold banMapErase at hrest ⊢
      simp [List.filter_cons, hk, hrest]
    · simp only [banMapPlace, if_neg h]
      have := ih hip.2
      unfold banMapErase at this ⊢
      simp [List.filter_cons, hk, this]

theorem ban_result (w : World) (self : CasterPtr) (v : SpecPtr)
    (hv : v ∈ (w.casters self).m_spectators)
    (hnames : ((w.casters self).m_spectators.map
      (fun p => toLowerCaseString (w.spectators p).spectatorName)).Nodup)
    (hname : (w.spectators v).spectatorName ≠ []) :
    (checkCommand w self ("/ban ".toList ++ (w.spectators v).spectatorName)).2.casters self =
      { w.casters self with
        banMap := banMapInsert (w.spectators v).ip
          (toLowerCaseString (w.spectators v).spectatorName) (w.casters self).banMap
        m_spectators := (w.casters self).m_spectators.erase v } ∧
    (checkCommand w self ("/ban ".toList ++ (w.spectators v).spectatorName)).2.trace =
      w.trace ++
        [.sendChannelMessage ((w.spectators v).spectatorName ++ " has been banned.".toList) false,
          .banMapInsert (w.spectators v).ip (toLowerCaseString (w.spectators v).spectatorName),
          .spectatorsErase v,
          .updateLiveCastInfo (ownerGuid w self) (w.casters self).m_liveCastName
            (isPasswordProtected (w.casters self))
            ((w.casters self).m_spectators.erase v).length,
          .disconnect v] := by
  have hshape : "/ban ".toList ++ (w.spectators v).spectatorName =
      '/' :: ("ban".toList ++ ' ' :: (w.spectators v).spectatorName) := rfl
  rw [hshape, checkCommand_word_arg _ _ _ _ (by decide), runCommand_ban,
    banCommand_listed w self v _ hv hnames hname rfl]
  constructor
  · simp [disconnectSpectator, removeSpectator, updateLiveCastInfo, World.setCaster,
      World.setSpectator, World.emit, sendChannelMessage, hv]
  · simp [disconnectSpectator, removeSpectator, updateLiveCastInfo, World.setCaster,
      World.setSpectator, World.emit, sendChannelMessage, hv, ownerGuid, isPasswordProtected,
      getSpectatorCount]

/-- C8 (amended): on a session whose listed viewers have non-empty display
names that are pairwise distinct when lowercased, after "/ban " followed by
the name of a listed viewer v every prior record of the ban map is kept as
it was (a prior record of v's own address too: it is not overwritten), no
record is added for another address, and if v's address had no record
before, the map now maps it to the lowercased display name of v. -/
theorem ban_records_address_unless_present (w : World) (self : CasterPtr) (v : SpecPtr)
    (hv : v ∈ (w.casters self).m_spectators)
    (hnames : ((w.casters self).m_spectators.map
      (fun p => toLowerCaseString (w.spectators p).spectatorName)).Nodup)
    (hname : (w.spectators v).spectatorName ≠ []) :
    (∀ r ∈ (w.casters self).banMap,
      r ∈ ((checkCommand w self
        ("/ban ".toList ++ (w.spectators v).spectatorName)).2.casters self).banMap) ∧
    (∀ r ∈ ((checkCommand w self
        ("/ban ".toList ++ (w.spectators v).spectatorName)).2.casters self).banMap,
      r.1 ≠ (w.spectators v).ip → r ∈ (w.casters self).banMap) ∧
    ((w.spectators v).ip ∈ (w.casters self).banMap.map Prod.fst →
      ((checkCommand w self
        ("/ban ".toList ++ (w.spectators v).spectatorName)).2.casters self).banMap =
        (w.casters self).banMap) ∧
    ((w.spectators v).ip ∉ (w.casters self).banMap.map Prod.fst →
      ∀ name, ((w.spectators v).ip, name) ∈ ((checkCommand w self
          ("/ban ".toList ++ (w.spectators v).spectatorName)).2.casters self).banMap ↔
        name = toLowerCaseString (w.spectators v).spectatorName) := by
  rw [(ban_result w self v hv hnames hname).1]
  simp only
  refine ⟨fun r hr => ?_, fun r hr hne => ?_, fun hip => ?_, fun hip name => ?_⟩
  · exact (mem_banMapInsert _ _ _ _).2 (Or.inl hr)
  · rcases (mem_banMapInsert _ _ _ _).1 hr with h | ⟨h, _⟩
    · exact h
    · exact absurd (by rw [h]) hne
  · simp [banMapInsert, hip]
  · rw [mem_banMapInsert]
    constructor
    · rintro (h | ⟨h, _⟩)
      · exact absurd (List.mem_map_of_mem Prod.fst h) hip
      · exact (Prod.mk.inj h).2
    · intro h
      exact Or.inr ⟨by rw [h], hip⟩

/-- Witness for C8: banning the second of three viewers, whose address 102
has no record. -/
theorem ban_records_address_unless_present_witness :
    (102 ∉ (threeViewersWorld.casters 0).banMap.map Prod.fst) ∧
    ((102, "spectator(2)".toList) ∈
      ((checkCommand threeViewersWorld 0 "/ban Spectator(2)".toList).2.casters 0).banMap) :=
  have h := ban_records_address_unless_present threeViewersWorld 0 2
    (by decide) (by decide) (by decide)
  ⟨by decide, (h.2.2.2 (by decide) "spectator(2)".toList).2 rfl⟩

/-- Counterexample to C8 as stated: two viewers joined from the address 500;
after Spectator(1) was banned, the ban of the listed viewer Spectator(2)
succeeds (it is removed and the notice is sent) but the ban map still maps
the address 500 to the older name spectator(1). -/
theorem ban_keeps_older_record_of_address :
    (2 ∈ ((checkCommand sharedAddressWorld 0 "/ban Spectator(1)".toList).2.casters 0).m_spectators ∧
      ((checkCommand sharedAddressWorld 0 "/ban Spectator(1)".toList).2.spectators 2).spectatorName
        = "Spectator(2)".toList ∧
      ((checkCommand sharedAddressWorld 0 "/ban Spectator(1)".toList).2.spectators 2).ip = 500) ∧
    ((runCommands sharedAddressWorld 0
        ["/ban Spectator(1)".toList, "/ban Spectator(2)".toList]).casters 0).m_spectators = [] ∧
    (runCommands sharedAddressWorld 0
        ["/ban Spectator(1)".toList, "/ban Spectator(2)".toList]).trace.getLast? =
      some (.disconnect 2) ∧
    ((runCommands sharedAddressWorld 0
        ["/ban Spectator(1)".toList, "/ban Spectator(2)".toList]).casters 0).banMap =
      [(500, "spectator(1)".toList)] ∧
    (500, "spectator(2)".toList) ∉
      ((runCommands sharedAddressWorld 0
        ["/ban Spectator(1)".toList, "/ban Spectator(2)".toList]).casters 0).banMap := by
  decide

theorem runCommand_unban (w : World) (self : CasterPtr) (arg : Str) :
    runCommand w self (toLowerCaseString "unban".toList) [arg] =
      banCommand w self "unban".toList arg := by
  have h : toLowerCaseString "unban".toList = "unban".toList := by decide
  rw [h]
  simp [runCommand]

theorem unbanCommand_found (w : World) (self : CasterPtr) (arg : Str) (it : Nat × Str)
    (hne : toLowerCaseString arg ≠ [])
    (hfind : (w.casters self).banMap.find? (fun r => decide (toLowerCaseString arg = r.2)) =
      some it) :
    banCommand w self "unban".toList arg =
      sendChannelMessage
        ((w.setCaster self
          { w.casters self with banMap := banMapErase it.1 (w.casters self).banMap }).emit
          (.banMapErase it.1))
        (arg ++ " has been unbanned.".toList) := by
  simp only [banCommand, if_neg hne, ne_eq, not_true_eq_false, if_false, hfind]

/-- C9 (amended): on a session whose listed viewers have non-empty display
names that are pairwise distinct when lowercased, for a listed viewer v whose
address has no ban record yet, "/ban " with the name of v followed by
"/unban " with that name in any letter case finds and removes a ban record:
the unban returns true, logs the removal and then the notice "<argument> has
been unbanned." on the cast channel (no private not-found message), and
leaves the viewer list and all spectator clients as the ban left them (v is
not listed again).  If moreover no prior record carried v's lowercased name,
the ban map is again what it was before the ban, so no record carries that
name. -/
theorem unban_after_ban_removes_record (w w1 : World) (self : CasterPtr) (v : SpecPtr)
    (arg : Str)
    (hv : v ∈ (w.casters self).m_spectators)
    (hnames : ((w.casters self).m_spectators.map
      (fun p => toLowerCaseString (w.spectators p).spectatorName)).Nodup)
    (hname : (w.spectators v).spectatorName ≠ [])
    (harg : toLowerCaseString arg = toLowerCaseString (w.spectators v).spectatorName)
    (hip : (w.spectators v).ip ∉ (w.casters self).banMap.map Prod.fst)
    (hw1 : w1 = (checkCommand w self ("/ban ".toList ++ (w.spectators v).spectatorName)).2) :
    (checkCommand w1 self ("/unban ".toList ++ arg)).1 = true ∧
    (∃ k, (checkCommand w1 self ("/unban ".toList ++ arg)).2.trace =
      w1.trace ++
        [.banMapErase k, .sendChannelMessage (arg ++ " has been unbanned.".toList) false]) ∧
    ((checkCommand w1 self ("/unban ".toList ++ arg)).2.casters self).m_spectators =
      (w1.casters self).m_spectators ∧
    v ∉ ((checkCommand w1 self ("/unban ".toList ++ arg)).2.casters self).m_spectators ∧
    (checkCommand w1 self ("/unban ".toList ++ arg)).2.spectators = w1.spectators ∧
    ((∀ r ∈ (w.casters self).banMap,
        r.2 ≠ toLowerCaseString (w.spectators v).spectatorName) →
      ((checkCommand w1 self ("/unban ".toList ++ arg)).2.casters self).banMap =
        (w.casters self).banMap ∧
      ∀ r ∈ ((checkCommand w1 self ("/unban ".toList ++ arg)).2.casters self).banMap,
        r.2 ≠ toLowerCaseString (w.spectators v).spectatorName) := by
  have hc1 : w1.casters self =
      { w.casters self with
        banMap := banMapInsert (w.spectators v).ip
          (toLowerCaseString (w.spectators v).spectatorName) (w.casters self).banMap
        m_spectators := (w.casters self).m_spectators.erase v } := by
    rw [hw1]; exact (ban_result w self v hv hnames hname).1
  have hne : toLowerCaseString arg ≠ [] := by
    rw [harg]
    exact fun h => hname ((toLowerCaseString_eq_nil _).1 h)
  have hnodup : (w.casters self).m_spectators.Nodup := List.Nodup.of_map _ hnames
  have hgone : v ∉ (w.casters self).m_spectators.erase v := by
    rw [List.Nodup.erase_eq_filter hnodup v]; simp
  have hmem : ((w.spectators v).ip, toLowerCaseString (w.spectators v).spectatorName) ∈
      (w1.casters self).banMap := by
    rw [hc1]
    exact (mem_banMapInsert _ _ _ _).2 (Or.inr ⟨rfl, hip⟩)
  have hshape : "/unban ".toList ++ arg = '/' :: ("unban".toList ++ ' ' :: arg) := rfl
  rw [hshape, checkCommand_word_arg _ _ _ _ (by decide), runCommand_unban]
  cases hfind : (w1.casters self).banMap.find?
      (fun r => decide (toLowerCaseString arg = r.2)) with
  | none =>
    have := List.find?_eq_none.1 hfind _ hmem
    simp [harg] at this
  | some it =>
    rw [unbanCommand_found w1 self arg it hne hfind]
    have hit : toLowerCaseString arg = it.2 := by
      simpa using List.find?_some hfind
    have hitmem : it ∈ (w1.casters self).banMap := List.mem_of_find?_eq_some hfind
    refine ⟨rfl, ⟨it.1, ?_⟩, ?_, ?_, ?_, fun hnone => ?_⟩
    · simp [sendChannelMessage, World.emit, World.setCaster]
    · simp [sendChannelMessage, World.emit, World.setCaster]
    · simp only [sendChannelMessage, World.emit, World.setCaster, Function.update_same, hc1]
      exact hgone
    · simp [sendChannelMessage, World.emit, World.setCaster]
    · have hkey : it = ((w.spectators v).ip,
          toLowerCaseString (w.spectators v).spectatorName) := by
        rw [hc1] at hitmem
        rcases (mem_banMapInsert _ _ _ _).1 hitmem with h | ⟨h, _⟩
        · exact absurd (by rw [← hit, harg]) (hnone it h)
        · exact h
      have hback : ((sendChannelMessage
          ((w1.setCaster self
            { w1.casters self with banMap := banMapErase it.1 (w1.casters self).banMap }).emit
            (.banMapErase it.1))
          (arg ++ " has been unbanned.".toList)).casters self).banMap =
          (w.casters self).banMap := by
        simp only [sendChannelMessage, World.emit, World.setCaster, Function.update_same, hc1,
          hkey, banMapInsert, if_neg hip]
        exact banMapErase_banMapPlace _ _ _ hip
      rw [hback]
      exact ⟨rfl, hnone⟩

/-- Witness for C9: the second of three viewers is banned and then unbanned
with its name in upper case. -/
theorem unban_after_ban_removes_record_witness :
    (checkCommand (checkCommand threeViewersWorld 0 "/ban Spectator(2)".toList).2 0
      "/unban SPECTATOR(2)".toList).2.trace.getLast? =
      some (.sendChannelMessage "SPECTATOR(2) has been unbanned.".toList false) ∧
    ((checkCommand (checkCommand threeViewersWorld 0 "/ban Spectator(2)".toList).2 0
      "/unban SPECTATOR(2)".toList).2.casters 0).m_spectators = [1, 3] ∧
    ((checkCommand (checkCommand threeViewersWorld 0 "/ban Spectator(2)".toList).2 0
      "/unban SPECTATOR(2)".toList).2.casters 0).banMap = [] :=
  have h := unban_after_ban_removes_record threeViewersWorld
    (checkCommand threeViewersWorld 0 "/ban Spectator(2)".toList).2 0 2 "SPECTATOR(2)".toList
    (by decide) (by decide) (by decide) (by decide) (by decide) rfl
  ⟨by decide, h.2.2.1, (h.2.2.2.2.2 (by decide)).1⟩

/-- Counterexample to C9 as stated: two viewers joined from the address 500;
after Spectator(1) and then the listed viewer Spectator(2) were banned,
"/unban Spectator(2)" finds no record: it sends the private message
"Spectator not found." and leaves the ban map as it was. -/
theorem unban_after_ban_may_find_nothing :
    2 ∈ ((checkCommand sharedAddressWorld 0 "/ban Spectator(1)".toList).2.casters 0).m_spectators ∧
    ((runCommands sharedAddressWorld 0
        ["/ban Spectator(1)".toList, "/ban Spectator(2)".toList]).casters 0).m_spectators = [] ∧
    (checkCommand (runCommands sharedAddressWorld 0
        ["/ban Spectator(1)".toList, "/ban Spectator(2)".toList]) 0
        "/unban Spectator(2)".toList).2.trace =
      (runCommands sharedAddressWorld 0
        ["/ban Spectator(1)".toList, "/ban Spectator(2)".toList]).trace ++
        [.sendTextMessage "Spectator not found.".toList] ∧
    ((checkCommand (runCommands sharedAddressWorld 0
        ["/ban Spectator(1)".toList, "/ban Spectator(2)".toList]) 0
        "/unban Spectator(2)".toList).2.casters 0).banMap = [(500, "spectator(1)".toList)] := by
  decide

theorem muteCommand_frame (w : World) (self : CasterPtr) (command toMute : Str) :
    (∃ ml, (muteCommand w self command toMute).casters self =
      { w.casters self with muteList := ml }) ∧
    (muteCommand w self command toMute).spectators = w.spectators ∧
    (muteCommand w self command toMute).m_liveCasts = w.m_liveCasts := by
  unfold muteCommand
  by_cases h0 : toMute = []
  · rw [if_pos h0]
    exact ⟨⟨(w.casters self).muteList, rfl⟩, rfl, rfl⟩
  · rw [if_neg h0]
    cases getSpectatorByName w self toMute with
    | none => exact ⟨⟨(w.casters self).muteList, rfl⟩, rfl, rfl⟩
    | some spectator =>
      by_cases hm : command = "mute".toList
      · simp only [hm, if_true]
        refine ⟨⟨(w.casters self).muteList ++ [(w.spectators spectator).spectatorId], ?_⟩,
          rfl, rfl⟩
        simp [sendChannelMessage, World.emit, World.setCaster]
      · simp only [hm, if_false]
        by_cases hin : (w.spectators spectator).spectatorId ∈ (w.casters self).muteList
        · refine ⟨⟨(w.casters self).muteList.erase (w.spectators spectator).spectatorId, ?_⟩,
            ?_, ?_⟩
          · simp [sendChannelMessage, World.emit, World.setCaster, hin]
          · simp [sendChannelMessage, World.emit, World.setCaster, hin]
          · simp [sendChannelMessage, World.emit, World.setCaster, hin]
        · refine ⟨⟨(w.casters self).muteList, ?_⟩, ?_, ?_⟩
          · simp [sendChannelMessage, World.emit, hin]
          · simp [sendChannelMessage, World.emit, hin]
          · simp [sendChannelMessage, World.emit, hin]

theorem runCommand_mute (w : World) (self : CasterPtr) (arg : Str) :
    runCommand w self (toLowerCaseString "mute".toList) [arg] =
      muteCommand w self "mute".toList (toLowerCaseString arg) := by
  have h : toLowerCaseString "mute".toList = "mute".toList := by decide
  rw [h]
  simp [runCommand]

theorem runCommand_unmute (w : World) (self : CasterPtr) (arg : Str) :
    runCommand w self (toLowerCaseString "unmute".toList) [arg] =
      muteCommand w self "unmute".toList (toLowerCaseString arg) := by
  have h : toLowerCaseString "unmute".toList = "unmute".toList := by decide
  rw [h]
  simp [runCommand]

/-- C10: for every world, session and argument, dispatching "/mute " or
"/unmute " followed by the argument returns true and leaves the viewer list
(members and order), the viewer count, the ban map and the password of the
session unchanged: the caster differs from before at most in its mute list,
and the spectator clients and the registry are unchanged. -/
theorem mute_unmute_change_only_the_mute_list (w : World) (self : CasterPtr) (arg text : Str)
    (htext : text = "/mute ".toList ++ arg ∨ text = "/unmute ".toList ++ arg) :
    (checkCommand w self text).1 = true ∧
    ((checkCommand w self text).2.casters self).m_spectators = (w.casters self).m_spectators ∧
    getSpectatorCount ((checkCommand w self text).2.casters self) =
      getSpectatorCount (w.casters self) ∧
    ((checkCommand w self text).2.casters self).banMap = (w.casters self).banMap ∧
    ((checkCommand w self text).2.casters self).m_liveCastPassword =
      (w.casters self).m_liveCastPassword ∧
    (∃ ml, (checkCommand w self text).2.casters self = { w.casters self with muteList := ml }) ∧
    (checkCommand w self text).2.spectators = w.spectators ∧
    (checkCommand w self text).2.m_liveCasts = w.m_liveCasts := by
  have key : ∀ command : Str,
      (checkCommand w self text) =
        (true, muteCommand w self command (toLowerCaseString arg)) →
      (checkCommand w self text).1 = true ∧
      ((checkCommand w self text).2.casters self).m_spectators = (w.casters self).m_spectators ∧
      getSpectatorCount ((checkCommand w self text).2.casters self) =
        getSpectatorCount (w.casters self) ∧
      ((checkCommand w self text).2.casters self).banMap = (w.casters self).banMap ∧
      ((checkCommand w self text).2.casters self).m_liveCastPassword =
        (w.casters self).m_liveCastPassword ∧
      (∃ ml, (checkCommand w self text).2.casters self =
        { w.casters self with muteList := ml }) ∧
      (checkCommand w self text).2.spectators = w.spectators ∧
      (checkCommand w self text).2.m_liveCasts = w.m_liveCasts := by
    intro command hrun
    obtain ⟨⟨ml, hml⟩, hs, hr⟩ := muteCommand_frame w self command (toLowerCaseString arg)
    rw [hrun]
    simp only [hml, hs, hr, getSpectatorCount]
    exact ⟨trivial, trivial, trivial, trivial, trivial, ⟨ml, rfl⟩, trivial, trivial⟩
  rcases htext with h | h
  · apply key "mute".toList
    have hshape : text = '/' :: ("mute".toList ++ ' ' :: arg) := by rw [h]; rfl
    rw [hshape, checkCommand_word_arg _ _ _ _ (by decide), runCommand_mute]
  · apply key "unmute".toList
    have hshape : text = '/' :: ("unmute".toList ++ ' ' :: arg) := by rw [h]; rfl
    rw [hshape, checkCommand_word_arg _ _ _ _ (by decide), runCommand_unmute]

/-- Witness for C10: muting the second of three viewers. -/
theorem mute_unmute_change_only_the_mute_list_witness :
    ((checkCommand threeViewersWorld 0 "/mute Spectator(2)".toList).2.casters 0).m_spectators =
      [1, 2, 3] ∧
    ((checkCommand threeViewersWorld 0 "/mute Spectator(2)".toList).2.casters 0).muteList = [2] ∧
    getSpectatorCount ((checkCommand threeViewersWorld 0 "/mute Spectator(2)".toList).2.casters 0)
      = 3 :=
  have h := mute_unmute_change_only_the_mute_list threeViewersWorld 0 "Spectator(2)".toList
    "/mute Spectator(2)".toList (Or.inl (by decide))
  ⟨h.2.1, by decide, h.2.2.1⟩

/-! ## Mute list, password and dispatch results -/


/-- C11 (evaluation at the failing input): with three viewers listed, after
"/mute Spectator(2)" twice and one "/unmute Spectator(2)" the notice
"Spectator(2) has been unmuted." has been sent on the cast channel and one
occurrence of the id has been erased, but the id 2 is still in the mute
list. -/
theorem unmute_after_double_mute_leaves_id_muted :
    ((runCommands threeViewersWorld 0
        ["/mute Spectator(2)".toList, "/mute Spectator(2)".toList]).casters 0).muteList =
      [2, 2] ∧
    (runCommands threeViewersWorld 0
        ["/mute Spectator(2)".toList, "/mute Spectator(2)".toList,
          "/unmute Spectator(2)".toList]).trace.reverse.take 2 =
      [.muteListErase 2, .sendChannelMessage "Spectator(2) has been unmuted.".toList false] ∧
    ((runCommands threeViewersWorld 0
        ["/mute Spectator(2)".toList, "/mute Spectator(2)".toList,
          "/unmute Spectator(2)".toList]).casters 0).muteList = [2] ∧
    2 ∈ ((runCommands threeViewersWorld 0
        ["/mute Spectator(2)".toList, "/mute Spectator(2)".toList,
          "/unmute Spectator(2)".toList]).casters 0).muteList := by
  decide

theorem explodeString_ne_nil (s : Str) : explodeString s ≠ [] := by
  unfold explodeString
  split <;> simp

theorem checkCommand_prefixed (w : World) (self : CasterPtr) (text : Str)
    (hslash : text.head? = some '/') :
    checkCommand w self text =
      (true, runCommand w self (commandWord text) (commandArgs text)) := by
  unfold checkCommand commandWord commandArgs
  rw [if_pos hslash]
  cases h : explodeString (text.drop 1) with
  | nil => exact absurd h (explodeString_ne_nil _)
  | cons t0 args => rfl

theorem checkCommand_not_prefixed (w : World) (self : CasterPtr) (text : Str)
    (hslash : text.head? ≠ some '/') :
    checkCommand w self text = (false, w) := by
  unfold checkCommand
  rw [if_neg hslash]

/-- C14: for every chat text and world, checkCommand returns true if and only
if the text begins with the command prefix '/'; for the empty text and for
every text whose first character is not '/' it returns false, changes no
state and sends nothing (the world, log included, is returned as it was). -/
theorem checkCommand_true_iff_prefixed (w : World) (self : CasterPtr) (text : Str) :
    ((checkCommand w self text).1 = true ↔ text.head? = some '/') ∧
    (text.head? ≠ some '/' → checkCommand w self text = (false, w)) ∧
    checkCommand w self [] = (false, w) := by
  refine ⟨⟨fun h => ?_, fun h => ?_⟩, checkCommand_not_prefixed w self text, ?_⟩
  · by_contra hne
    rw [checkCommand_not_prefixed w self text hne] at h
    exact Bool.noConfusion h
  · rw [checkCommand_prefixed w self text h]
  · exact checkCommand_not_prefixed w self [] (by simp)

/-- Witness for C14: a command is consumed, a chat line and the empty text
are not. -/
theorem checkCommand_true_iff_prefixed_witness :
    (checkCommand threeViewersWorld 0 "/spectators".toList).1 = true ∧
    checkCommand threeViewersWorld 0 "hello /kick".toList = (false, threeViewersWorld) ∧
    checkCommand threeViewersWorld 0 [] = (false, threeViewersWorld) :=
  ⟨(checkCommand_true_iff_prefixed threeViewersWorld 0 "/spectators".toList).1.2 (by decide),
    (checkCommand_true_iff_prefixed threeViewersWorld 0 "hello /kick".toList).2.1 (by decide),
    (checkCommand_true_iff_prefixed threeViewersWorld 0 []).2.2⟩

theorem runCommand_password (w : World) (self : CasterPtr) (arg : Str) :
    runCommand w self "password".toList [arg] = passwordCommand w self arg := by
  simp [runCommand]

/-- C13 (amended): the password command rejects an empty new password: for
every world and session, dispatching "/password " (empty argument) or
"/password" (no argument) returns true, sends the one private message "Not
enough parameters." and changes nothing else, so the session password stays
what it was and a password-protected cast stays protected. -/
theorem password_command_rejects_empty_password (w : World) (self : CasterPtr) :
    checkCommand w self "/password ".toList =
      (true, sendTextMessage w "Not enough parameters.".toList) ∧
    checkCommand w self "/password".toList =
      (true, sendTextMessage w "Not enough parameters.".toList) ∧
    ((checkCommand w self "/password ".toList).2.casters self).m_liveCastPassword =
      (w.casters self).m_liveCastPassword ∧
    isPasswordProtected ((checkCommand w self "/password ".toList).2.casters self) =
      isPasswordProtected (w.casters self) := by
  have h1 : checkCommand w self "/password ".toList =
      (true, sendTextMessage w "Not enough parameters.".toList) := by
    rw [checkCommand_prefixed w self _ (by decide)]
    have hw : commandWord "/password ".toList = "password".toList := by decide
    have ha : commandArgs "/password ".toList = [[]] := by decide
    rw [hw, ha, runCommand_password]
    simp [passwordCommand]
  have h2 : checkCommand w self "/password".toList =
      (true, sendTextMessage w "Not enough parameters.".toList) := by
    rw [checkCommand_prefixed w self _ (by decide)]
    have hw : commandWord "/password".toList = "password".toList := by decide
    have ha : commandArgs "/password".toList = [] := by decide
    rw [hw, ha]
    simp [runCommand]
  refine ⟨h1, h2, ?_, ?_⟩ <;> rw [h1] <;> rfl

/-- Counterexample to C13 as stated: the cast of caster 1 has the password
"secret"; after "/password " with an empty argument the password is still
"secret", the cast is still password-protected, and the only thing sent is
the private message "Not enough parameters.". -/
theorem empty_password_is_not_accepted :
    (directoryWorld.casters 1).m_isLiveCaster = true ∧
    (directoryWorld.casters 1).m_liveCastPassword = "secret".toList ∧
    ((checkCommand directoryWorld 1 "/password ".toList).2.casters 1).m_liveCastPassword =
      "secret".toList ∧
    isPasswordProtected ((checkCommand directoryWorld 1 "/password ".toList).2.casters 1) =
      true ∧
    (checkCommand directoryWorld 1 "/password ".toList).2.trace =
      directoryWorld.trace ++ [.sendTextMessage "Not enough parameters.".toList] := by
  decide

/-- C18: on an Inactive session stopLiveCast returns false and returns the
world as it was (no member, registry entry or spectator client changes and
nothing is logged: no disconnect, no database task); hence, for every world,
a second stop right after a stop returns false and leaves the world the
first stop produced. -/
theorem stopLiveCast_idempotent (w : World) (self : CasterPtr) :
    ((w.casters self).m_isLiveCaster = false → stopLiveCast w self = (false, w)) ∧
    stopLiveCast (stopLiveCast w self).2 self = (false, (stopLiveCast w self).2) := by
  have hinactive : ∀ w' : World, (w'.casters self).m_isLiveCaster = false →
      stopLiveCast w' self = (false, w') := by
    intro w' h
    simp [stopLiveCast, h]
  refine ⟨hinactive w, ?_⟩
  apply hinactive
  cases hact : (w.casters self).m_isLiveCaster with
  | false => rw [hinactive w hact]; exact hact
  | true => rw [(stopLiveCast_active w self hact).2.2.2.2.2.2]

/-- Witness for C18: stopping a caster that never cast, and stopping the
running cast of caster 0 twice. -/
theorem stopLiveCast_idempotent_witness :
    stopLiveCast threeViewersWorld 5 = (false, threeViewersWorld) ∧
    (stopLiveCast threeViewersWorld 0).1 = true ∧
    stopLiveCast (stopLiveCast threeViewersWorld 0).2 0 =
      (false, (stopLiveCast threeViewersWorld 0).2) :=
  ⟨(stopLiveCast_idempotent threeViewersWorld 5).1 (by decide), by decide,
    (stopLiveCast_idempotent threeViewersWorld 0).2⟩

theorem passwordCommand_nonempty (w : World) (self : CasterPtr) (p : Str) (hp : p ≠ []) :
    passwordCommand w self p =
      sendChannelMessage
        ((w.setCaster self { w.casters self with m_liveCastPassword := p }).emit
          (.setPassword p))
        ("Casting new password: ".toList ++ p) := by
  simp only [passwordCommand, if_neg hp]

/-- C12: for every non-empty argument p (spaces inside it included),
dispatching "/password " followed by p returns true, sets the session
password to exactly p, and then sends on the cast channel the confirmation
"Casting new password: " followed by p, by a call of `sendChannelMessage`
whose `broadcast` argument is false; the two are the only effects logged.
Afterwards the session is password-protected, and if it is registered, the
directory query with the password p pushes an entry for it, which is among
the entries of the reply for every sort that meets the contract of
`std::sort`. -/
theorem password_command_sets_password (w : World) (self : CasterPtr) (p : Str)
    (hp : p ≠ []) :
    (checkCommand w self ("/password ".toList ++ p)).1 = true ∧
    ((checkCommand w self ("/password ".toList ++ p)).2.casters self).m_liveCastPassword = p ∧
    (checkCommand w self ("/password ".toList ++ p)).2.trace =
      w.trace ++
        [.setPassword p, .sendChannelMessage ("Casting new password: ".toList ++ p) false] ∧
    isPasswordProtected ((checkCommand w self ("/password ".toList ++ p)).2.casters self) =
      true ∧
    (∀ owner, (owner, self) ∈ w.m_liveCasts →
      castListed (checkCommand w self ("/password ".toList ++ p)).2 p (owner, self) = true ∧
      castEntry (checkCommand w self ("/password ".toList ++ p)).2 (owner, self) ∈
        buildCastList (checkCommand w self ("/password ".toList ++ p)).2 p ∧
      ∀ sort, StdSort castComp sort →
        castEntry (checkCommand w self ("/password ".toList ++ p)).2 (owner, self) ∈
          (getCastingStreamsList sort (checkCommand w self ("/password ".toList ++ p)).2
            p).entries) := by
  have hshape : "/password ".toList ++ p = '/' :: ("password".toList ++ ' ' :: p) := rfl
  have hw : toLowerCaseString "password".toList = "password".toList := by decide
  have hrun : checkCommand w self ("/password ".toList ++ p) =
      (true, sendChannelMessage
        ((w.setCaster self { w.casters self with m_liveCastPassword := p }).emit
          (.setPassword p))
        ("Casting new password: ".toList ++ p)) := by
    rw [hshape, checkCommand_word_arg _ _ _ _ (by decide), hw, runCommand_password,
      passwordCommand_nonempty w self p hp]
  have hne : p.isEmpty = false := by
    cases p with
    | nil => exact absurd rfl hp
    | cons _ _ => rfl
  rw [hrun]
  refine ⟨rfl, ?_, ?_, ?_, fun owner hmem => ?_⟩
  · simp [sendChannelMessage, World.emit, World.setCaster]
  · simp [sendChannelMessage, World.emit, World.setCaster]
  · simp [sendChannelMessage, World.emit, World.setCaster, isPasswordProtected, hne]
  · have hlisted : castListed (sendChannelMessage
          ((w.setCaster self { w.casters self with m_liveCastPassword := p }).emit
            (.setPassword p))
          ("Casting new password: ".toList ++ p)) p (owner, self) = true := by
      simp [castListed, sendChannelMessage, World.emit, World.setCaster, isPasswordProtected, hne]
    have hbuilt : castEntry (sendChannelMessage
          ((w.setCaster self { w.casters self with m_liveCastPassword := p }).emit
            (.setPassword p))
          ("Casting new password: ".toList ++ p)) (owner, self) ∈
        buildCastList (sendChannelMessage
          ((w.setCaster self { w.casters self with m_liveCastPassword := p }).emit
            (.setPassword p))
          ("Casting new password: ".toList ++ p)) p := by
      unfold buildCastList
      apply List.mem_map_of_mem
      exact List.mem_filter.2 ⟨hmem, hlisted⟩
    refine ⟨hlisted, hbuilt, fun sort hsort => ?_⟩
    rw [getCastingStreamsList_entries sort hsort]
    exact (hsort _).1.symm.subset hbuilt

/-- Witness for C12: a password with a space inside, set on the running cast
of caster 0. -/
theorem password_command_sets_password_witness :
    ((checkCommand threeViewersWorld 0 "/password open Sesame".toList).2.casters 0).m_liveCastPassword
      = "open Sesame".toList ∧
    (3, "Alice".toList) ∈
      (getCastingStreamsList insertionSortCasts
        (checkCommand threeViewersWorld 0 "/password open Sesame".toList).2
        "open Sesame".toList).entries :=
  have h := password_command_sets_password threeViewersWorld 0 "open Sesame".toList (by decide)
  ⟨h.2.1, (h.2.2.2.2 0 (by decide)).2.2 insertionSortCasts stdSort_insertionSortCasts⟩

/-- C15: for every world and every '/'-prefixed text, if the command word
(compared in lower case) is none of mute, unmute, ban, unban, spectators,
password, kick, checkCommand returns true and its only effect is the one
private message "Invalid command."; if the command word is mute, unmute, ban,
unban, password or kick and the text has no argument (or an empty one),
checkCommand returns true and its only effect is the one private message
"Not enough parameters.".  In both cases nothing is sent on the cast channel
and no member, spectator client or registry entry changes. -/
theorem invalid_or_incomplete_command_is_reported (w : World) (self : CasterPtr) (text : Str)
    (hslash : text.head? = some '/') :
    (commandWord text ∉ ["mute".toList, "unmute".toList, "ban".toList, "unban".toList,
        "spectators".toList, "password".toList, "kick".toList] →
      checkCommand w self text =
        (true, { w with trace := w.trace ++ [.sendTextMessage "Invalid command.".toList] })) ∧
    (commandWord text ∈ ["mute".toList, "unmute".toList, "ban".toList, "unban".toList,
        "password".toList, "kick".toList] →
      (commandArgs text = [] ∨ commandArgs text = [[]]) →
      checkCommand w self text =
        (true,
          { w with trace := w.trace ++ [.sendTextMessage "Not enough parameters.".toList] })) := by
  rw [checkCommand_prefixed w self text hslash]
  constructor
  · intro hword
    simp only [List.mem_cons, List.mem_singleton, List.not_mem_nil, or_false, not_or] at hword
    obtain ⟨h1, h2, h3, h4, h5, h6, h7⟩ := hword
    unfold runCommand
    rw [if_neg (fun h => h.elim h1 h2), if_neg (fun h => h.elim h3 h4), if_neg h5, if_neg h6,
      if_neg h7]
    rfl
  · intro hword hargs
    simp only [List.mem_cons, List.mem_singleton, List.not_mem_nil, or_false] at hword
    have hlow : toLowerCaseString [] = [] := rfl
    rcases hword with h | h | h | h | h | h <;> rcases hargs with ha | ha <;>
      rw [h, ha] <;>
      simp [runCommand, muteCommand, banCommand, passwordCommand, kickCommand, hlow,
        sendTextMessage, World.emit]

/-- Witness for C15: an unknown command word, a kick without argument and a
mute with an empty argument. -/
theorem invalid_or_incomplete_command_is_reported_witness :
    checkCommand threeViewersWorld 0 "/Dance now".toList =
      (true, { threeViewersWorld with
        trace := threeViewersWorld.trace ++ [.sendTextMessage "Invalid command.".toList] }) ∧
    checkCommand threeViewersWorld 0 "/KICK".toList =
      (true, { threeViewersWorld with
        trace := threeViewersWorld.trace ++
          [.sendTextMessage "Not enough parameters.".toList] }) ∧
    checkCommand threeViewersWorld 0 "/mute ".toList =
      (true, { threeViewersWorld with
        trace := threeViewersWorld.trace ++
          [.sendTextMessage "Not enough parameters.".toList] }) :=
  ⟨(invalid_or_incomplete_command_is_reported threeViewersWorld 0 "/Dance now".toList
      (by decide)).1 (by decide),
    (invalid_or_incomplete_command_is_reported threeViewersWorld 0 "/KICK".toList
      (by decide)).2 (by decide) (Or.inl (by decide)),
    (invalid_or_incomplete_command_is_reported threeViewersWorld 0 "/mute ".toList
      (by decide)).2 (by decide) (Or.inr (by decide))⟩

theorem findSpectator_none (w : World) (tmpName : Str) (l : List SpecPtr)
    (hnone : ∀ p ∈ l, toLowerCaseString (w.spectators p).spectatorName ≠ tmpName) :
    findSpectator w tmpName l = none := by
  induction l with
  | nil => rfl
  | cons t rest ih =>
    have ht := hnone t (List.mem_cons_self _ _)
    simp only [findSpectator, if_neg ht]
    exact ih (fun p hp => hnone p (List.mem_cons_of_mem _ hp))

theorem getSpectatorByName_none (w : World) (self : CasterPtr) (arg : Str)
    (hnone : ∀ p ∈ (w.casters self).m_spectators,
      toLowerCaseString (w.spectators p).spectatorName ≠ toLowerCaseString arg) :
    getSpectatorByName w self (toLowerCaseString arg) = none := by
  unfold getSpectatorByName
  rw [toLowerCaseString_idem]
  exact findSpectator_none w _ _ hnone

/-- C16: for every world, every '/'-prefixed text and every non-empty
argument: if the command word is mute, unmute, ban or kick and no listed
viewer's lowercased display name equals the lowercased argument, or the
command word is unban and no record of the ban map carries the lowercased
argument, checkCommand returns true and its only effect is the one private
message "Spectator not found.": nothing is sent on the cast channel and the
viewer list, mute list, ban map, password, spectator clients and registry
are unchanged. -/
theorem unknown_name_is_reported_not_found (w : World) (self : CasterPtr) (text arg : Str)
    (hslash : text.head? = some '/')
    (hargs : commandArgs text = [arg])
    (harg : arg ≠ []) :
    (commandWord text ∈ ["mute".toList, "unmute".toList, "ban".toList, "kick".toList] →
      (∀ p ∈ (w.casters self).m_spectators,
        toLowerCaseString (w.spectators p).spectatorName ≠ toLowerCaseString arg) →
      checkCommand w self text =
        (true,
          { w with trace := w.trace ++ [.sendTextMessage "Spectator not found.".toList] })) ∧
    (commandWord text = "unban".toList →
      (∀ r ∈ (w.casters self).banMap, r.2 ≠ toLowerCaseString arg) →
      checkCommand w self text =
        (true,
          { w with trace := w.trace ++ [.sendTextMessage "Spectator not found.".toList] })) := by
  rw [checkCommand_prefixed w self text hslash, hargs]
  have hlow : toLowerCaseString arg ≠ [] := fun h => harg ((toLowerCaseString_eq_nil _).1 h)
  constructor
  · intro hword hnone
    have hfind := getSpectatorByName_none w self arg hnone
    simp only [List.mem_cons, List.mem_singleton, List.not_mem_nil, or_false] at hword
    rcases hword with h | h | h | h <;> rw [h] <;>
      simp [runCommand, muteCommand, banCommand, kickCommand, hlow, hfind, sendTextMessage,
        World.emit]
  · intro hword hnone
    have hfind : (w.casters self).banMap.find?
        (fun it => decide (toLowerCaseString arg = it.2)) = none := by
      apply List.find?_eq_none.2
      intro r hr
      have := hnone r hr
      simpa using fun h => this h.symm
    rw [hword]
    simp [runCommand, banCommand, hlow, hfind, sendTextMessage, World.emit]

/-- Witness for C16: a kick of a name that no listed viewer has, and an unban
of a name that was never banned. -/
theorem unknown_name_is_reported_not_found_witness :
    checkCommand threeViewersWorld 0 "/kick Spectator(9)".toList =
      (true, { threeViewersWorld with
        trace := threeViewersWorld.trace ++
          [.sendTextMessage "Spectator not found.".toList] }) ∧
    checkCommand threeViewersWorld 0 "/unban Spectator(2)".toList =
      (true, { threeViewersWorld with
        trace := threeViewersWorld.trace ++
          [.sendTextMessage "Spectator not found.".toList] }) :=
  ⟨(unknown_name_is_reported_not_found threeViewersWorld 0 "/kick Spectator(9)".toList
      "Spectator(9)".toList (by decide) (by decide) (by decide)).1 (by decide) (by decide),
    (unknown_name_is_reported_not_found threeViewersWorld 0 "/unban Spectator(2)".toList
      "Spectator(2)".toList (by decide) (by decide) (by decide)).2 (by decide) (by decide)⟩

/-! ## Teardown, removal and lookup -/

theorem releaseSpectator_spectators (w : World) (q p : SpecPtr) :
    (releaseSpectator w q).spectators p =
      if p = q then
        { w.spectators q with
          player := none
          disconnects := (w.spectators q).disconnects + 1
          refs := (w.spectators q).refs - 1 }
      else w.spectators p := by
  by_cases h : p = q
  · subst h
    simp [releaseSpectator, setPlayer, disconnectSpectator, World.setSpectator, World.emit]
  · simp [releaseSpectator, setPlayer, disconnectSpectator, World.setSpectator, World.emit,
      Function.update, h]

theorem foldl_releaseSpectator_spectators (l : List SpecPtr) :
    ∀ (w : World) (p : SpecPtr),
      ((l.foldl releaseSpectator w).spectators p).disconnects =
        (w.spectators p).disconnects + l.count p ∧
      ((l.foldl releaseSpectator w).spectators p).refs = (w.spectators p).refs - l.count p ∧
      ((l.foldl releaseSpectator w).spectators p).player =
        (if p ∈ l then none else (w.spectators p).player) := by
  induction l with
  | nil => intro w p; simp
  | cons q l ih =>
    intro w p
    obtain ⟨h1, h2, h3⟩ := ih (releaseSpectator w q) p
    simp only [List.foldl_cons, h1, h2, h3, releaseSpectator_spectators]
    by_cases h : p = q
    · subst h
      simp only [if_true, List.count_cons_self, List.mem_cons, true_or]
      refine ⟨by omega, by push_cast; omega, ?_⟩
      split <;> rfl
    · have hqp : ¬ (q == p) = true := by simpa using fun hq => h hq.symm
      have hcount : List.count p (q :: l) = List.count p l := by
        rw [List.count_cons]; simp [hqp]
      rw [hcount]
      simp only [List.mem_cons, h, false_or, if_false, and_self]

theorem stopLiveCast_spectators (w : World) (self : CasterPtr)
    (hactive : (w.casters self).m_isLiveCaster = true) (p : SpecPtr) :
    ((stopLiveCast w self).2.spectators p).disconnects =
      (w.spectators p).disconnects + (w.casters self).m_spectators.count p ∧
    ((stopLiveCast w self).2.spectators p).refs =
      (w.spectators p).refs - (w.casters self).m_spectators.count p ∧
    ((stopLiveCast w self).2.spectators p).player =
      (if p ∈ (w.casters self).m_spectators then none else (w.spectators p).player) := by
  have hf := foldl_releaseSpectator_spectators (w.casters self).m_spectators
    { w.setCaster self { w.casters self with m_spectators := [], m_isLiveCaster := false } with
      m_liveCasts := liveCastsErase (w.casters self).player
        (w.setCaster self
          { w.casters self with m_spectators := [], m_isLiveCaster := false }).m_liveCasts } p
  unfold stopLiveCast
  simp only [hactive, Bool.not_true, Bool.false_eq_true, if_false]
  split <;> simpa [unregisterLiveCast, World.setCaster, World.emit] using hf

/-- C17: for every Active session whose viewer list holds no client twice and
whose registry entries are keyed by its owner, stopLiveCast returns true and
afterwards the session is Inactive, no registry entry refers to it, its
viewer list, mute list and ban map are empty, getSpectatorByName returns
nothing for every name, and every previously listed viewer has its player
pointer cleared (the effect of `setPlayer(nullptr)`, modelled from the spec)
and has been disconnected exactly once; a client that was not listed is not
disconnected. -/
theorem stopLiveCast_tears_down_session (w : World) (self : CasterPtr)
    (hactive : (w.casters self).m_isLiveCaster = true)
    (hnodup : (w.casters self).m_spectators.Nodup)
    (hreg : ∀ e ∈ w.m_liveCasts, e.2 = self → (w.casters self).player = some e.1) :
    (stopLiveCast w self).1 = true ∧
    ((stopLiveCast w self).2.casters self).m_isLiveCaster = false ∧
    (∀ e ∈ (stopLiveCast w self).2.m_liveCasts, e.2 ≠ self) ∧
    ((stopLiveCast w self).2.casters self).m_spectators = [] ∧
    ((stopLiveCast w self).2.casters self).muteList = [] ∧
    ((stopLiveCast w self).2.casters self).banMap = [] ∧
    (∀ name, getSpectatorByName (stopLiveCast w self).2 self name = none) ∧
    (∀ p ∈ (w.casters self).m_spectators,
      ((stopLiveCast w self).2.spectators p).player = none ∧
      ((stopLiveCast w self).2.spectators p).disconnects = (w.spectators p).disconnects + 1) ∧
    (∀ p, p ∉ (w.casters self).m_spectators →
      ((stopLiveCast w self).2.spectators p).disconnects = (w.spectators p).disconnects) := by
  obtain ⟨h1, h2, _, _, _, _, h7⟩ := stopLiveCast_active w self hactive
  refine ⟨h1, by rw [h7], ?_, by rw [h7], by rw [h7], by rw [h7], ?_, ?_, ?_⟩
  · intro e he hself
    rw [h2] at he
    have hp := hreg e ?_ hself
    · rw [hp] at he
      simp [liveCastsErase] at he
    · cases hpl : (w.casters self).player with
      | none => rw [hpl] at he; exact he
      | some pl =>
        rw [hpl] at he
        exact (List.mem_filter.1 he).1
  · intro name
    simp [getSpectatorByName, h7, findSpectator]
  · intro p hp
    obtain ⟨hd, _, hpl⟩ := stopLiveCast_spectators w self hactive p
    rw [hd, hpl, if_pos hp, List.count_eq_one_of_mem hnodup hp]
    exact ⟨rfl, rfl⟩
  · intro p hp
    obtain ⟨hd, _, _⟩ := stopLiveCast_spectators w self hactive p
    rw [hd, List.count_eq_zero_of_not_mem hp]
    rfl

/-- Witness for C17: stopping the cast of caster 0 with its three viewers. -/
theorem stopLiveCast_tears_down_session_witness :
    (stopLiveCast threeViewersWorld 0).2.m_liveCasts = [] ∧
    ((stopLiveCast threeViewersWorld 0).2.casters 0).m_isLiveCaster = false ∧
    (∀ p ∈ (threeViewersWorld.casters 0).m_spectators,
      ((stopLiveCast threeViewersWorld 0).2.spectators p).player = none ∧
      ((stopLiveCast threeViewersWorld 0).2.spectators p).disconnects =
        (threeViewersWorld.spectators p).disconnects + 1) :=
  have h := stopLiveCast_tears_down_session threeViewersWorld 0 (by decide) (by decide)
    (by decide)
  ⟨by decide, h.2.1, h.2.2.2.2.2.2.2.1⟩

theorem removeSpectator_not_listed (w : World) (self : CasterPtr) (p : SpecPtr)
    (hp : p ∉ (w.casters self).m_spectators) :
    removeSpectator w self p = updateLiveCastInfo w self := by
  simp [removeSpectator, hp]

/-- C19: for every world and session, removeSpectator of a client that is not
in the viewer list leaves every caster (viewer list, mute list, ban map),
every spectator client (so every reference count) and the registry
unchanged; its only effect is the database task of updateLiveCastInfo.  For
a client listed in a viewer list that holds no client twice it removes
exactly that client (the others stay, in order), releases one reference and
leaves the mute list and ban map as they were; a second removeSpectator of
the same client then changes no caster, spectator client or registry
entry. -/
theorem removeSpectator_idempotent (w : World) (self : CasterPtr) (p : SpecPtr) :
    (p ∉ (w.casters self).m_spectators →
      (removeSpectator w self p).casters = w.casters ∧
      (removeSpectator w self p).spectators = w.spectators ∧
      (removeSpectator w self p).m_liveCasts = w.m_liveCasts) ∧
    (p ∈ (w.casters self).m_spectators → (w.casters self).m_spectators.Nodup →
      ((removeSpectator w self p).casters self).m_spectators =
        (w.casters self).m_spectators.filter (fun q => q != p) ∧
      ((removeSpectator w self p).casters self).muteList = (w.casters self).muteList ∧
      ((removeSpectator w self p).casters self).banMap = (w.casters self).banMap ∧
      ((removeSpectator w self p).spectators p).refs = (w.spectators p).refs - 1 ∧
      (∀ q, q ≠ p → (removeSpectator w self p).spectators q = w.spectators q) ∧
      (removeSpectator (removeSpectator w self p) self p).casters =
        (removeSpectator w self p).casters ∧
      (removeSpectator (removeSpectator w self p) self p).spectators =
        (removeSpectator w self p).spectators ∧
      (removeSpectator (removeSpectator w self p) self p).m_liveCasts =
        (removeSpectator w self p).m_liveCasts) := by
  have habsent : ∀ w' : World, p ∉ (w'.casters self).m_spectators →
      (removeSpectator w' self p).casters = w'.casters ∧
      (removeSpectator w' self p).spectators = w'.spectators ∧
      (removeSpectator w' self p).m_liveCasts = w'.m_liveCasts := by
    intro w' h
    rw [removeSpectator_not_listed w' self p h]
    exact ⟨rfl, rfl, rfl⟩
  refine ⟨habsent w, fun hp hnodup => ?_⟩
  have hc := removeSpectator_caster w self p
  have herase := List.Nodup.erase_eq_filter hnodup p
  have hgone : p ∉ ((removeSpectator w self p).casters self).m_spectators := by
    rw [hc]
    simp only [herase]
    simp
  obtain ⟨h1, h2, h3⟩ := habsent (removeSpectator w self p) hgone
  refine ⟨by rw [hc]; exact herase, by rw [hc], by rw [hc], ?_, ?_, h1, h2, h3⟩
  · simp [removeSpectator, updateLiveCastInfo, World.setCaster, World.setSpectator, World.emit,
      hp]
  · intro q hq
    simp [removeSpectator, updateLiveCastInfo, World.setCaster, World.setSpectator, World.emit,
      hp, Function.update, hq]

/-- Witness for C19: removing a client that never joined, and removing the
second of three viewers twice. -/
theorem removeSpectator_idempotent_witness :
    (removeSpectator threeViewersWorld 0 9).casters = threeViewersWorld.casters ∧
    ((removeSpectator threeViewersWorld 0 2).casters 0).m_spectators = [1, 3] ∧
    (removeSpectator (removeSpectator threeViewersWorld 0 2) 0 2).casters =
      (removeSpectator threeViewersWorld 0 2).casters :=
  have h1 := (removeSpectator_idempotent threeViewersWorld 0 9).1 (by decide)
  have h2 := (removeSpectator_idempotent threeViewersWorld 0 2).2 (by decide) (by decide)
  ⟨h1.1, h2.1, h2.2.2.2.2.2.1⟩

theorem findSpectator_eq_none_iff (w : World) (tmpName : Str) (l : List SpecPtr) :
    findSpectator w tmpName l = none ↔
      ∀ p ∈ l, toLowerCaseString (w.spectators p).spectatorName ≠ tmpName := by
  induction l with
  | nil => simp [findSpectator]
  | cons t rest ih =>
    by_cases ht : toLowerCaseString (w.spectators t).spectatorName = tmpName
    · simp [findSpectator, ht]
    · simp [findSpectator, ht, ih]

theorem findSpectator_eq_some (w : World) (tmpName : Str) (l : List SpecPtr) (v : SpecPtr)
    (hfound : findSpectator w tmpName l = some v) :
    ∃ before after, l = before ++ v :: after ∧
      toLowerCaseString (w.spectators v).spectatorName = tmpName ∧
      ∀ q ∈ before, toLowerCaseString (w.spectators q).spectatorName ≠ tmpName := by
  induction l with
  | nil => simp [findSpectator] at hfound
  | cons t rest ih =>
    by_cases ht : toLowerCaseString (w.spectators t).spectatorName = tmpName
    · simp only [findSpectator, if_pos ht, Option.some.injEq] at hfound
      subst hfound
      exact ⟨[], rest, rfl, ht, by simp⟩
    · simp only [findSpectator, if_neg ht] at hfound
      obtain ⟨before, after, hl, hv, hb⟩ := ih hfound
      refine ⟨t :: before, after, by rw [hl]; rfl, hv, ?_⟩
      intro q hq
      rcases List.mem_cons.1 hq with h | h
      · rw [h]; exact ht
      · exact hb q h

/-- C20: for every world, session and name, getSpectatorByName returns nothing
if and only if no listed viewer's lowercased display name equals the
lowercased name; and when it returns a viewer v, v is listed, its display
name equals the name when both are lowercased, no viewer before it in list
order has such a name (v is the first match), and the display name of v has
the length of the name, so a proper prefix or a longer string is never
matched. -/
theorem getSpectatorByName_first_case_insensitive_match (w : World) (self : CasterPtr)
    (name : Str) :
    (getSpectatorByName w self name = none ↔
      ∀ p ∈ (w.casters self).m_spectators,
        toLowerCaseString (w.spectators p).spectatorName ≠ toLowerCaseString name) ∧
    (∀ v, getSpectatorByName w self name = some v →
      ∃ before after, (w.casters self).m_spectators = before ++ v :: after ∧
        toLowerCaseString (w.spectators v).spectatorName = toLowerCaseString name ∧
        (∀ q ∈ before,
          toLowerCaseString (w.spectators q).spectatorName ≠ toLowerCaseString name) ∧
        (w.spectators v).spectatorName.length = name.length) := by
  refine ⟨findSpectator_eq_none_iff w _ _, fun v hv => ?_⟩
  obtain ⟨before, after, hl, hname, hb⟩ := findSpectator_eq_some w _ _ v hv
  refine ⟨before, after, hl, hname, hb, ?_⟩
  have := congrArg List.length hname
  simpa [toLowerCaseString] using this

/-- Witness for C20: among three viewers, the name of the second one in upper
case finds it, a proper prefix of the name finds nothing. -/
theorem getSpectatorByName_first_case_insensitive_match_witness :
    getSpectatorByName threeViewersWorld 0 "SPECTATOR(2)".toList = some 2 ∧
    (∃ before after, (threeViewersWorld.casters 0).m_spectators = before ++ 2 :: after ∧
      toLowerCaseString (threeViewersWorld.spectators 2).spectatorName =
        toLowerCaseString "SPECTATOR(2)".toList ∧
      (∀ q ∈ before, toLowerCaseString (threeViewersWorld.spectators q).spectatorName ≠
        toLowerCaseString "SPECTATOR(2)".toList) ∧
      (threeViewersWorld.spectators 2).spectatorName.length = "SPECTATOR(2)".toList.length) ∧
    getSpectatorByName threeViewersWorld 0 "Spectator(".toList = none :=
  have h := getSpectatorByName_first_case_insensitive_match threeViewersWorld 0
  ⟨by decide, (h "SPECTATOR(2)".toList).2 2 (by decide),
    (h "Spectator(".toList).1.2 (by decide)⟩

/-! ## Scenario -/


/-- C21: for every Inactive session with a valid owner (a player that is not
removed, and a connection), casting enabled, a registry below the cap and no
registry entry under that owner, startLiveCast returns true and afterwards
the session is Active and registered under its owner, its viewer list, mute
list and ban map are empty, its id counter is 0 so that the next joining
viewer gets the id 1, its name is the owner's name and its password is the
given password. -/
theorem startLiveCast_starts_fresh_session (w : World) (self : CasterPtr) (player : PlayerPtr)
    (password : Str) (p : SpecPtr)
    (henabled : w.enableLiveCasting = true)
    (hinactive : (w.casters self).m_isLiveCaster = false)
    (hplayer : (w.casters self).player = some player)
    (hvalid : (w.players player).removed = false)
    (hconn : (w.casters self).hasConnection = true)
    (hroom : w.m_liveCasts.length < w.maxLiveCastCount)
    (hfree : player ∉ w.m_liveCasts.map Prod.fst) :
    (startLiveCast w self password).1 = true ∧
    ((startLiveCast w self password).2.casters self).m_isLiveCaster = true ∧
    (player, self) ∈ (startLiveCast w self password).2.m_liveCasts ∧
    ((startLiveCast w self password).2.casters self).m_spectators = [] ∧
    ((startLiveCast w self password).2.casters self).muteList = [] ∧
    ((startLiveCast w self password).2.casters self).banMap = [] ∧
    ((startLiveCast w self password).2.casters self).m_spectatorsCount = 0 ∧
    ((addSpectator (startLiveCast w self password).2 self p).spectators p).spectatorId = 1 ∧
    ((startLiveCast w self password).2.casters self).m_liveCastName = (w.players player).name ∧
    ((startLiveCast w self password).2.casters self).m_liveCastPassword = password := by
  obtain ⟨h1, h2, _, h4⟩ :=
    startLiveCast_success w self player password henabled hinactive hplayer hvalid hconn hroom
  refine ⟨h1, by rw [h4], ?_, by rw [h4], by rw [h4], by rw [h4], by rw [h4], ?_, by rw [h4],
    by rw [h4]⟩
  · rw [h2, liveCastsInsert, if_neg hfree]
    simp
  · rw [addSpectator_spectator_id, if_pos rfl, h4]
    rfl

/-- Witness for C21: the first start in a world where nothing is cast. -/
theorem startLiveCast_starts_fresh_session_witness :
    (startLiveCast (idleWorld 2) 0 "secret".toList).1 = true ∧
    (0, 0) ∈ (startLiveCast (idleWorld 2) 0 "secret".toList).2.m_liveCasts ∧
    ((addSpectator (startLiveCast (idleWorld 2) 0 "secret".toList).2 0 5).spectators
      5).spectatorId = 1 ∧
    ((startLiveCast (idleWorld 2) 0 "secret".toList).2.casters 0).m_liveCastName =
      "Alice".toList :=
  have h := startLiveCast_starts_fresh_session (idleWorld 2) 0 0 "secret".toList 5
    (by decide) (by decide) (by decide) (by decide) (by decide) (by decide) (by decide)
  ⟨h.1, h.2.2.1, h.2.2.2.2.2.2.2.1, h.2.2.2.2.2.2.2.2.1⟩

theorem stdSort_singleton (sort : List (Nat × Str) → List (Nat × Str))
    (hsort : StdSort castComp sort) (e : Nat × Str) : sort [e] = [e] :=
  List.perm_singleton.1 (hsort [e]).1

theorem getCastingStreamsList_of_built (sort : List (Nat × Str) → List (Nat × Str))
    (w : World) (password : Str) (hbuilt : buildCastList w password ≠ []) :
    getCastingStreamsList sort w password = .castList (sort (buildCastList w password)) := by
  unfold getCastingStreamsList
  have hlen : ¬ (buildCastList w password).length = 0 :=
    fun h => hbuilt (List.length_eq_zero.1 h)
  simp only [hlen, if_false]

/-- C27: the scenario.  From the empty registry the start by the player Alice
with the empty password succeeds; the two joins get the ids 1 and 2 and the
names Spectator(1) and Spectator(2); "/mute Spectator(1)" leaves the viewer
count at 2; "/kick Spectator(2)" disconnects the client 2 and makes the
count 1; after "/password secret" the session is password-protected and,
for every sort that meets the contract of `std::sort`, the directory query
with the password "secret" and the query with the empty password both
answer the one entry (1, Alice); after the stop the registry is empty and
the query answers no entry. -/
theorem scenario_alice_cast (sort : List (Nat × Str) → List (Nat × Str))
    (hsort : StdSort castComp sort) :
    (idleWorld 2).m_liveCasts = [] ∧
    ((idleWorld 2).players 0).name = "Alice".toList ∧
    startLiveCast (idleWorld 2) 0 [] = (true, castingWorld) ∧
    ((scenarioJoined.spectators 1).spectatorId = 1 ∧
      (scenarioJoined.spectators 1).spectatorName = "Spectator(1)".toList ∧
      (scenarioJoined.spectators 2).spectatorId = 2 ∧
      (scenarioJoined.spectators 2).spectatorName = "Spectator(2)".toList ∧
      getSpectatorCount (scenarioJoined.casters 0) = 2) ∧
    ((scenarioMuted.casters 0).muteList = [1] ∧
      getSpectatorCount (scenarioMuted.casters 0) = 2) ∧
    ((scenarioKicked.spectators 2).disconnects = 1 ∧
      (scenarioKicked.casters 0).m_spectators = [1] ∧
      getSpectatorCount (scenarioKicked.casters 0) = 1) ∧
    ((scenarioProtected.casters 0).m_liveCastPassword = "secret".toList ∧
      isPasswordProtected (scenarioProtected.casters 0) = true ∧
      getCastingStreamsList sort scenarioProtected "secret".toList =
        .castList [(1, "Alice".toList)] ∧
      getCastingStreamsList sort scenarioProtected [] = .castList [(1, "Alice".toList)]) ∧
    (scenarioStopped.m_liveCasts = [] ∧
      (getCastingStreamsList sort scenarioStopped []).entries = []) := by
  have hsecret : buildCastList scenarioProtected "secret".toList = [(1, "Alice".toList)] := by
    decide
  have hopen : buildCastList scenarioProtected [] = [(1, "Alice".toList)] := by decide
  have hstopped : buildCastList scenarioStopped [] = [] := by decide
  refine ⟨by decide, by decide, rfl, by decide, by decide, by decide,
    ⟨by decide, by decide, ?_, ?_⟩, by decide, ?_⟩
  · rw [getCastingStreamsList_of_built sort _ _ (by rw [hsecret]; exact List.cons_ne_nil _ _),
      hsecret, stdSort_singleton sort hsort]
  · rw [getCastingStreamsList_of_built sort _ _ (by rw [hopen]; exact List.cons_ne_nil _ _),
      hopen, stdSort_singleton sort hsort]
  · rw [getCastingStreamsList_entries sort hsort, hstopped]
    exact List.Perm.eq_nil (hsort []).1

/-- Witness for C27: the scenario with insertion sort as the directory sort. -/
theorem scenario_alice_cast_witness :
    StdSort castComp insertionSortCasts ∧
    getCastingStreamsList insertionSortCasts scenarioProtected "secret".toList =
      .castList [(1, "Alice".toList)] ∧
    (getCastingStreamsList insertionSortCasts scenarioStopped []).entries = [] :=
  have h := scenario_alice_cast insertionSortCasts stdSort_insertionSortCasts
  ⟨stdSort_insertionSortCasts, h.2.2.2.2.2.2.1.2.2.1, h.2.2.2.2.2.2.2.2⟩

/-! ## What a command dispatch can change -/

theorem quietStep_refl (self : CasterPtr) (strict : Bool) (w : World) :
    QuietStep self strict w w :=
  ⟨rfl, rfl, rfl, rfl, rfl, fun _ _ => rfl, rfl, rfl, rfl, rfl, rfl, rfl, fun _ => rfl⟩

theorem quietStep_emit (self : CasterPtr) (strict : Bool) (w w1 : World) (e : Event)
    (h : QuietStep self strict w w1) : QuietStep self strict w (w1.emit e) := h

theorem quietStep_setMuteList (self : CasterPtr) (strict : Bool) (w w1 : World)
    (ml : List Nat) (h : QuietStep self strict w w1) :
    QuietStep self strict w (w1.setCaster self { w1.casters self with muteList := ml }) := by
  obtain ⟨h1, h2, h3, h4, h5, h6, h7, h8, h9, h10, h11, h12, h13⟩ := h
  refine ⟨h1, h2, h3, h4, h5, fun c hc => ?_, ?_, ?_, ?_, ?_, ?_, ?_, ?_⟩ <;>
    simp_all [World.setCaster, Function.update]

theorem quietStep_setBanMap (self : CasterPtr) (strict : Bool) (w w1 : World)
    (bm : List (Nat × Str)) (h : QuietStep self strict w w1) :
    QuietStep self strict w (w1.setCaster self { w1.casters self with banMap := bm }) := by
  obtain ⟨h1, h2, h3, h4, h5, h6, h7, h8, h9, h10, h11, h12, h13⟩ := h
  refine ⟨h1, h2, h3, h4, h5, fun c hc => ?_, ?_, ?_, ?_, ?_, ?_, ?_, ?_⟩ <;>
    simp_all [World.setCaster, Function.update]

theorem quietStep_setPassword (self : CasterPtr) (w w1 : World) (pw : Str)
    (h : QuietStep self false w w1) :
    QuietStep self false w
      (w1.setCaster self { w1.casters self with m_liveCastPassword := pw }) := by
  obtain ⟨h1, h2, h3, h4, h5, h6, h7, h8, h9, h10, h11, h12, h13⟩ := h
  refine ⟨h1, h2, h3, h4, h5, fun c hc => ?_, ?_, ?_, ?_, ?_, ?_, ?_, ?_⟩ <;>
    simp_all [World.setCaster, Function.update]

theorem quietStep_weaken (self : CasterPtr) (strict : Bool) (w w1 : World)
    (h : QuietStep self true w w1) : QuietStep self strict w w1 := by
  obtain ⟨h1, h2, h3, h4, h5, h6, h7, h8, h9, h10, h11, h12, h13⟩ := h
  exact ⟨h1, h2, h3, h4, h5, h6, h7, h8, h9, h10, h11, h12, fun _ => h13 rfl⟩

theorem findSpectator_mem (w : World) (tmpName : Str) (l : List SpecPtr) (v : SpecPtr)
    (hfound : findSpectator w tmpName l = some v) : v ∈ l := by
  obtain ⟨before, after, hl, _, _⟩ := findSpectator_eq_some w tmpName l v hfound
  rw [hl]
  simp

theorem muteCommand_quiet (w : World) (self : CasterPtr) (command toMute : Str) :
    QuietStep self true w (muteCommand w self command toMute) := by
  unfold muteCommand
  by_cases h0 : toMute = []
  · rw [if_pos h0]
    exact quietStep_emit _ _ _ _ _ (quietStep_refl _ _ _)
  · rw [if_neg h0]
    cases getSpectatorByName w self toMute with
    | none => exact quietStep_emit _ _ _ _ _ (quietStep_refl _ _ _)
    | some spectator =>
      by_cases hm : command = "mute".toList
      · simp only [hm, if_true]
        exact quietStep_emit _ _ _ _ _ (quietStep_setMuteList _ _ _ _ _
          (quietStep_emit _ _ _ _ _ (quietStep_refl _ _ _)))
      · simp only [hm, if_false]
        split
        · exact quietStep_emit _ _ _ _ _ (quietStep_setMuteList _ _ _ _ _
            (quietStep_emit _ _ _ _ _ (quietStep_refl _ _ _)))
        · exact quietStep_emit _ _ _ _ _ (quietStep_refl _ _ _)

theorem getSpectatorByName_mem (w : World) (self : CasterPtr) (name : Str) (v : SpecPtr)
    (hfound : getSpectatorByName w self name = some v) : v ∈ (w.casters self).m_spectators :=
  findSpectator_mem w _ _ v hfound

theorem kickCommand_shape (w : World) (self : CasterPtr) (toKick : Str) :
    ∃ w1, QuietStep self true w w1 ∧
      (kickCommand w self toKick = w1 ∨
        ∃ v, v ∈ (w.casters self).m_spectators ∧
          kickCommand w self toKick = disconnectSpectator (removeSpectator w1 self v) v) := by
  unfold kickCommand
  by_cases h0 : toKick = []
  · rw [if_pos h0]
    exact ⟨_, quietStep_emit _ _ _ _ _ (quietStep_refl _ _ _), Or.inl rfl⟩
  · rw [if_neg h0]
    cases hfind : getSpectatorByName w self toKick with
    | none => exact ⟨_, quietStep_emit _ _ _ _ _ (quietStep_refl _ _ _), Or.inl rfl⟩
    | some spectator =>
      exact ⟨_, quietStep_emit _ _ _ _ _ (quietStep_refl _ _ _),
        Or.inr ⟨spectator, getSpectatorByName_mem w self _ _ hfind, rfl⟩⟩

theorem banCommand_shape (w : World) (self : CasterPtr) (command t1 : Str) :
    ∃ w1, QuietStep self true w w1 ∧
      (banCommand w self command t1 = w1 ∨
        ∃ v, v ∈ (w.casters self).m_spectators ∧
          banCommand w self command t1 = disconnectSpectator (removeSpectator w1 self v) v) := by
  unfold banCommand
  by_cases h0 : toLowerCaseString t1 = []
  · simp only [h0, if_true]
    exact ⟨_, quietStep_emit _ _ _ _ _ (quietStep_refl _ _ _), Or.inl rfl⟩
  · simp only [h0, if_false]
    by_cases hcmd : command ≠ "unban".toList
    · rw [if_pos hcmd]
      cases hfind : getSpectatorByName w self (toLowerCaseString t1) with
      | none => exact ⟨_, quietStep_emit _ _ _ _ _ (quietStep_refl _ _ _), Or.inl rfl⟩
      | some spectator =>
        exact ⟨_, quietStep_emit _ _ _ _ _ (quietStep_setBanMap _ _ _ _ _
            (quietStep_emit _ _ _ _ _ (quietStep_refl _ _ _))),
          Or.inr ⟨spectator, getSpectatorByName_mem w self _ _ hfind, rfl⟩⟩
    · rw [if_neg hcmd]
      cases (w.casters self).banMap.find? (fun it => decide (toLowerCaseString t1 = it.2)) with
      | none => exact ⟨_, quietStep_emit _ _ _ _ _ (quietStep_refl _ _ _), Or.inl rfl⟩
      | some it =>
        exact ⟨_, quietStep_emit _ _ _ _ _ (quietStep_emit _ _ _ _ _
          (quietStep_setBanMap _ _ _ _ _ (quietStep_refl _ _ _))), Or.inl rfl⟩

theorem passwordCommand_quiet (w : World) (self : CasterPtr) (newPassword : Str) :
    QuietStep self false w (passwordCommand w self newPassword) := by
  unfold passwordCommand
  by_cases h0 : newPassword = []
  · rw [if_pos h0]
    exact quietStep_emit _ _ _ _ _ (quietStep_refl _ _ _)
  · rw [if_neg h0]
    exact quietStep_emit _ _ _ _ _ (quietStep_emit _ _ _ _ _
      (quietStep_setPassword _ _ _ _ (quietStep_refl _ _ _)))

theorem runCommand_shape (w : World) (self : CasterPtr) (command : Str) (args : List Str) :
    ∃ w1, QuietStep self (decide (command ≠ "password".toList)) w w1 ∧
      (runCommand w self command args = w1 ∨
        ∃ v, v ∈ (w.casters self).m_spectators ∧
          runCommand w self command args =
            disconnectSpectator (removeSpectator w1 self v) v) := by
  have hquiet : ∀ text : Str, ∀ strict : Bool,
      QuietStep self strict w (sendTextMessage w text) :=
    fun _ _ => quietStep_emit _ _ _ _ _ (quietStep_refl _ _ _)
  unfold runCommand
  by_cases hmute : command = "mute".toList ∨ command = "unmute".toList
  · rw [if_pos hmute]
    split
    · exact ⟨_, quietStep_weaken _ _ _ _ (muteCommand_quiet _ _ _ _), Or.inl rfl⟩
    · exact ⟨_, hquiet _ _, Or.inl rfl⟩
  · rw [if_neg hmute]
    by_cases hban : command = "ban".toList ∨ command = "unban".toList
    · rw [if_pos hban]
      split
      · obtain ⟨w1, hq, hres⟩ := banCommand_shape w self command ‹Str›
        exact ⟨w1, quietStep_weaken _ _ _ _ hq, hres⟩
      · exact ⟨_, hquiet _ _, Or.inl rfl⟩
    · rw [if_neg hban]
      by_cases hspec : command = "spectators".toList
      · rw [if_pos hspec]
        exact ⟨_, quietStep_emit _ _ _ _ _ (quietStep_refl _ _ _), Or.inl rfl⟩
      · rw [if_neg hspec]
        by_cases hpw : command = "password".toList
        · rw [if_pos hpw]
          have hstrict : decide (command ≠ "password".toList) = false := by simp [hpw]
          rw [hstrict]
          split
          · exact ⟨_, passwordCommand_quiet _ _ _, Or.inl rfl⟩
          · exact ⟨_, hquiet _ _, Or.inl rfl⟩
        · rw [if_neg hpw]
          by_cases hkick : command = "kick".toList
          · rw [if_pos hkick]
            split
            · obtain ⟨w1, hq, hres⟩ := kickCommand_shape w self (toLowerCaseString ‹Str›)
              exact ⟨w1, quietStep_weaken _ _ _ _ hq, hres⟩
            · exact ⟨_, hquiet _ _, Or.inl rfl⟩
          · rw [if_neg hkick]
            exact ⟨_, hquiet _ _, Or.inl rfl⟩

theorem remove_and_disconnect_world (w : World) (self : CasterPtr) (v : SpecPtr) :
    (disconnectSpectator (removeSpectator w self v) v).enableLiveCasting =
      w.enableLiveCasting ∧
    (disconnectSpectator (removeSpectator w self v) v).maxLiveCastCount = w.maxLiveCastCount ∧
    (disconnectSpectator (removeSpectator w self v) v).players = w.players ∧
    (disconnectSpectator (removeSpectator w self v) v).m_liveCasts = w.m_liveCasts ∧
    (∀ c, c ≠ self →
      (disconnectSpectator (removeSpectator w self v) v).casters c = w.casters c) := by
  by_cases hv : v ∈ (w.casters self).m_spectators
  · refine ⟨?_, ?_, ?_, ?_, fun c hc => ?_⟩ <;>
      simp [disconnectSpectator, removeSpectator, updateLiveCastInfo, World.setCaster,
        World.setSpectator, World.emit, hv]
    simp [Function.update, hc]
  · refine ⟨?_, ?_, ?_, ?_, fun c hc => ?_⟩ <;>
      simp [disconnectSpectator, removeSpectator, updateLiveCastInfo, World.setCaster,
        World.setSpectator, World.emit, hv]

/-- What any command dispatch leaves unchanged. -/
theorem checkCommand_frame (w : World) (self : CasterPtr) (text : Str) :
    (checkCommand w self text).2.enableLiveCasting = w.enableLiveCasting ∧
    (checkCommand w self text).2.maxLiveCastCount = w.maxLiveCastCount ∧
    (checkCommand w self text).2.players = w.players ∧
    (checkCommand w self text).2.m_liveCasts = w.m_liveCasts ∧
    (∀ c, c ≠ self → (checkCommand w self text).2.casters c = w.casters c) ∧
    ((checkCommand w self text).2.casters self).player = (w.casters self).player ∧
    ((checkCommand w self text).2.casters self).hasConnection =
      (w.casters self).hasConnection ∧
    ((checkCommand w self text).2.casters self).m_isLiveCaster =
      (w.casters self).m_isLiveCaster ∧
    ((checkCommand w self text).2.casters self).m_spectatorsCount =
      (w.casters self).m_spectatorsCount ∧
    ((checkCommand w self text).2.casters self).m_liveCastName =
      (w.casters self).m_liveCastName ∧
    ((checkCommand w self text).2.casters self).m_spectators.Sublist
      (w.casters self).m_spectators ∧
    (commandWord text ≠ "password".toList →
      ((checkCommand w self text).2.casters self).m_liveCastPassword =
        (w.casters self).m_liveCastPassword) := by
  by_cases hslash : text.head? = some '/'
  · rw [checkCommand_prefixed w self text hslash]
    obtain ⟨w1, hq, hres⟩ := runCommand_shape w self (commandWord text) (commandArgs text)
    obtain ⟨h1, h2, h3, h4, h5, h6, h7, h8, h9, h10, h11, h12, h13⟩ := hq
    have hpw : commandWord text ≠ "password".toList →
        (w1.casters self).m_liveCastPassword = (w.casters self).m_liveCastPassword :=
      fun hne => h13 (decide_eq_true hne)
    rcases hres with hres | ⟨v, hv, hres⟩
    · simp only [hres]
      exact ⟨h1, h2, h3, h5, h6, h7, h8, h9, h11, h12, by rw [h10], hpw⟩
    · simp only [hres]
      have hv1 : v ∈ (w1.casters self).m_spectators := by rw [h10]; exact hv
      obtain ⟨hc, _, _⟩ := remove_and_disconnect w1 self v hv1
      obtain ⟨g1, g2, g3, g4, g5⟩ := remove_and_disconnect_world w1 self v
      rw [hc]
      refine ⟨g1.trans h1, g2.trans h2, g3.trans h3, g4.trans h5,
        fun c hne => (g5 c hne).trans (h6 c hne), h7, h8, h9, h11, h12, ?_, hpw⟩
      simp only [h10]
      exact List.erase_sublist _ _
  · rw [checkCommand_not_prefixed w self text hslash]
    exact ⟨rfl, rfl, rfl, rfl, fun _ _ => rfl, rfl, rfl, rfl, rfl, rfl, List.Sublist.refl _,
      fun _ => rfl⟩

/-- C29: for every world, session and chat text, checkCommand leaves the
session's Active flag, cast name and viewer-id counter and the registry
unchanged (and its player, every other caster and the configuration too),
never adds a viewer (the new viewer list is a sublist of the old one), and
changes the password only when the command word is password. -/
theorem checkCommand_changes_no_session_identity (w : World) (self : CasterPtr) (text : Str) :
    ((checkCommand w self text).2.casters self).m_isLiveCaster =
      (w.casters self).m_isLiveCaster ∧
    ((checkCommand w self text).2.casters self).m_liveCastName =
      (w.casters self).m_liveCastName ∧
    ((checkCommand w self text).2.casters self).m_spectatorsCount =
      (w.casters self).m_spectatorsCount ∧
    (checkCommand w self text).2.m_liveCasts = w.m_liveCasts ∧
    ((checkCommand w self text).2.casters self).m_spectators.Sublist
      (w.casters self).m_spectators ∧
    (commandWord text ≠ "password".toList →
      ((checkCommand w self text).2.casters self).m_liveCastPassword =
        (w.casters self).m_liveCastPassword) ∧
    ((checkCommand w self text).2.casters self).player = (w.casters self).player ∧
    (∀ c, c ≠ self → (checkCommand w self text).2.casters c = w.casters c) := by
  obtain ⟨_, _, _, h4, h5, h6, _, h8, h9, h10, h11, h12⟩ := checkCommand_frame w self text
  exact ⟨h8, h10, h9, h4, h11, h12, h6, h5⟩

/-- Witness for C29: a kick removes a viewer but keeps the password, a mute
keeps the viewer list. -/
theorem checkCommand_changes_no_session_identity_witness :
    ((checkCommand scenarioProtected 0 "/kick Spectator(1)".toList).2.casters
      0).m_liveCastPassword = "secret".toList ∧
    ((checkCommand threeViewersWorld 0 "/mute Spectator(2)".toList).2.casters
      0).m_spectators.Sublist [1, 2, 3] :=
  ⟨(checkCommand_changes_no_session_identity scenarioProtected 0
      "/kick Spectator(1)".toList).2.2.2.2.2.1 (by decide),
    (checkCommand_changes_no_session_identity threeViewersWorld 0
      "/mute Spectator(2)".toList).2.2.2.2.1⟩

/-! ## Reference balance -/

theorem registryInv_of_frame (w w' : World)
    (hreg : w'.m_liveCasts = w.m_liveCasts)
    (hcap : w'.maxLiveCastCount = w.maxLiveCastCount)
    (hcast : ∀ c, (w'.casters c).player = (w.casters c).player ∧
      (w'.casters c).m_isLiveCaster = (w.casters c).m_isLiveCaster)
    (hinv : RegistryInv w) : RegistryInv w' := by
  obtain ⟨h1, h2, h3, h4, h5⟩ := hinv
  refine ⟨by rw [hreg, hcap]; exact h1, by rw [hreg]; exact h2, ?_, ?_, ?_⟩
  · intro e he
    rw [hreg] at he
    rw [(hcast e.2).1, (hcast e.2).2]
    exact h3 e he
  · intro c hc
    rw [(hcast c).2] at hc
    rw [hreg]
    exact h4 c hc
  · intro a b p ha hb
    rw [(hcast a).1] at ha
    rw [(hcast b).1] at hb
    exact h5 a b p ha hb

theorem addSpectator_world (w : World) (self : CasterPtr) (p : SpecPtr) :
    (addSpectator w self p).m_liveCasts = w.m_liveCasts ∧
    (addSpectator w self p).maxLiveCastCount = w.maxLiveCastCount ∧
    (∀ c, c ≠ self → (addSpectator w self p).casters c = w.casters c) := by
  refine ⟨rfl, rfl, fun c hc => ?_⟩
  simp [addSpectator, updateLiveCastInfo, World.setCaster, World.setSpectator, World.emit,
    Function.update, hc]

theorem removeSpectator_world (w : World) (self : CasterPtr) (p : SpecPtr) :
    (removeSpectator w self p).m_liveCasts = w.m_liveCasts ∧
    (removeSpectator w self p).maxLiveCastCount = w.maxLiveCastCount ∧
    (∀ c, c ≠ self → (removeSpectator w self p).casters c = w.casters c) := by
  by_cases hp : p ∈ (w.casters self).m_spectators
  · refine ⟨?_, ?_, fun c hc => ?_⟩ <;>
      simp [removeSpectator, updateLiveCastInfo, World.setCaster, World.setSpectator,
        World.emit, hp]
    simp [Function.update, hc]
  · rw [removeSpectator_not_listed w self p hp]
    exact ⟨rfl, rfl, fun _ _ => rfl⟩

theorem registryInv_addSpectator (w : World) (self : CasterPtr) (p : SpecPtr)
    (hinv : RegistryInv w) : RegistryInv (addSpectator w self p) := by
  obtain ⟨h1, h2, h3⟩ := addSpectator_world w self p
  refine registryInv_of_frame w _ h1 h2 (fun c => ?_) hinv
  by_cases hc : c = self
  · subst hc
    rw [addSpectator_caster]
    exact ⟨rfl, rfl⟩
  · rw [h3 c hc]
    exact ⟨rfl, rfl⟩

theorem registryInv_removeSpectator (w : World) (self : CasterPtr) (p : SpecPtr)
    (hinv : RegistryInv w) : RegistryInv (removeSpectator w self p) := by
  obtain ⟨h1, h2, h3⟩ := removeSpectator_world w self p
  refine registryInv_of_frame w _ h1 h2 (fun c => ?_) hinv
  by_cases hc : c = self
  · subst hc
    rw [removeSpectator_caster]
    exact ⟨rfl, rfl⟩
  · rw [h3 c hc]
    exact ⟨rfl, rfl⟩

theorem registryInv_checkCommand (w : World) (self : CasterPtr) (text : Str)
    (hinv : RegistryInv w) : RegistryInv (checkCommand w self text).2 := by
  obtain ⟨_, h2, _, h4, h5, h6, _, h8, _, _, _, _⟩ := checkCommand_frame w self text
  refine registryInv_of_frame w _ h4 h2 (fun c => ?_) hinv
  by_cases hc : c = self
  · subst hc
    exact ⟨h6, h8⟩
  · rw [h5 c hc]
    exact ⟨rfl, rfl⟩

theorem startLiveCast_cases (w : World) (self : CasterPtr) (password : Str) :
    startLiveCast w self password = (false, w) ∨
    ∃ player, w.enableLiveCasting = true ∧ (w.casters self).m_isLiveCaster = false ∧
      (w.casters self).player = some player ∧ (w.players player).removed = false ∧
      (w.casters self).hasConnection = true ∧ w.m_liveCasts.length < w.maxLiveCastCount := by
  cases hen : w.enableLiveCasting with
  | false => left; simp [startLiveCast, hen]
  | true =>
    cases hact : (w.casters self).m_isLiveCaster with
    | true => left; simp [startLiveCast, hact]
    | false =>
      cases hpl : (w.casters self).player with
      | none => left; simp [startLiveCast, playerInvalid, hpl]
      | some player =>
        cases hrem : (w.players player).removed with
        | true => left; simp [startLiveCast, playerInvalid, hpl, hrem]
        | false =>
          cases hconn : (w.casters self).hasConnection with
          | false => left; simp [startLiveCast, hconn]
          | true =>
            by_cases hroom : w.m_liveCasts.length < w.maxLiveCastCount
            · exact Or.inr ⟨player, rfl, rfl, rfl, hrem, rfl, hroom⟩
            · left
              exact startLiveCast_full w self password (by omega)

theorem startLiveCast_success_others (w : World) (self : CasterPtr) (player : PlayerPtr)
    (password : Str)
    (henabled : w.enableLiveCasting = true)
    (hinactive : (w.casters self).m_isLiveCaster = false)
    (hplayer : (w.casters self).player = some player)
    (hvalid : (w.players player).removed = false)
    (hconn : (w.casters self).hasConnection = true)
    (hroom : w.m_liveCasts.length < w.maxLiveCastCount) :
    ∀ c, c ≠ self → (startLiveCast w self password).2.casters c = w.casters c := by
  intro c hc
  have hnot : ¬ w.maxLiveCastCount ≤ w.m_liveCasts.length := by omega
  simp [startLiveCast, henabled, hinactive, hplayer, hvalid, hconn, playerInvalid, hnot,
    registerLiveCast, World.setCaster, World.emit, Function.update, hc]

theorem registryInv_startLiveCast (w : World) (self : CasterPtr) (password : Str)
    (hinv : RegistryInv w) : RegistryInv (startLiveCast w self password).2 := by
  rcases startLiveCast_cases w self password with hfail | ⟨player, hen, hina, hpl, hval, hconn,
    hroom⟩
  · rw [hfail]; exact hinv
  · obtain ⟨h1, h2, h3, h4, h5⟩ := hinv
    obtain ⟨_, hreg, hcap, hself⟩ :=
      startLiveCast_success w self player password hen hina hpl hval hconn hroom
    have hothers :=
      startLiveCast_success_others w self player password hen hina hpl hval hconn hroom
    have hnotself : ∀ e ∈ w.m_liveCasts, e.2 ≠ self := by
      intro e he hes
      have := (h3 e he).2
      rw [hes, hina] at this
      exact Bool.noConfusion this
    have hfree : player ∉ w.m_liveCasts.map Prod.fst := by
      intro hmem
      obtain ⟨e, he, hep⟩ := List.mem_map.1 hmem
      have hpe := (h3 e he).1
      rw [hep] at hpe
      exact hnotself e he (h5 e.2 self player hpe hpl)
    have hreg2 : (startLiveCast w self password).2.m_liveCasts =
        w.m_liveCasts ++ [(player, self)] := by
      rw [hreg, liveCastsInsert, if_neg hfree]
    have hplayers : ∀ c, ((startLiveCast w self password).2.casters c).player =
        (w.casters c).player := by
      intro c
      by_cases hc : c = self
      · subst hc; rw [hself]
      · rw [hothers c hc]
    refine ⟨?_, ?_, ?_, ?_, ?_⟩
    · rw [hreg2, hcap, List.length_append, List.length_singleton]
      omega
    · rw [hreg2, List.map_append, List.nodup_append]
      refine ⟨h2, by simp, ?_⟩
      intro a ha hb
      simp only [List.map_cons, List.map_nil, List.mem_singleton] at hb
      exact hfree (hb ▸ ha)
    · intro e he
      rw [hreg2, List.mem_append, List.mem_singleton] at he
      rcases he with he | he
      · rw [hothers e.2 (hnotself e he)]
        exact h3 e he
      · rw [he, hself]
        exact ⟨hpl, rfl⟩
    · intro c hc
      by_cases hcs : c = self
      · subst hcs
        exact ⟨player, by rw [hreg2]; simp⟩
      · rw [hothers c hcs] at hc
        obtain ⟨p, hp⟩ := h4 c hc
        exact ⟨p, by rw [hreg2]; exact List.mem_append_left _ hp⟩
    · intro a b p ha hb
      rw [hplayers a] at ha
      rw [hplayers b] at hb
      exact h5 a b p ha hb

theorem registryInv_stopLiveCast (w : World) (self : CasterPtr)
    (hinv : RegistryInv w) : RegistryInv (stopLiveCast w self).2 := by
  cases hact : (w.casters self).m_isLiveCaster with
  | false =>
    have : stopLiveCast w self = (false, w) := by simp [stopLiveCast, hact]
    rw [this]; exact hinv
  | true =>
    obtain ⟨h1, h2, h3, h4, h5⟩ := hinv
    obtain ⟨_, hreg, _, _, hcap, hothers, hself⟩ := stopLiveCast_active w self hact
    obtain ⟨p, hp⟩ := h4 self hact
    have hpl : (w.casters self).player = some p := (h3 (p, self) hp).1
    have hreg2 : (stopLiveCast w self).2.m_liveCasts =
        w.m_liveCasts.filter (fun e => e.1 != p) := by
      rw [hreg, hpl]; rfl
    have hplayers : ∀ c, ((stopLiveCast w self).2.casters c).player =
        (w.casters c).player := by
      intro c
      by_cases hc : c = self
      · subst hc; rw [hself]
      · rw [hothers c hc]
    have hkept : ∀ e ∈ w.m_liveCasts.filter (fun e => e.1 != p),
        e ∈ w.m_liveCasts ∧ e.1 ≠ p ∧ e.2 ≠ self := by
      intro e he
      obtain ⟨hmem, hne⟩ := List.mem_filter.1 he
      have hne2 : e.1 ≠ p := by simpa using hne
      refine ⟨hmem, hne2, fun hes => ?_⟩
      have := (h3 e hmem).1
      rw [hes, hpl] at this
      exact hne2 (Option.some.inj this).symm
    refine ⟨?_, ?_, ?_, ?_, ?_⟩
    · rw [hreg2, hcap]
      exact le_trans (List.length_filter_le _ _) h1
    · rw [hreg2]
      exact h2.sublist ((List.filter_sublist _).map _)
    · intro e he
      rw [hreg2] at he
      obtain ⟨hmem, _, hns⟩ := hkept e he
      rw [hothers e.2 hns]
      exact h3 e hmem
    · intro c hc
      have hcs : c ≠ self := by
        intro h
        rw [h, hself] at hc
        exact Bool.noConfusion hc
      rw [hothers c hcs] at hc
      obtain ⟨q, hq⟩ := h4 c hc
      refine ⟨q, ?_⟩
      rw [hreg2]
      refine List.mem_filter.2 ⟨hq, ?_⟩
      have hqp : q ≠ p := by
        intro h
        have := (h3 (q, c) hq).1
        rw [h] at this
        exact hcs (h5 c self p this hpl)
      simpa using hqp
    · intro a b q ha hb
      rw [hplayers a] at ha
      rw [hplayers b] at hb
      exact h5 a b q ha hb

theorem registryInv_runCastOps (ops : List CastOp) :
    ∀ w : World, RegistryInv w → RegistryInv (runCastOps w ops) := by
  induction ops with
  | nil => intro w h; exact h
  | cons op ops ih =>
    intro w h
    simp only [runCastOps]
    apply ih
    cases op with
    | start c pw => exact registryInv_startLiveCast w c pw h
    | stop c => exact registryInv_stopLiveCast w c h
    | addViewer c p => exact registryInv_addSpectator w c p h
    | removeViewer c p => exact registryInv_removeSpectator w c p h
    | command c text => exact registryInv_checkCommand w c text h

/-- C22: in every world reached from a world with an empty registry, no
Active session and no two casters with the same player, by any sequence of
start, stop, addSpectator, removeSpectator and command dispatch calls on any
sessions, the registry size is at most the configured cap, each owner has at
most one registry entry, and a session has a registry entry if and only if
it is Active. -/
theorem registry_invariant_reachable (w : World) (ops : List CastOp)
    (hempty : w.m_liveCasts = [])
    (hinactive : ∀ c, (w.casters c).m_isLiveCaster = false)
    (howners : ∀ a b p, (w.casters a).player = some p → (w.casters b).player = some p →
      a = b) :
    (runCastOps w ops).m_liveCasts.length ≤ (runCastOps w ops).maxLiveCastCount ∧
    ((runCastOps w ops).m_liveCasts.map Prod.fst).Nodup ∧
    (∀ c, (∃ p, (p, c) ∈ (runCastOps w ops).m_liveCasts) ↔
      ((runCastOps w ops).casters c).m_isLiveCaster = true) := by
  have hinit : RegistryInv w := by
    refine ⟨by rw [hempty]; exact Nat.zero_le _, by rw [hempty]; exact List.nodup_nil,
      ?_, ?_, howners⟩
    · intro e he
      rw [hempty] at he
      exact absurd he (List.not_mem_nil _)
    · intro c hc
      rw [hinactive c] at hc
      exact Bool.noConfusion hc
  obtain ⟨h1, h2, h3, h4, _⟩ := registryInv_runCastOps ops w hinit
  exact ⟨h1, h2, fun c => ⟨fun ⟨p, hp⟩ => (h3 (p, c) hp).2, h4 c⟩⟩

/-- Witness for C22: three starts under a cap of two, viewers, a kick and a
stop. -/
theorem registry_invariant_reachable_witness :
    (runCastOps (idleWorld 2)
      [.start 0 [], .start 1 "secret".toList, .start 2 [], .addViewer 0 1,
        .command 0 "/kick Spectator(1)".toList, .stop 0, .start 2 []]).m_liveCasts =
      [(1, 1), (2, 2)] ∧
    (∀ c, (∃ p, (p, c) ∈ (runCastOps (idleWorld 2)
      [.start 0 [], .start 1 "secret".toList, .start 2 [], .addViewer 0 1,
        .command 0 "/kick Spectator(1)".toList, .stop 0, .start 2 []]).m_liveCasts) ↔
      ((runCastOps (idleWorld 2)
      [.start 0 [], .start 1 "secret".toList, .start 2 [], .addViewer 0 1,
        .command 0 "/kick Spectator(1)".toList, .stop 0, .start 2 []]).casters
        c).m_isLiveCaster = true) :=
  ⟨by decide,
    (registry_invariant_reachable (idleWorld 2)
      [.start 0 [], .start 1 "secret".toList, .start 2 [], .addViewer 0 1,
        .command 0 "/kick Spectator(1)".toList, .stop 0, .start 2 []]
      rfl (fun _ => rfl)
      (fun a b p ha hb => by
        have h1 : a = p := Option.some.inj ha
        have h2 : b = p := Option.some.inj hb
        rw [h1, h2])).2.2⟩

/-! ## Command word and viewer names -/

theorem char_toLower_eq_space (c : Char) (h : c.toLower = ' ') : c = ' ' := by
  by_cases hr : c.toNat ≥ 65 ∧ c.toNat ≤ 90
  · exfalso
    have hc : c = Char.ofNat c.toNat := (Char.ofNat_toNat c).symm
    generalize c.toNat = n at hr hc
    subst hc
    obtain ⟨h1, h2⟩ := hr
    revert h
    interval_cases n <;> decide
  · have : c.toLower = c := by simp only [Char.toLower]; rw [if_neg hr]
    rw [this] at h
    exact h

theorem space_not_mem_of_lower_eq (word word' : Str) (hspace : ' ' ∉ word)
    (hcase : toLowerCaseString word' = toLowerCaseString word) : ' ' ∉ word' := by
  intro hmem
  have h1 : ' ' ∈ toLowerCaseString word' :=
    List.mem_map.2 ⟨' ', hmem, by decide⟩
  rw [hcase] at h1
  obtain ⟨c, hc, hlow⟩ := List.mem_map.1 h1
  exact hspace (char_toLower_eq_space c hlow ▸ hc)

/-- C26: the command word is case-insensitive: for every world and session,
every command word without a space and every argument, the text made of '/',
the word, a space and the argument and the same text with the word in any
other letter case (the two words are equal when lowercased) give the same
result, the same resulting world and the same log of messages. -/
theorem command_word_is_case_insensitive (w : World) (self : CasterPtr) (word word' arg : Str)
    (hspace : ' ' ∉ word)
    (hcase : toLowerCaseString word' = toLowerCaseString word) :
    checkCommand w self ('/' :: (word' ++ ' ' :: arg)) =
      checkCommand w self ('/' :: (word ++ ' ' :: arg)) := by
  rw [checkCommand_word_arg w self word arg hspace,
    checkCommand_word_arg w self word' arg (space_not_mem_of_lower_eq word word' hspace hcase),
    hcase]

/-- Witness for C26: a kick typed in mixed case. -/
theorem command_word_is_case_insensitive_witness :
    checkCommand threeViewersWorld 0 "/KiCk Spectator(2)".toList =
      checkCommand threeViewersWorld 0 "/kick Spectator(2)".toList ∧
    ((checkCommand threeViewersWorld 0 "/KiCk Spectator(2)".toList).2.casters 0).m_spectators =
      [1, 3] :=
  ⟨command_word_is_case_insensitive threeViewersWorld 0 "kick".toList "KiCk".toList
      "Spectator(2)".toList (by decide) (by decide),
    by decide⟩

/-! ## Listing and order of effects -/

theorem cStr_of_no_nul (s : Str) (h : ∀ c ∈ s, c ≠ Char.ofNat 0) : cStr s = s := by
  unfold cStr
  apply List.takeWhile_eq_self_iff.2
  intro c hc
  simpa using h c hc

theorem spectatorsCommand_eq (w : World) (self : CasterPtr) :
    spectatorsCommand w self = sendChannelMessage w (cStr (spectatorsListing w self)) := by
  unfold spectatorsCommand spectatorsListing getSpectatorCount
  cases h : (w.casters self).m_spectators with
  | nil => simp [h]
  | cons a l => simp [h]

theorem runCommand_spectators (w : World) (self : CasterPtr) (args : List Str) :
    runCommand w self "spectators".toList args = spectatorsCommand w self := by
  unfold runCommand
  rw [if_neg (by decide), if_neg (by decide), if_pos rfl]

/-- C24 (amended): for every world and session, a '/'-prefixed text whose
command word is spectators returns true and its only effect is one message
on the cast channel (no member, spectator client or registry entry
changes): the text, cut at its first NUL, that starts with the line
"Spectators:" and then holds the display name of every listed viewer, in
list order, each followed by a newline, when the list is not empty, and the
text "No spectators." followed by a newline when it is empty.  When no
listed display name holds a NUL the text is sent whole. -/
theorem spectators_command_lists_viewers (w : World) (self : CasterPtr) (text : Str)
    (hslash : text.head? = some '/')
    (hword : commandWord text = "spectators".toList) :
    checkCommand w self text =
      (true, { w with trace := w.trace ++
        [.sendChannelMessage (cStr (spectatorsListing w self)) false] }) ∧
    ((w.casters self).m_spectators = [] →
      spectatorsListing w self = "No spectators.".toList ++ ['\n']) ∧
    ((w.casters self).m_spectators ≠ [] →
      spectatorsListing w self =
        "Spectators:".toList ++ ['\n'] ++
          ((w.casters self).m_spectators.map
            (fun it => (w.spectators it).spectatorName ++ ['\n'])).flatten) ∧
    ((∀ p ∈ (w.casters self).m_spectators,
        ∀ c ∈ (w.spectators p).spectatorName, c ≠ Char.ofNat 0) →
      cStr (spectatorsListing w self) = spectatorsListing w self) := by
  refine ⟨?_, fun h => ?_, fun h => ?_, fun hnul => ?_⟩
  · rw [checkCommand_prefixed w self text hslash, hword, runCommand_spectators,
      spectatorsCommand_eq]
    rfl
  · simp only [spectatorsListing, h, if_true]
  · simp only [spectatorsListing, h, if_false]
  · apply cStr_of_no_nul
    intro c hc
    unfold spectatorsListing at hc
    by_cases hl : (w.casters self).m_spectators = []
    · rw [if_pos hl] at hc
      have : ∀ d ∈ "No spectators.".toList ++ ['\n'], d ≠ Char.ofNat 0 := by decide
      exact this c hc
    · rw [if_neg hl, List.mem_append] at hc
      rcases hc with hc | hc
      · have : ∀ d ∈ "Spectators:".toList ++ ['\n'], d ≠ Char.ofNat 0 := by decide
        exact this c hc
      · obtain ⟨line, hline, hcl⟩ := List.mem_flatten.1 hc
        obtain ⟨p, hp, hpl⟩ := List.mem_map.1 hline
        rw [← hpl, List.mem_append, List.mem_singleton] at hcl
        rcases hcl with hcl | hcl
        · exact hnul p hp c hcl
        · rw [hcl]; decide

/-- Witness for C24: the listing of three viewers. -/
theorem spectators_command_lists_viewers_witness :
    checkCommand threeViewersWorld 0 "/spectators".toList =
      (true, { threeViewersWorld with trace := threeViewersWorld.trace ++
        [.sendChannelMessage (cStr (spectatorsListing threeViewersWorld 0)) false] }) ∧
    cStr (spectatorsListing threeViewersWorld 0) =
      "Spectators:\nSpectator(1)\nSpectator(2)\nSpectator(3)\n".toList :=
  ⟨(spectators_command_lists_viewers threeViewersWorld 0 "/spectators".toList (by decide)
      (by decide)).1,
    by decide⟩

/-- Counterexample to C24 as stated: with the viewers Spectator(1),
Spectator(2), Spectator(3) listed the message is not their names joined by
newlines: it starts with the line "Spectators:" and ends with a newline;
with no viewer listed the message is "No spectators." followed by a
newline. -/
theorem spectators_listing_is_not_the_joined_names :
    (checkCommand threeViewersWorld 0 "/spectators".toList).2.trace.getLast? =
      some (.sendChannelMessage
        "Spectators:\nSpectator(1)\nSpectator(2)\nSpectator(3)\n".toList false) ∧
    "Spectators:\nSpectator(1)\nSpectator(2)\nSpectator(3)\n".toList ≠
      List.intercalate ['\n']
        ((threeViewersWorld.casters 0).m_spectators.map
          (fun p => (threeViewersWorld.spectators p).spectatorName)) ∧
    (castingWorld.casters 0).m_spectators = [] ∧
    (checkCommand castingWorld 0 "/spectators".toList).2.trace.getLast? =
      some (.sendChannelMessage "No spectators.\n".toList false) ∧
    "No spectators.\n".toList ≠ "No spectators.".toList := by
  decide

theorem muteCommand_listed (w : World) (self : CasterPtr) (v : SpecPtr)
    (hv : v ∈ (w.casters self).m_spectators)
    (hnames : ((w.casters self).m_spectators.map
      (fun p => toLowerCaseString (w.spectators p).spectatorName)).Nodup)
    (hname : (w.spectators v).spectatorName ≠ []) :
    (muteCommand w self "mute".toList
        (toLowerCaseString (w.spectators v).spectatorName)).trace =
      w.trace ++
        [.sendChannelMessage ((w.spectators v).spectatorName ++ " has been muted.".toList) false,
          .muteListPushBack (w.spectators v).spectatorId] ∧
    ((w.spectators v).spectatorId ∈ (w.casters self).muteList →
      (muteCommand w self "unmute".toList
          (toLowerCaseString (w.spectators v).spectatorName)).trace =
        w.trace ++
          [.sendChannelMessage
              ((w.spectators v).spectatorName ++ " has been unmuted.".toList) false,
            .muteListErase (w.spectators v).spectatorId]) := by
  have hne : toLowerCaseString (w.spectators v).spectatorName ≠ [] :=
    fun h => hname ((toLowerCaseString_eq_nil _).1 h)
  have hfind := getSpectatorByName_listed w self v _ hv hnames rfl
  have hcmd : "unmute".toList ≠ "mute".toList := by decide
  constructor
  · simp only [muteCommand, if_neg hne, hfind, if_true]
    simp [sendChannelMessage, World.emit, World.setCaster]
  · intro hin
    simp only [muteCommand, if_neg hne, hfind, if_neg hcmd]
    simp [sendChannelMessage, World.emit, World.setCaster, hin]

theorem kick_trace (w : World) (self : CasterPtr) (v : SpecPtr)
    (hv : v ∈ (w.casters self).m_spectators)
    (hnames : ((w.casters self).m_spectators.map
      (fun p => toLowerCaseString (w.spectators p).spectatorName)).Nodup)
    (hname : (w.spectators v).spectatorName ≠ []) :
    (checkCommand w self ("/kick ".toList ++ (w.spectators v).spectatorName)).2.trace =
      w.trace ++
        [.sendChannelMessage ((w.spectators v).spectatorName ++ " has been kicked.".toList) false,
          .spectatorsErase v,
          .updateLiveCastInfo (ownerGuid w self) (w.casters self).m_liveCastName
            (isPasswordProtected (w.casters self))
            ((w.casters self).m_spectators.erase v).length,
          .disconnect v] := by
  have hshape : "/kick ".toList ++ (w.spectators v).spectatorName =
      '/' :: ("kick".toList ++ ' ' :: (w.spectators v).spectatorName) := rfl
  rw [hshape, checkCommand_word_arg _ _ _ _ (by decide), runCommand_kick,
    kickCommand_listed w self v _ hv hnames hname rfl]
  simp [disconnectSpectator, removeSpectator, updateLiveCastInfo, World.setCaster,
    World.setSpectator, World.emit, sendChannelMessage, hv, ownerGuid, isPasswordProtected,
    getSpectatorCount]

/-- C25 (amended): on a session whose listed viewers have non-empty display
names that are pairwise distinct when lowercased, the log of checkCommand
for a moderation command on a listed viewer v shows the order of its
effects: for mute, unmute, kick and ban the message on the cast channel comes
first and the mutation after it (mute list push, mute list erase, viewer
removal with its database task and the disconnect, ban map insert followed
by the viewer removal); for unban and password the mutation comes first
(ban map erase, password assignment) and the message after it. -/
theorem moderation_effects_order (w : World) (self : CasterPtr) (v : SpecPtr)
    (hv : v ∈ (w.casters self).m_spectators)
    (hnames : ((w.casters self).m_spectators.map
      (fun p => toLowerCaseString (w.spectators p).spectatorName)).Nodup)
    (hname : (w.spectators v).spectatorName ≠ []) :
    (checkCommand w self ("/mute ".toList ++ (w.spectators v).spectatorName)).2.trace =
      w.trace ++
        [.sendChannelMessage ((w.spectators v).spectatorName ++ " has been muted.".toList) false,
          .muteListPushBack (w.spectators v).spectatorId] ∧
    ((w.spectators v).spectatorId ∈ (w.casters self).muteList →
      (checkCommand w self ("/unmute ".toList ++ (w.spectators v).spectatorName)).2.trace =
        w.trace ++
          [.sendChannelMessage
              ((w.spectators v).spectatorName ++ " has been unmuted.".toList) false,
            .muteListErase (w.spectators v).spectatorId]) ∧
    (checkCommand w self ("/kick ".toList ++ (w.spectators v).spectatorName)).2.trace =
      w.trace ++
        [.sendChannelMessage ((w.spectators v).spectatorName ++ " has been kicked.".toList) false,
          .spectatorsErase v,
          .updateLiveCastInfo (ownerGuid w self) (w.casters self).m_liveCastName
            (isPasswordProtected (w.casters self))
            ((w.casters self).m_spectators.erase v).length,
          .disconnect v] ∧
    (checkCommand w self ("/ban ".toList ++ (w.spectators v).spectatorName)).2.trace =
      w.trace ++
        [.sendChannelMessage ((w.spectators v).spectatorName ++ " has been banned.".toList) false,
          .banMapInsert (w.spectators v).ip (toLowerCaseString (w.spectators v).spectatorName),
          .spectatorsErase v,
          .updateLiveCastInfo (ownerGuid w self) (w.casters self).m_liveCastName
            (isPasswordProtected (w.casters self))
            ((w.casters self).m_spectators.erase v).length,
          .disconnect v] ∧
    (∀ arg it, arg ≠ [] →
      (w.casters self).banMap.find? (fun r => decide (toLowerCaseString arg = r.2)) = some it →
      (checkCommand w self ("/unban ".toList ++ arg)).2.trace =
        w.trace ++
          [.banMapErase it.1, .sendChannelMessage (arg ++ " has been unbanned.".toList) false]) ∧
    (∀ p, p ≠ [] →
      (checkCommand w self ("/password ".toList ++ p)).2.trace =
        w.trace ++
          [.setPassword p, .sendChannelMessage ("Casting new password: ".toList ++ p) false]) := by
  obtain ⟨hmute, hunmute⟩ := muteCommand_listed w self v hv hnames hname
  refine ⟨?_, fun hin => ?_, kick_trace w self v hv hnames hname,
    (ban_result w self v hv hnames hname).2, fun arg it harg hfind => ?_, fun p hp => ?_⟩
  · have hshape : "/mute ".toList ++ (w.spectators v).spectatorName =
        '/' :: ("mute".toList ++ ' ' :: (w.spectators v).spectatorName) := rfl
    rw [hshape, checkCommand_word_arg _ _ _ _ (by decide), runCommand_mute]
    exact hmute
  · have hshape : "/unmute ".toList ++ (w.spectators v).spectatorName =
        '/' :: ("unmute".toList ++ ' ' :: (w.spectators v).spectatorName) := rfl
    rw [hshape, checkCommand_word_arg _ _ _ _ (by decide), runCommand_unmute]
    exact hunmute hin
  · have hshape : "/unban ".toList ++ arg = '/' :: ("unban".toList ++ ' ' :: arg) := rfl
    have hne : toLowerCaseString arg ≠ [] := fun h => harg ((toLowerCaseString_eq_nil _).1 h)
    rw [hshape, checkCommand_word_arg _ _ _ _ (by decide), runCommand_unban,
      unbanCommand_found w self arg it hne hfind]
    simp [sendChannelMessage, World.emit, World.setCaster]
  · have hshape : "/password ".toList ++ p = '/' :: ("password".toList ++ ' ' :: p) := rfl
    have hw : toLowerCaseString "password".toList = "password".toList := by decide
    rw [hshape, checkCommand_word_arg _ _ _ _ (by decide), hw, runCommand_password,
      passwordCommand_nonempty w self p hp]
    simp [sendChannelMessage, World.emit, World.setCaster]

/-- Witness for C25: the logs of a mute and of a password change on the cast
with three viewers. -/
theorem moderation_effects_order_witness :
    (checkCommand threeViewersWorld 0 "/mute Spectator(2)".toList).2.trace =
      threeViewersWorld.trace ++
        [.sendChannelMessage "Spectator(2) has been muted.".toList false, .muteListPushBack 2] ∧
    (checkCommand threeViewersWorld 0 "/password secret".toList).2.trace =
      threeViewersWorld.trace ++
        [.setPassword "secret".toList,
          .sendChannelMessage "Casting new password: secret".toList false] :=
  have h := moderation_effects_order threeViewersWorld 0 2 (by decide) (by decide) (by decide)
  ⟨h.1, h.2.2.2.2.2 "secret".toList (by decide)⟩

/-- Counterexample to C25 as stated: in the log of "/mute Spectator(2)" and
of "/kick Spectator(2)" on the cast with three viewers the message on the
cast channel is the first entry and the mutation (the push on the mute
list, the erase from the viewer list) comes after it. -/
theorem message_is_sent_before_the_mutation :
    (checkCommand threeViewersWorld 0 "/mute Spectator(2)".toList).2.trace.drop
        threeViewersWorld.trace.length =
      [.sendChannelMessage "Spectator(2) has been muted.".toList false, .muteListPushBack 2] ∧
    ((checkCommand threeViewersWorld 0 "/kick Spectator(2)".toList).2.trace.drop
        threeViewersWorld.trace.length).take 2 =
      [.sendChannelMessage "Spectator(2) has been kicked.".toList false, .spectatorsErase 2] ∧
    ((checkCommand threeViewersWorld 0 "/mute Spectator(2)".toList).2.casters 0).muteList =
      [2] ∧
    (threeViewersWorld.casters 0).muteList = [] := by
  decide

/-! ## Display names -/

theorem digitValue_digitChar (k : Nat) (hk : k < 10) : digitValue (Nat.digitChar k) = k := by
  interval_cases k <;> decide

theorem digitValue_toLower (c : Char) : digitValue c.toLower = digitValue c := by
  unfold digitValue
  rw [char_toLower_idem]

theorem foldl_toDigitsCore (fuel : Nat) :
    ∀ (n : Nat) (ds : List Char), n < fuel →
      (Nat.toDigitsCore 10 fuel n ds).foldl (fun acc c => acc * 10 + digitValue c) 0 =
        ds.foldl (fun acc c => acc * 10 + digitValue c) n := by
  induction fuel with
  | zero => intro n ds h; omega
  | succ fuel ih =>
    intro n ds hn
    have hd : digitValue (Nat.digitChar (n % 10)) = n % 10 :=
      digitValue_digitChar _ (Nat.mod_lt _ (by decide))
    by_cases h0 : n / 10 = 0
    · have hlt : n < 10 := by omega
      simp only [Nat.toDigitsCore, h0, if_true, List.foldl_cons, hd]
      have : 0 * 10 + n % 10 = n := by omega
      rw [this]
    · simp only [Nat.toDigitsCore, h0, if_false]
      rw [ih (n / 10) _ (by omega), List.foldl_cons, hd]
      have : n / 10 * 10 + n % 10 = n := by omega
      rw [this]

theorem decimalValue_toDigits (n : Nat) : decimalValue (Nat.toDigits 10 n) = n := by
  unfold decimalValue Nat.toDigits
  rw [foldl_toDigitsCore (n + 1) n [] (by omega)]
  rfl

theorem decimalValue_toLowerCaseString (s : Str) :
    decimalValue (toLowerCaseString s) = decimalValue s := by
  unfold decimalValue toLowerCaseString
  rw [List.foldl_map]
  simp only [digitValue_toLower]

theorem spectatorNameOf_lower_injective (n m : Nat)
    (h : toLowerCaseString (spectatorNameOf n) = toLowerCaseString (spectatorNameOf m)) :
    n = m := by
  unfold spectatorNameOf toLowerCaseString at h
  simp only [List.map_append] at h
  have h1 := List.append_cancel_left (List.append_cancel_right h)
  have h2 := congrArg decimalValue h1
  have e : ∀ k, decimalValue (List.map Char.toLower (Nat.toDigits 10 k)) = k := by
    intro k
    have := decimalValue_toLowerCaseString (Nat.toDigits 10 k)
    unfold toLowerCaseString at this
    rw [this, decimalValue_toDigits]
  rw [e n, e m] at h2
  exact h2

theorem addSpectator_spectator_name (w : World) (self : CasterPtr) (p q : SpecPtr) :
    ((addSpectator w self p).spectators q).spectatorName =
      if q = p then spectatorNameOf (((w.casters self).m_spectatorsCount + 1) % UINT32)
      else (w.spectators q).spectatorName := by
  by_cases h : q = p <;>
    simp [addSpectator, updateLiveCastInfo, World.setCaster, World.setSpectator, World.emit,
      Function.update, h]

theorem removeSpectator_spectator_name (w : World) (self : CasterPtr) (p q : SpecPtr) :
    ((removeSpectator w self p).spectators q).spectatorName = (w.spectators q).spectatorName := by
  by_cases h : p ∈ (w.casters self).m_spectators <;> by_cases hq : q = p <;>
    simp [removeSpectator, updateLiveCastInfo, World.setCaster, World.setSpectator, World.emit,
      Function.update, h, hq]

theorem names_follow_ids_runOps (ops : List ViewerOp) :
    ∀ (w : World) (self : CasterPtr),
      (∀ p ∈ (w.casters self).m_spectators,
        (w.spectators p).spectatorName = spectatorNameOf (w.spectators p).spectatorId) →
      ∀ p ∈ ((runOps w self ops).casters self).m_spectators,
        ((runOps w self ops).spectators p).spectatorName =
          spectatorNameOf ((runOps w self ops).spectators p).spectatorId := by
  induction ops with
  | nil => intro w self h; exact h
  | cons op ops ih =>
    intro w self h
    simp only [runOps]
    apply ih
    cases op with
    | add v =>
      intro q hq
      simp only [applyOp, addSpectator_caster, List.mem_append, List.mem_singleton] at hq
      simp only [applyOp, addSpectator_spectator_name, addSpectator_spectator_id]
      by_cases hqv : q = v
      · simp only [hqv, if_true]
      · simp only [hqv, if_false]
        rcases hq with hq | hq
        · exact h q hq
        · exact absurd hq hqv
    | remove v =>
      intro q hq
      simp only [applyOp, removeSpectator_caster] at hq
      simp only [applyOp, removeSpectator_spectator_name, removeSpectator_spectator_id]
      exact h q (List.mem_of_mem_erase hq)

theorem names_nodup_of_ids_increasing (w : World) (self : CasterPtr)
    (hsorted : (listedIds w self).Pairwise (fun a b => a < b))
    (hnames : ∀ p ∈ (w.casters self).m_spectators,
      (w.spectators p).spectatorName = spectatorNameOf (w.spectators p).spectatorId) :
    ((w.casters self).m_spectators.map
      (fun p => toLowerCaseString (w.spectators p).spectatorName)).Nodup := by
  unfold listedIds at hsorted
  rw [List.pairwise_map] at hsorted
  unfold List.Nodup
  rw [List.pairwise_map]
  refine List.Pairwise.imp_of_mem ?_ hsorted
  intro a b ha hb hlt heq
  rw [hnames a ha, hnames b hb] at heq
  have := spectatorNameOf_lower_injective _ _ heq
  omega

/-- C23 (amended): every client added by addSpectator gets the display name
"Spectator(" followed by the decimal digits of its assigned id and ")".
Therefore, from a session whose listed viewers carry such names and ids that
increase along the list and are at most the counter (such as a fresh cast),
after every sequence of addSpectator and removeSpectator calls that keeps the
id counter below the wrap of its `uint32_t` and adds no client that is
listed at that time, every listed viewer still has the name of its id, no
two listed viewers have display names that are equal when lowercased, and
getSpectatorByName applied to a listed viewer's display name returns that
very viewer. -/
theorem viewer_names_follow_ids (w : World) (self : CasterPtr) (ops : List ViewerOp)
    (hbound : (w.casters self).m_spectatorsCount + countAdds ops < UINT32) :
    (∀ p, ((addSpectator w self p).spectators p).spectatorName =
      spectatorNameOf ((addSpectator w self p).spectators p).spectatorId) ∧
    ((listedIds w self).Pairwise (fun a b => a < b) →
      (∀ id ∈ listedIds w self, id ≤ (w.casters self).m_spectatorsCount) →
      (∀ p ∈ (w.casters self).m_spectators,
        (w.spectators p).spectatorName = spectatorNameOf (w.spectators p).spectatorId) →
      FreshAdds w self ops →
      (∀ p ∈ ((runOps w self ops).casters self).m_spectators,
        ((runOps w self ops).spectators p).spectatorName =
          spectatorNameOf ((runOps w self ops).spectators p).spectatorId) ∧
      (((runOps w self ops).casters self).m_spectators.map
        (fun p => toLowerCaseString ((runOps w self ops).spectators p).spectatorName)).Nodup ∧
      (∀ v ∈ ((runOps w self ops).casters self).m_spectators,
        getSpectatorByName (runOps w self ops) self
          ((runOps w self ops).spectators v).spectatorName = some v)) := by
  constructor
  · intro p
    rw [addSpectator_spectator_name, addSpectator_spectator_id, if_pos rfl, if_pos rfl]
  · intro hsorted hle hnames hfresh
    have hn := names_follow_ids_runOps ops w self hnames
    have hs := listedIds_increasing ops w self hbound hsorted hle hfresh
    have hd := names_nodup_of_ids_increasing (runOps w self ops) self hs hn
    refine ⟨hn, hd, fun v hv => ?_⟩
    have := getSpectatorByName_listed (runOps w self ops) self v
      ((runOps w self ops).spectators v).spectatorName hv hd rfl
    unfold getSpectatorByName at this ⊢
    rw [toLowerCaseString_idem] at this
    exact this

/-- Witness for C23: a fresh cast, two joins, a leave and a third join. -/
theorem viewer_names_follow_ids_witness :
    ((runOps castingWorld 0 [.add 1, .add 2, .remove 1, .add 3]).casters 0).m_spectators =
      [2, 3] ∧
    (((runOps castingWorld 0 [.add 1, .add 2, .remove 1, .add 3]).casters 0).m_spectators.map
      (fun p => toLowerCaseString
        ((runOps castingWorld 0 [.add 1, .add 2, .remove 1, .add 3]).spectators
          p).spectatorName)).Nodup ∧
    (∀ v ∈ ((runOps castingWorld 0 [.add 1, .add 2, .remove 1, .add 3]).casters 0).m_spectators,
      getSpectatorByName (runOps castingWorld 0 [.add 1, .add 2, .remove 1, .add 3]) 0
        ((runOps castingWorld 0 [.add 1, .add 2, .remove 1, .add 3]).spectators
          v).spectatorName = some v) :=
  have h := (viewer_names_follow_ids castingWorld 0 [.add 1, .add 2, .remove 1, .add 3]
    (by decide)).2 (by decide) (by decide) (by decide) (by simp only [FreshAdds]; decide)
  ⟨by decide, h.2.1, h.2.2⟩

/-- Counterexample to C23 as stated.  In the Active session that lists the
client 7 as Spectator(1) with the counter at 4294967295, the joins of the
clients 8 and 9 give 9 the id 1 and the name Spectator(1) again: two listed
viewers have the same display name and getSpectatorByName on the name of 9
returns 7.  And from a fresh cast, adding the clients 1, 2 and then 1 again
leaves the listed names Spectator(3), Spectator(2), Spectator(3). -/
theorem viewer_names_can_repeat :
    ((secondRoundWorld.casters 0).m_isLiveCaster = true ∧
      ((runOps secondRoundWorld 0 [.add 8, .add 9]).casters 0).m_spectators = [7, 8, 9] ∧
      ((runOps secondRoundWorld 0 [.add 8, .add 9]).spectators 7).spectatorName =
        "Spectator(1)".toList ∧
      ((runOps secondRoundWorld 0 [.add 8, .add 9]).spectators 9).spectatorName =
        "Spectator(1)".toList ∧
      getSpectatorByName (runOps secondRoundWorld 0 [.add 8, .add 9]) 0
        ((runOps secondRoundWorld 0 [.add 8, .add 9]).spectators 9).spectatorName = some 7) ∧
    (((runOps castingWorld 0 [.add 1, .add 2, .add 1]).casters 0).m_spectators.map
        (fun p => (runOps castingWorld 0 [.add 1, .add 2, .add 1]).spectators p |>.spectatorName)
      = ["Spectator(3)".toList, "Spectator(2)".toList, "Spectator(3)".toList]) := by
  decide

/-! ## Repeated names and repeated list entries -/

/-- Counterexample to C7 as stated.  In the Active session of
`repeatedNameWorld` the viewers 7, 8 and 9 are listed and 9 has the display
name Spectator(1), which 7 has too.  Dispatching "/kick " or "/ban " followed
by the name of 9 returns true and removes 7, the first viewer of that name:
9 stays listed and is not disconnected, 7 is disconnected.  And in the Active
session of `listedTwiceWorld`, whose list is 1, 2, 1, "/kick " followed by the
name of 1 removes one entry only: 1 is still listed afterwards. -/
theorem kick_or_ban_by_name_may_miss_the_viewer :
    ((repeatedNameWorld.casters 0).m_isLiveCaster = true ∧
      (repeatedNameWorld.casters 0).m_spectators = [7, 8, 9] ∧
      (checkCommand repeatedNameWorld 0
        ("/kick ".toList ++ (repeatedNameWorld.spectators 9).spectatorName)).1 = true ∧
      ((checkCommand repeatedNameWorld 0
        ("/kick ".toList ++ (repeatedNameWorld.spectators 9).spectatorName)).2.casters
          0).m_spectators = [8, 9] ∧
      ((checkCommand repeatedNameWorld 0
        ("/kick ".toList ++ (repeatedNameWorld.spectators 9).spectatorName)).2.spectators
          9).disconnects = (repeatedNameWorld.spectators 9).disconnects ∧
      ((checkCommand repeatedNameWorld 0
        ("/kick ".toList ++ (repeatedNameWorld.spectators 9).spectatorName)).2.spectators
          7).disconnects = (repeatedNameWorld.spectators 7).disconnects + 1 ∧
      ((checkCommand repeatedNameWorld 0
        ("/ban ".toList ++ (repeatedNameWorld.spectators 9).spectatorName)).2.casters
          0).m_spectators = [8, 9] ∧
      ((checkCommand repeatedNameWorld 0
        ("/ban ".toList ++ (repeatedNameWorld.spectators 9).spectatorName)).2.spectators
          9).disconnects = (repeatedNameWorld.spectators 9).disconnects) ∧
    ((listedTwiceWorld.casters 0).m_isLiveCaster = true ∧
      (listedTwiceWorld.casters 0).m_spectators = [1, 2, 1] ∧
      ((checkCommand listedTwiceWorld 0
        ("/kick ".toList ++ (listedTwiceWorld.spectators 1).spectatorName)).2.casters
          0).m_spectators = [2, 1] ∧
      1 ∈ ((checkCommand listedTwiceWorld 0
        ("/kick ".toList ++ (listedTwiceWorld.spectators 1).spectatorName)).2.casters
          0).m_spectators) := by
  decide

/-- Counterexample to C12 as stated.  On the running cast with three viewers
"/password secret" returns true and sets the password, and the confirmation
is the call of `sendChannelMessage` with the `broadcast` argument false: the
log of the command holds no call of `sendChannelMessage` with `broadcast`
true, so the confirmation is not broadcast. -/
theorem password_confirmation_is_not_broadcast :
    (threeViewersWorld.casters 0).m_isLiveCaster = true ∧
    (checkCommand threeViewersWorld 0 "/password secret".toList).1 = true ∧
    ((checkCommand threeViewersWorld 0 "/password secret".toList).2.casters
      0).m_liveCastPassword = "secret".toList ∧
    (checkCommand threeViewersWorld 0 "/password secret".toList).2.trace =
      threeViewersWorld.trace ++
        [.setPassword "secret".toList,
          .sendChannelMessage "Casting new password: secret".toList false] ∧
    (checkCommand threeViewersWorld 0 "/password secret".toList).2.trace.filter
      Event.isBroadcast = [] := by
  decide

/-- Counterexample to C17 as stated.  In the Active session of
`listedTwiceWorld`, registered under its owner, the viewer list is 1, 2, 1:
stopLiveCast returns true and calls `disconnect()` on the client 1 twice, once
for each entry of the list, and releases two references of it. -/
theorem stopLiveCast_disconnects_once_per_entry :
    (listedTwiceWorld.casters 0).m_isLiveCaster = true ∧
    (listedTwiceWorld.casters 0).m_spectators = [1, 2, 1] ∧
    listedTwiceWorld.m_liveCasts = [(0, 0)] ∧
    (listedTwiceWorld.casters 0).player = some 0 ∧
    (stopLiveCast listedTwiceWorld 0).1 = true ∧
    ((stopLiveCast listedTwiceWorld 0).2.spectators 1).disconnects =
      (listedTwiceWorld.spectators 1).disconnects + 2 ∧
    ((stopLiveCast listedTwiceWorld 0).2.spectators 1).disconnects ≠
      (listedTwiceWorld.spectators 1).disconnects + 1 ∧
    ((stopLiveCast listedTwiceWorld 0).2.spectators 1).refs =
      (listedTwiceWorld.spectators 1).refs - 2 := by
  decide

/-- Counterexample to C19 as stated.  In `listedTwiceWorld` the viewer list is
1, 2, 1: the first removeSpectator of the client 1 erases one entry and
leaves 2, 1, so the client is still listed, and the second removeSpectator of
the same client changes the list again, to 2, and releases one more
reference. -/
theorem second_removeSpectator_may_change_the_list :
    (listedTwiceWorld.casters 0).m_spectators = [1, 2, 1] ∧
    ((removeSpectator listedTwiceWorld 0 1).casters 0).m_spectators = [2, 1] ∧
    ((removeSpectator (removeSpectator listedTwiceWorld 0 1) 0 1).casters 0).m_spectators =
      [2] ∧
    (removeSpectator (removeSpectator listedTwiceWorld 0 1) 0 1).casters 0 ≠
      (removeSpectator listedTwiceWorld 0 1).casters 0 ∧
    ((removeSpectator (removeSpectator listedTwiceWorld 0 1) 0 1).spectators 1).refs =
      ((removeSpectator listedTwiceWorld 0 1).spectators 1).refs - 1 := by
  decide

end Cast
